import Mathlib

/-!
# Ruler API (`pkg/services/ngalert/api/api_ruler.go`)

A shallow embedding of the six ruler routes and of the rule translator, followed by
theorems about the aggregation of flat alert rules into rule group documents.

Conventions of the embedding:

* a Go `map[string]V` is an association list with pairwise distinct keys (`GoMap V`);
  the order in which a `range` statement visits a map is not fixed by Go, so every
  route that ranges over a map takes the visiting order as an argument (`RangeOrder`),
  and the theorems hold for every such order;
* the rule store is an interface; its methods are fields of `store.RuleStore`, over an
  arbitrary store state that the routes thread explicitly;
* `int64` values are integers, wrapped to 64 bits where the code multiplies.
-/

/-! ## Go maps -/

/-- A Go `map[string]V`: association list, keys pairwise distinct, in insertion order. -/
abbrev GoMap (V : Type) := List (String × V)

namespace GoMap

/-- The index expression `v, ok := m[k]`: `none` stands for `ok = false`. -/
def index {V : Type} : GoMap V → String → Option V
  | [], _ => none
  | (k', v) :: rest, k => if k' = k then some v else index rest k

/-- The assignment `m[k] = v`: replaces the value of an existing key, adds a missing one. -/
def assign {V : Type} : GoMap V → String → V → GoMap V
  | [], k, v => [(k, v)]
  | (k', v') :: rest, k, v =>
    if k' = k then (k', v) :: rest else (k', v') :: assign rest k v

/-- The keys of a map. -/
def keys {V : Type} (m : GoMap V) : List String := m.map Prod.fst

end GoMap

/-- One possible behaviour of `for k, v := range m`: the entries are visited in some
permutation of the map's entries. -/
structure RangeOrder (V : Type) where
  /-- The sequence in which the entries are visited. -/
  visit : GoMap V → GoMap V
  /-- Every entry is visited exactly once. -/
  visit_perm : ∀ m : GoMap V, (visit m).Perm m

/-- The visiting order that follows insertion order. -/
def RangeOrder.insertion (V : Type) : RangeOrder V := ⟨fun m => m, fun m => List.Perm.refl m⟩

/-- The visiting order that follows reverse insertion order. -/
def RangeOrder.reversed (V : Type) : RangeOrder V :=
  ⟨fun m => m.reverse, fun m => List.reverse_perm m⟩

/-- A Go `error` value (non-nil), identified by its message. -/
structure GoError where
  /-- The result of the `Error()` method. -/
  Error : String
  deriving DecidableEq, Repr

/-- Conversion of an integer to `int64` (two's complement wrap-around). -/
def wrapInt64 (x : Int) : Int := (x + 2 ^ 63) % 2 ^ 64 - 2 ^ 63

/-! ## Data model -/

namespace ngmodels

/-- The type `ngmodels.NoDataState`, a named string type. -/
structure NoDataState where
  /-- The underlying string. -/
  val : String
  deriving DecidableEq, Repr

/-- The type `ngmodels.ExecutionErrorState`, a named string type. -/
structure ExecutionErrorState where
  /-- The underlying string. -/
  val : String
  deriving DecidableEq, Repr

/-- Modelled from the spec: the declaration of `ngmodels.AlertQuery` is not part of the
file; the spec calls the rule definition payload not interpreted by this code, so a query
is identified by its reference id and its model text. -/
structure AlertQuery where
  /-- The reference id of the query. -/
  RefID : String
  /-- The query model. -/
  Model : String
  deriving DecidableEq, Repr

/-- The fields of `ngmodels.AlertRule` that the ruler routes read. -/
structure AlertRule where
  UID : String
  OrgID : Int
  NamespaceUID : String
  RuleGroup : String
  Title : String
  Condition : String
  Data : List AlertQuery
  IntervalSeconds : Int
  NoDataState : NoDataState
  ExecErrState : ExecutionErrorState
  deriving DecidableEq, Repr

/-- The fields of `ngmodels.UpdateAlertDefinitionCommand` that `toExtendedRuleNode` sets. -/
structure UpdateAlertDefinitionCommand where
  UID : String
  OrgID : Int
  Title : String
  Condition : String
  Data : List AlertQuery
  deriving DecidableEq, Repr

/-- The command of `DeleteNamespaceAlertRules`. -/
structure DeleteNamespaceAlertRulesCommand where
  OrgID : Int
  NamespaceUID : String
  deriving DecidableEq, Repr

/-- The command of `DeleteRuleGroupAlertRules`. -/
structure DeleteRuleGroupAlertRulesCommand where
  OrgID : Int
  NamespaceUID : String
  RuleGroup : String
  deriving DecidableEq, Repr

/-- The query of `GetNamespaceAlertRules`; its `Result` field is the value the store
method returns in this embedding. -/
structure ListNamespaceAlertRulesQuery where
  OrgID : Int
  NamespaceUID : String
  deriving DecidableEq, Repr

/-- The query of `GetRuleGroupAlertRules`; `Result` as above. -/
structure ListRuleGroupAlertRulesQuery where
  OrgID : Int
  NamespaceUID : String
  RuleGroup : String
  deriving DecidableEq, Repr

/-- The query of `GetOrgAlertRules`; `Result` as above. -/
structure ListAlertRulesQuery where
  OrgID : Int
  deriving DecidableEq, Repr

end ngmodels

namespace apimodels

/-- The type `apimodels.NoDataState`, a named string type. -/
structure NoDataState where
  /-- The underlying string. -/
  val : String
  deriving DecidableEq, Repr

/-- The type `apimodels.ExecutionErrorState`, a named string type. -/
structure ExecutionErrorState where
  /-- The underlying string. -/
  val : String
  deriving DecidableEq, Repr

/-- The fields of `apimodels.ExtendedUpsertAlertDefinitionCommand` that
`toExtendedRuleNode` sets; `UpdateAlertDefinitionCommand` is the embedded struct. -/
structure ExtendedUpsertAlertDefinitionCommand where
  NoDataState : NoDataState
  ExecutionErrorState : ExecutionErrorState
  UpdateAlertDefinitionCommand : ngmodels.UpdateAlertDefinitionCommand
  deriving DecidableEq, Repr

/-- The type `apimodels.ExtendedRuleNode`: `GrafanaManagedAlert` is a pointer, `none` is nil. -/
structure ExtendedRuleNode where
  GrafanaManagedAlert : Option ExtendedUpsertAlertDefinitionCommand
  deriving DecidableEq, Repr

/-- The type `apimodels.RuleGroupConfig`; `Interval` is a `model.Duration`, a signed 64-bit
count of nanoseconds. -/
structure RuleGroupConfig where
  Name : String
  Interval : Int
  Rules : List ExtendedRuleNode
  deriving DecidableEq, Repr

/-- The type `apimodels.RuleGroupConfigResponse`, a struct embedding a `RuleGroupConfig`. -/
structure RuleGroupConfigResponse where
  RuleGroupConfig : RuleGroupConfig
  deriving DecidableEq, Repr

/-- The type `apimodels.NamespaceConfigResponse`, a `map[string][]RuleGroupConfig`. -/
abbrev NamespaceConfigResponse := GoMap (List RuleGroupConfig)

end apimodels

namespace models

/-- The signed-in user of a request (the acting principal). -/
structure SignedInUser where
  UserId : Int
  OrgId : Int
  Login : String
  deriving DecidableEq, Repr

/-- The request context: path parameters and the signed-in user. -/
structure ReqContext where
  /-- The path parameters, keyed by their name with the leading colon. -/
  params : GoMap String
  SignedInUser : SignedInUser
  deriving DecidableEq, Repr

/-- The accessor `c.Params(name)`: the value of a path parameter, empty when it is missing. -/
def ReqContext.Params (c : ReqContext) (name : String) : String :=
  (GoMap.index c.params name).getD ""

end models

namespace store

/-- The command of `UpdateRuleGroup`. -/
structure UpdateRuleGroupCmd where
  OrgID : Int
  NamespaceUID : String
  RuleGroup : String
  RuleGroupConfig : apimodels.RuleGroupConfig
  deriving DecidableEq, Repr

/-- Modelled from the spec: the interface `store.RuleStore` is declared outside the file;
these are the eight methods the routes call. The two namespace lookups are pure reads of the
store state (the spec's Namespace Resolver: pure lookup, no mutation); the other methods
return their outcome together with the next store state. A returned `error` is `none` for
nil; a query yields the rules it stored in the `Result` field. -/
structure RuleStore (σ : Type) where
  GetNamespaceUIDBySlug : σ → String → Int → models.SignedInUser → Except GoError String
  GetNamespaceByUID : σ → String → Int → models.SignedInUser → Except GoError String
  DeleteNamespaceAlertRules : σ → ngmodels.DeleteNamespaceAlertRulesCommand → Option GoError × σ
  DeleteRuleGroupAlertRules : σ → ngmodels.DeleteRuleGroupAlertRulesCommand → Option GoError × σ
  GetNamespaceAlertRules :
    σ → ngmodels.ListNamespaceAlertRulesQuery → Except GoError (List ngmodels.AlertRule) × σ
  GetRuleGroupAlertRules :
    σ → ngmodels.ListRuleGroupAlertRulesQuery → Except GoError (List ngmodels.AlertRule) × σ
  GetOrgAlertRules :
    σ → ngmodels.ListAlertRulesQuery → Except GoError (List ngmodels.AlertRule) × σ
  UpdateRuleGroup : σ → UpdateRuleGroupCmd → Option GoError × σ

end store

namespace response

/-- The JSON bodies the routes produce. -/
inductive Body where
  /-- A `util.DynMap` literal, as its list of entries. -/
  | dynMap (entries : List (String × String))
  /-- A namespace document. -/
  | namespaceConfig (result : apimodels.NamespaceConfigResponse)
  /-- A rule group document. -/
  | ruleGroupConfig (result : apimodels.RuleGroupConfigResponse)
  deriving DecidableEq, Repr

/-- A response: `Error` is `response.Error(status, message, err)` and `JSON` is
`response.JSON(status, body)`. -/
inductive Response where
  | Error (status : Nat) (message : String) (err : GoError)
  | JSON (status : Nat) (body : Body)
  deriving DecidableEq, Repr

end response

namespace http

/-- The constant `http.StatusInternalServerError`. -/
def StatusInternalServerError : Nat := 500

/-- The constant `http.StatusAccepted`. -/
def StatusAccepted : Nat := 202

end http

namespace time

/-- The constant `time.Second`, in nanoseconds. -/
def Second : Int := 1000000000

end time

open response (Response)
open ngmodels (AlertRule)
open apimodels (RuleGroupConfig ExtendedRuleNode)

/-! ## The translator -/

/-- The function `toExtendedRuleNode`. -/
def toExtendedRuleNode (r : AlertRule) : ExtendedRuleNode :=
  { GrafanaManagedAlert := some
      { NoDataState := ⟨r.NoDataState.val⟩
        ExecutionErrorState := ⟨r.ExecErrState.val⟩
        UpdateAlertDefinitionCommand :=
          { UID := r.UID
            OrgID := r.OrgID
            Title := r.Title
            Condition := r.Condition
            Data := r.Data } } }

/-- The expression `model.Duration(time.Duration(r.IntervalSeconds) * time.Second)`:
the product of two `int64` values, which wraps around on overflow. -/
def ruleGroupInterval (r : AlertRule) : Int :=
  wrapInt64 (r.IntervalSeconds * time.Second)

/-! ## The routes -/

/-- The type `RulerSrv`; the logger plays no part in the routes. -/
structure RulerSrv (σ : Type) where
  store : store.RuleStore σ

namespace RulerSrv

variable {σ : Type}

/-- The message `fmt.Sprintf("failed to get namespace: %s", name)`. -/
def failedToGetNamespace (name : String) : String := "failed to get namespace: " ++ name

/-- The route `RouteDeleteNamespaceRulesConfig`. -/
def RouteDeleteNamespaceRulesConfig (srv : RulerSrv σ) (s : σ) (c : models.ReqContext) :
    Response × σ :=
  let nspace := c.Params ":Namespace"
  match srv.store.GetNamespaceUIDBySlug s nspace c.SignedInUser.OrgId c.SignedInUser with
  | .error err =>
    (Response.Error http.StatusInternalServerError (failedToGetNamespace nspace) err, s)
  | .ok namespaceUID =>
    match srv.store.DeleteNamespaceAlertRules s
        { OrgID := c.SignedInUser.OrgId, NamespaceUID := namespaceUID } with
    | (some err, s1) =>
      (Response.Error http.StatusInternalServerError "failed to delete namespace alert rules" err,
        s1)
    | (none, s1) =>
      (Response.JSON http.StatusAccepted (.dynMap [("message", "namespace rules deleted")]), s1)

/-- The route `RouteDeleteRuleGroupConfig`. -/
def RouteDeleteRuleGroupConfig (srv : RulerSrv σ) (s : σ) (c : models.ReqContext) :
    Response × σ :=
  let nspace := c.Params ":Namespace"
  match srv.store.GetNamespaceUIDBySlug s nspace c.SignedInUser.OrgId c.SignedInUser with
  | .error err =>
    (Response.Error http.StatusInternalServerError (failedToGetNamespace nspace) err, s)
  | .ok namespaceUID =>
    let ruleGroup := c.Params ":Groupname"
    match srv.store.DeleteRuleGroupAlertRules s
        { OrgID := c.SignedInUser.OrgId, NamespaceUID := namespaceUID, RuleGroup := ruleGroup } with
    | (some err, s1) =>
      (Response.Error http.StatusInternalServerError "failed to delete group alert rules" err, s1)
    | (none, s1) =>
      (Response.JSON http.StatusAccepted (.dynMap [("message", "rule group deleted")]), s1)

/-- One iteration of the loop `for _, r := range q.Result` of `RouteGetNamespaceRulesConfig`
(lines 73 to 89): the switch on `ruleGroupConfigs[r.RuleGroup]`. -/
def namespaceRulesStep (ruleGroupConfigs : GoMap RuleGroupConfig) (r : AlertRule) :
    GoMap RuleGroupConfig :=
  match GoMap.index ruleGroupConfigs r.RuleGroup with
  | none =>
    GoMap.assign ruleGroupConfigs r.RuleGroup
      { Name := r.RuleGroup
        Interval := ruleGroupInterval r
        Rules := [toExtendedRuleNode r] }
  | some ruleGroupConfig =>
    GoMap.assign ruleGroupConfigs r.RuleGroup
      { ruleGroupConfig with Rules := ruleGroupConfig.Rules ++ [toExtendedRuleNode r] }

/-- The loop `for _, r := range q.Result` of `RouteGetNamespaceRulesConfig`, started from the
empty map `ruleGroupConfigs`. -/
def namespaceRulesLoop (rules : List AlertRule) : GoMap RuleGroupConfig :=
  rules.foldl namespaceRulesStep []

/-- The statement `result[namespace] = append(result[namespace], ruleGroupConfig)`; indexing
a missing key gives the nil slice. -/
def appendGroup (result : apimodels.NamespaceConfigResponse) (nspace : String)
    (ruleGroupConfig : RuleGroupConfig) : apimodels.NamespaceConfigResponse :=
  GoMap.assign result nspace ((GoMap.index result nspace).getD [] ++ [ruleGroupConfig])

/-- The loop `for _, ruleGroupConfig := range m` that appends every group of `m` to
`result[namespace]`, visiting `m` in the given order. -/
def appendGroups (order : RangeOrder RuleGroupConfig) (result : apimodels.NamespaceConfigResponse)
    (nspace : String) (m : GoMap RuleGroupConfig) : apimodels.NamespaceConfigResponse :=
  (order.visit m).foldl (fun res kv => appendGroup res nspace kv.2) result

/-- The route `RouteGetNamespaceRulesConfig`; `order` is the order in which the final
`range` visits `ruleGroupConfigs`. -/
def RouteGetNamespaceRulesConfig (srv : RulerSrv σ) (order : RangeOrder RuleGroupConfig)
    (s : σ) (c : models.ReqContext) : Response × σ :=
  let nspace := c.Params ":Namespace"
  match srv.store.GetNamespaceUIDBySlug s nspace c.SignedInUser.OrgId c.SignedInUser with
  | .error err =>
    (Response.Error http.StatusInternalServerError (failedToGetNamespace nspace) err, s)
  | .ok namespaceUID =>
    match srv.store.GetNamespaceAlertRules s
        { OrgID := c.SignedInUser.OrgId, NamespaceUID := namespaceUID } with
    | (.error err, s1) =>
      (Response.Error http.StatusInternalServerError "failed to update rule group" err, s1)
    | (.ok qResult, s1) =>
      let ruleGroupConfigs := namespaceRulesLoop qResult
      let result := appendGroups order [] nspace ruleGroupConfigs
      (Response.JSON http.StatusAccepted (.namespaceConfig result), s1)

/-- The loop `for _, r := range q.Result` of `RouteGetRulegGroupConfig` (lines 115 to 120):
the pair of `ruleGroupInterval` and `ruleNodes` after the loop, from their values before it. -/
def ruleGroupLoop (rules : List AlertRule) (acc : Int × List ExtendedRuleNode) :
    Int × List ExtendedRuleNode :=
  rules.foldl (fun st r => (ruleGroupInterval r, st.2 ++ [toExtendedRuleNode r])) acc

/-- The route `RouteGetRulegGroupConfig`. -/
def RouteGetRulegGroupConfig (srv : RulerSrv σ) (s : σ) (c : models.ReqContext) :
    Response × σ :=
  let nspace := c.Params ":Namespace"
  match srv.store.GetNamespaceUIDBySlug s nspace c.SignedInUser.OrgId c.SignedInUser with
  | .error err =>
    (Response.Error http.StatusInternalServerError (failedToGetNamespace nspace) err, s)
  | .ok namespaceUID =>
    let ruleGroup := c.Params ":Groupname"
    match srv.store.GetRuleGroupAlertRules s
        { OrgID := c.SignedInUser.OrgId, NamespaceUID := namespaceUID, RuleGroup := ruleGroup } with
    | (.error err, s1) =>
      (Response.Error http.StatusInternalServerError "failed to get group alert rules" err, s1)
    | (.ok qResult, s1) =>
      let st := ruleGroupLoop qResult (0, [])
      (Response.JSON http.StatusAccepted
        (.ruleGroupConfig
          { RuleGroupConfig := { Name := ruleGroup, Interval := st.1, Rules := st.2 } }), s1)

/-- The loop `for _, r := range q.Result` of `RouteGetRulesConfig` (lines 141 to 175), from
the current value of `configs`; `getNamespaceByUID` is the call
`srv.store.GetNamespaceByUID(uid, c.SignedInUser.OrgId, c.SignedInUser)`. The loop either
leaves the route with an error response or ends with the final `configs`. -/
def rulesConfigLoop (getNamespaceByUID : String → Except GoError String) :
    List AlertRule → GoMap (GoMap RuleGroupConfig) → Except Response (GoMap (GoMap RuleGroupConfig))
  | [], configs => .ok configs
  | r :: rest, configs =>
    match getNamespaceByUID r.NamespaceUID with
    | .error err =>
      .error (Response.Error http.StatusInternalServerError
        (failedToGetNamespace r.NamespaceUID) err)
    | .ok nspace =>
      match GoMap.index configs nspace with
      | none =>
        rulesConfigLoop getNamespaceByUID rest
          (GoMap.assign configs nspace
            (GoMap.assign [] r.RuleGroup
              { Name := r.RuleGroup
                Interval := ruleGroupInterval r
                Rules := [toExtendedRuleNode r] }))
      | some groups =>
        match GoMap.index groups r.RuleGroup with
        | none =>
          rulesConfigLoop getNamespaceByUID rest
            (GoMap.assign configs nspace
              (GoMap.assign groups r.RuleGroup
                { Name := r.RuleGroup
                  Interval := ruleGroupInterval r
                  Rules := [toExtendedRuleNode r] }))
        | some ruleGroupConfig =>
          rulesConfigLoop getNamespaceByUID rest
            (GoMap.assign configs nspace
              (GoMap.assign groups r.RuleGroup
                { ruleGroupConfig with
                  Rules := ruleGroupConfig.Rules ++ [toExtendedRuleNode r] }))

/-- The nested loops `for namespace, m := range configs` and
`for _, ruleGroupConfig := range m` of `RouteGetRulesConfig` (lines 177 to 182);
`outer` is the order of the outer `range` and `inner nspace` the order in which the groups
of the namespace `nspace` are visited. -/
def flattenConfigs (outer : RangeOrder (GoMap RuleGroupConfig))
    (inner : String → RangeOrder RuleGroupConfig) (configs : GoMap (GoMap RuleGroupConfig)) :
    apimodels.NamespaceConfigResponse :=
  (outer.visit configs).foldl (fun res nm => appendGroups (inner nm.1) res nm.1 nm.2) []

/-- The route `RouteGetRulesConfig`. -/
def RouteGetRulesConfig (srv : RulerSrv σ) (outer : RangeOrder (GoMap RuleGroupConfig))
    (inner : String → RangeOrder RuleGroupConfig) (s : σ) (c : models.ReqContext) :
    Response × σ :=
  match srv.store.GetOrgAlertRules s { OrgID := c.SignedInUser.OrgId } with
  | (.error err, s1) =>
    (Response.Error http.StatusInternalServerError "failed to get alert rules" err, s1)
  | (.ok qResult, s1) =>
    match rulesConfigLoop
        (fun uid => srv.store.GetNamespaceByUID s1 uid c.SignedInUser.OrgId c.SignedInUser)
        qResult [] with
    | .error resp => (resp, s1)
    | .ok configs =>
      (Response.JSON http.StatusAccepted (.namespaceConfig (flattenConfigs outer inner configs)),
        s1)

/-- The route `RoutePostNameRulesConfig`. -/
def RoutePostNameRulesConfig (srv : RulerSrv σ) (s : σ) (c : models.ReqContext)
    (ruleGroupConfig : RuleGroupConfig) : Response × σ :=
  let nspace := c.Params ":Namespace"
  match srv.store.GetNamespaceUIDBySlug s nspace c.SignedInUser.OrgId c.SignedInUser with
  | .error err =>
    (Response.Error http.StatusInternalServerError (failedToGetNamespace nspace) err, s)
  | .ok namespaceUID =>
    let ruleGroup := ruleGroupConfig.Name
    match srv.store.UpdateRuleGroup s
        { OrgID := c.SignedInUser.OrgId
          NamespaceUID := namespaceUID
          RuleGroup := ruleGroup
          RuleGroupConfig := ruleGroupConfig } with
    | (some err, s1) =>
      (Response.Error http.StatusInternalServerError "failed to update rule group" err, s1)
    | (none, s1) =>
      (Response.JSON http.StatusAccepted (.dynMap [("message", "rule group updated successfully")]),
        s1)

end RulerSrv

/-! ## Reference descriptions used by the theorems -/

/-- The group document that first-seen-wins aggregation assigns to the group name `g`:
present when some rule of `rules` has that `RuleGroup`; its interval is that of the first
such rule and its rules are the translations of all such rules, in input order. -/
def groupDocument (g : String) (rules : List AlertRule) : Option RuleGroupConfig :=
  match rules.find? (fun r => decide (r.RuleGroup = g)) with
  | none => none
  | some first =>
    some
      { Name := g
        Interval := ruleGroupInterval first
        Rules := (rules.filter (fun r => decide (r.RuleGroup = g))).map toExtendedRuleNode }

/-- Whether the namespace lookup resolves the `NamespaceUID` of `r` to the display name `n`. -/
def resolvesTo (getNamespaceByUID : String → Except GoError String) (n : String)
    (r : AlertRule) : Bool :=
  match getNamespaceByUID r.NamespaceUID with
  | .ok name => decide (name = n)
  | .error _ => false

/-- Whether the namespace lookup fails on the `NamespaceUID` of `r`. -/
def lookupFails (getNamespaceByUID : String → Except GoError String) (r : AlertRule) : Bool :=
  match getNamespaceByUID r.NamespaceUID with
  | .ok _ => false
  | .error _ => true

/-- The groups that the one-level fold builds from the rules of `rules` whose namespace
resolves to the display name `n`; absent when there is no such rule. -/
def namespaceGroups (getNamespaceByUID : String → Except GoError String) (n : String)
    (rules : List AlertRule) : Option (GoMap RuleGroupConfig) :=
  if rules.filter (resolvesTo getNamespaceByUID n) = [] then none
  else some (RulerSrv.namespaceRulesLoop (rules.filter (resolvesTo getNamespaceByUID n)))

/-- Whether some group document of the namespace document `result` holds both rule nodes
`x` and `y`. -/
def sameGroupDocument (result : apimodels.NamespaceConfigResponse) (x y : ExtendedRuleNode) :
    Bool :=
  result.any (fun nd => nd.2.any (fun d => decide (x ∈ d.Rules) && decide (y ∈ d.Rules)))

/-! ## An in-memory rule store

A small implementation of the store interface, on which the routes can be run: a table of
namespaces, a table of rules, and the list of the delete, query and update calls received. -/

namespace memstore

/-- A namespace row: the durable identifier, the slug used in request paths, the display
name and the organization. -/
structure Namespace where
  UID : String
  Slug : String
  Title : String
  OrgID : Int
  deriving DecidableEq, Repr

/-- A delete, query or update call received by the store. -/
inductive StoreCall where
  | deleteNamespace (cmd : ngmodels.DeleteNamespaceAlertRulesCommand)
  | deleteRuleGroup (cmd : ngmodels.DeleteRuleGroupAlertRulesCommand)
  | listNamespace (q : ngmodels.ListNamespaceAlertRulesQuery)
  | listRuleGroup (q : ngmodels.ListRuleGroupAlertRulesQuery)
  | listOrg (q : ngmodels.ListAlertRulesQuery)
  | updateRuleGroup (cmd : store.UpdateRuleGroupCmd)
  deriving DecidableEq, Repr

/-- The state of the in-memory store. -/
structure State where
  namespaces : List Namespace
  rows : List AlertRule
  /-- The calls received so far, oldest first. -/
  calls : List StoreCall
  deriving DecidableEq, Repr

/-- The error of a namespace lookup that finds nothing. -/
def notFound : GoError := ⟨"namespace not found"⟩

/-- The in-memory store. Lookups read the namespace table; deletes and queries select rows
by organization, namespace and group; `UpdateRuleGroup` only records the command. -/
def ruleStore : store.RuleStore State where
  GetNamespaceUIDBySlug s slug orgID _ :=
    match s.namespaces.find? (fun n => decide (n.Slug = slug ∧ n.OrgID = orgID)) with
    | some n => .ok n.UID
    | none => .error notFound
  GetNamespaceByUID s uid orgID _ :=
    match s.namespaces.find? (fun n => decide (n.UID = uid ∧ n.OrgID = orgID)) with
    | some n => .ok n.Title
    | none => .error notFound
  DeleteNamespaceAlertRules s cmd :=
    (none,
      { s with
        rows := s.rows.filter
          (fun r => !decide (r.OrgID = cmd.OrgID ∧ r.NamespaceUID = cmd.NamespaceUID))
        calls := s.calls ++ [.deleteNamespace cmd] })
  DeleteRuleGroupAlertRules s cmd :=
    (none,
      { s with
        rows := s.rows.filter
          (fun r => !decide (r.OrgID = cmd.OrgID ∧ r.NamespaceUID = cmd.NamespaceUID ∧
            r.RuleGroup = cmd.RuleGroup))
        calls := s.calls ++ [.deleteRuleGroup cmd] })
  GetNamespaceAlertRules s q :=
    (.ok (s.rows.filter (fun r => decide (r.OrgID = q.OrgID ∧ r.NamespaceUID = q.NamespaceUID))),
      { s with calls := s.calls ++ [.listNamespace q] })
  GetRuleGroupAlertRules s q :=
    (.ok (s.rows.filter
        (fun r => decide (r.OrgID = q.OrgID ∧ r.NamespaceUID = q.NamespaceUID ∧
          r.RuleGroup = q.RuleGroup))),
      { s with calls := s.calls ++ [.listRuleGroup q] })
  GetOrgAlertRules s q :=
    (.ok (s.rows.filter (fun r => decide (r.OrgID = q.OrgID))),
      { s with calls := s.calls ++ [.listOrg q] })
  UpdateRuleGroup s cmd := (none, { s with calls := s.calls ++ [.updateRuleGroup cmd] })

/-- The ruler service over the in-memory store. -/
def srv : RulerSrv State := ⟨ruleStore⟩

/-- A rule of organization 1 with the given identifier, namespace, group and interval. -/
def rule (uid nsUID group : String) (seconds : Int) : AlertRule :=
  { UID := uid
    OrgID := 1
    NamespaceUID := nsUID
    RuleGroup := group
    Title := "title " ++ uid
    Condition := "A"
    Data := [⟨"A", "query"⟩]
    IntervalSeconds := seconds
    NoDataState := ⟨"NoData"⟩
    ExecErrState := ⟨"Alerting"⟩ }

/-- The signed-in user of the sample requests, a member of organization 1. -/
def user : models.SignedInUser := { UserId := 7, OrgId := 1, Login := "admin" }

/-- A request with the given namespace slug and group name in its path. -/
def request (slug group : String) : models.ReqContext :=
  { params := [(":Namespace", slug), (":Groupname", group)], SignedInUser := user }

/-- Three rules of group `g1` and one of group `g2`, all in namespace `ns1`. -/
def rulesOneNamespace : List AlertRule :=
  [rule "a" "ns1" "g1" 10, rule "b" "ns1" "g1" 20, rule "c" "ns1" "g2" 30, rule "d" "ns1" "g1" 40]

/-- A store with the namespace `ns1` (slug `prod`, display name `Production`), holding
`rulesOneNamespace`, and a namespace `ns0` (slug `idle`) without rules. -/
def oneNamespace : State :=
  { namespaces := [⟨"ns1", "prod", "Production", 1⟩, ⟨"ns0", "idle", "Idle", 1⟩]
    rows := rulesOneNamespace
    calls := [] }

/-- Rules of the namespaces `ns1` and `ns2`. -/
def rulesTwoNamespaces : List AlertRule :=
  [rule "a" "ns1" "g1" 10, rule "b" "ns2" "g1" 20, rule "c" "ns1" "g1" 30, rule "d" "ns2" "g2" 40]

/-- A store with the namespaces `ns1` (display name `Production`) and `ns2` (display name
`Staging`), holding `rulesTwoNamespaces`. -/
def twoNamespaces : State :=
  { namespaces := [⟨"ns1", "prod", "Production", 1⟩, ⟨"ns2", "stage", "Staging", 1⟩]
    rows := rulesTwoNamespaces
    calls := [] }

/-- A store as `twoNamespaces`, except that the namespaces `ns1` and `ns2` have the same
display name `Production`. -/
def sameTitle : State :=
  { namespaces := [⟨"ns1", "prod", "Production", 1⟩, ⟨"ns2", "prod-eu", "Production", 1⟩]
    rows := rulesTwoNamespaces
    calls := [] }

/-- A store as `twoNamespaces`, except that the namespace `ns2` is missing from the
namespace table. -/
def missingNamespace : State :=
  { namespaces := [⟨"ns1", "prod", "Production", 1⟩]
    rows := rulesTwoNamespaces
    calls := [] }

end memstore

/-! ## Response classes, further stores -/

/-- Whether the response is a structured error with status 500. -/
def response.Response.isInternalError : Response → Bool
  | .Error status _ _ => decide (status = http.StatusInternalServerError)
  | .JSON _ _ => false

/-- Whether the response is a success payload with status 202. -/
def response.Response.isAccepted : Response → Bool
  | .Error _ _ _ => false
  | .JSON status _ => decide (status = http.StatusAccepted)

/-- Whether the rule `r` matches the triple (organization, namespace, group) of the delete
command `cmd`. -/
def ngmodels.DeleteRuleGroupAlertRulesCommand.selects
    (cmd : ngmodels.DeleteRuleGroupAlertRulesCommand) (r : AlertRule) : Bool :=
  decide (r.OrgID = cmd.OrgID ∧ r.NamespaceUID = cmd.NamespaceUID ∧ r.RuleGroup = cmd.RuleGroup)

/-- The organization of the rule a node was translated from, when the node carries a
Grafana managed alert. -/
def apimodels.ExtendedRuleNode.orgID (node : ExtendedRuleNode) : Option Int :=
  node.GrafanaManagedAlert.map (fun cmd => cmd.UpdateAlertDefinitionCommand.OrgID)

namespace memstore

/-- The organization a recorded call was issued for. -/
def StoreCall.orgID : StoreCall → Int
  | .deleteNamespace cmd => cmd.OrgID
  | .deleteRuleGroup cmd => cmd.OrgID
  | .listNamespace q => q.OrgID
  | .listRuleGroup q => q.OrgID
  | .listOrg q => q.OrgID
  | .updateRuleGroup cmd => cmd.OrgID

/-- Whether a recorded call is a query. -/
def StoreCall.isQuery : StoreCall → Bool
  | .listNamespace _ => true
  | .listRuleGroup _ => true
  | .listOrg _ => true
  | _ => false

/-- The in-memory store without the record of queries: the three queries answer as those
of `ruleStore` and leave the state as it is. -/
def quietStore : store.RuleStore State :=
  { ruleStore with
    GetNamespaceAlertRules := fun s q => ((ruleStore.GetNamespaceAlertRules s q).1, s)
    GetRuleGroupAlertRules := fun s q => ((ruleStore.GetRuleGroupAlertRules s q).1, s)
    GetOrgAlertRules := fun s q => ((ruleStore.GetOrgAlertRules s q).1, s) }

/-- The ruler service over `quietStore`. -/
def quietSrv : RulerSrv State := ⟨quietStore⟩

/-- The error of a store that cannot be reached. -/
def unavailable : GoError := ⟨"database is locked"⟩

/-- A store with the namespace lookups of `ruleStore` whose deletes, queries and updates
all fail with `unavailable`, leaving the state as it is. -/
def failingStore : store.RuleStore State :=
  { ruleStore with
    DeleteNamespaceAlertRules := fun s _ => (some unavailable, s)
    DeleteRuleGroupAlertRules := fun s _ => (some unavailable, s)
    GetNamespaceAlertRules := fun s _ => (.error unavailable, s)
    GetRuleGroupAlertRules := fun s _ => (.error unavailable, s)
    GetOrgAlertRules := fun s _ => (.error unavailable, s)
    UpdateRuleGroup := fun s _ => (some unavailable, s) }

/-- The ruler service over `failingStore`. -/
def failingSrv : RulerSrv State := ⟨failingStore⟩

/-- A store with the namespace `ns1`, in which the three rules of group `g1` have an
interval of 60 seconds and the rule of group `g2` one of 30 seconds. -/
def sameCadence : State :=
  { namespaces := [⟨"ns1", "prod", "Production", 1⟩]
    rows := [rule "a" "ns1" "g1" 60, rule "b" "ns1" "g2" 30, rule "c" "ns1" "g1" 60,
      rule "d" "ns1" "g1" 60]
    calls := [] }

end memstore

/-! ## Placement of a rule by the org-wide loop -/

/-- The value of `configs` after the loop of `RouteGetRulesConfig` (lines 141 to 175) has
processed `rules`; the empty map if the loop left the route with an error. -/
def configsAfter (getNamespaceByUID : String → Except GoError String)
    (rules : List AlertRule) : GoMap (GoMap RuleGroupConfig) :=
  match RulerSrv.rulesConfigLoop getNamespaceByUID rules [] with
  | .ok configs => configs
  | .error _ => []

/-- The index expression `configs[n][g]`: the group document kept under the namespace key
`n` and the group key `g`, if there is one. -/
def documentAt (configs : GoMap (GoMap RuleGroupConfig)) (n g : String) :
    Option RuleGroupConfig :=
  (GoMap.index configs n).bind (fun groups => GoMap.index groups g)

/-- Whether the iteration of the loop of `RouteGetRulesConfig` for the rule `r`, run after
the iterations for the rules `pre`, places `r` in the group document `configs[n][g]`: that
document is not the same before and after the iteration. -/
def placedAt (getNamespaceByUID : String → Except GoError String) (pre : List AlertRule)
    (r : AlertRule) (n g : String) : Bool :=
  decide (documentAt (configsAfter getNamespaceByUID (pre ++ [r])) n g ≠
    documentAt (configsAfter getNamespaceByUID pre) n g)

/-! # Theorems -/

/-! ## Lemmas on Go maps -/

namespace GoMap

variable {V : Type}

theorem index_assign_self (m : GoMap V) (k : String) (v : V) :
    index (assign m k v) k = some v := by
  induction m with
  | nil => simp [assign, index]
  | cons kv rest ih =>
    obtain ⟨k', v'⟩ := kv
    by_cases h : k' = k
    · simp [assign, index, h]
    · simp [assign, index, h, ih]

theorem index_assign_ne (m : GoMap V) {k k2 : String} (v : V) (h : k ≠ k2) :
    index (assign m k v) k2 = index m k2 := by
  induction m with
  | nil => simp [assign, index, h]
  | cons kv rest ih =>
    obtain ⟨k', v'⟩ := kv
    by_cases h1 : k' = k
    · subst h1
      simp [assign, index, h]
    · by_cases h2 : k' = k2
      · subst h2
        simp [assign, index, h1]
      · simp [assign, index, h1, h2, ih]

theorem index_eq_none_iff (m : GoMap V) (k : String) : index m k = none ↔ k ∉ keys m := by
  induction m with
  | nil => simp [index, keys]
  | cons kv rest ih =>
    obtain ⟨k', v'⟩ := kv
    by_cases h : k' = k
    · simp [index, keys, h]
    · have h' : ¬ k = k' := fun e => h e.symm
      simpa [index, keys, h, h'] using ih

theorem assign_of_index_none {m : GoMap V} {k : String} (v : V) (h : index m k = none) :
    assign m k v = m ++ [(k, v)] := by
  induction m with
  | nil => simp [assign]
  | cons kv rest ih =>
    obtain ⟨k', v'⟩ := kv
    by_cases h1 : k' = k
    · simp [index, h1] at h
    · simp only [index, h1, if_false] at h
      simp [assign, h1, ih h]

theorem keys_assign_of_index_some {m : GoMap V} {k : String} {v0 : V} (v : V)
    (h : index m k = some v0) : keys (assign m k v) = keys m := by
  induction m with
  | nil => simp [index] at h
  | cons kv rest ih =>
    obtain ⟨k', v'⟩ := kv
    by_cases h1 : k' = k
    · simp [assign, keys, h1]
    · simp only [index, h1, if_false] at h
      have := ih h
      simp only [keys] at this
      simp [assign, keys, h1, this]

theorem nodup_keys_assign {m : GoMap V} (k : String) (v : V) (hnd : (keys m).Nodup) :
    (keys (assign m k v)).Nodup := by
  cases h : index m k with
  | none =>
    rw [assign_of_index_none v h]
    have hk := (index_eq_none_iff m k).1 h
    simp only [keys, List.map_append, List.map_cons, List.map_nil] at *
    exact List.Nodup.append hnd (List.nodup_singleton k) (by simpa using hk)
  | some v0 => rw [keys_assign_of_index_some v h]; exact hnd

theorem mem_of_index {m : GoMap V} {k : String} {v : V} (h : index m k = some v) :
    (k, v) ∈ m := by
  induction m with
  | nil => simp [index] at h
  | cons kv rest ih =>
    obtain ⟨k', v'⟩ := kv
    by_cases h1 : k' = k
    · simp only [index, h1, if_true, Option.some.injEq] at h
      simp [h1, h]
    · simp only [index, h1, if_false] at h
      exact List.mem_cons_of_mem _ (ih h)

theorem index_of_mem {m : GoMap V} {k : String} {v : V} (hnd : (keys m).Nodup)
    (h : (k, v) ∈ m) : index m k = some v := by
  induction m with
  | nil => simp at h
  | cons kv rest ih =>
    obtain ⟨k', v'⟩ := kv
    simp only [keys, List.map_cons, List.nodup_cons] at hnd
    rcases List.mem_cons.1 h with h1 | h1
    · simp only [Prod.mk.injEq] at h1
      simp [index, h1.1, h1.2]
    · have hk : k ∈ rest.map Prod.fst := List.mem_map.2 ⟨(k, v), h1, rfl⟩
      have hne : k' ≠ k := fun e => hnd.1 (e ▸ hk)
      simp only [index, hne, if_false]
      exact ih hnd.2 h1

theorem index_perm {m m2 : GoMap V} (hnd : (keys m).Nodup) (hp : m2.Perm m) (k : String) :
    index m2 k = index m k := by
  have hnd2 : (keys m2).Nodup := ((hp.map Prod.fst).nodup_iff).2 hnd
  cases h : index m k with
  | some v => exact index_of_mem hnd2 (hp.mem_iff.2 (mem_of_index h))
  | none =>
    rw [index_eq_none_iff] at h ⊢
    intro hk
    exact h ((hp.map Prod.fst).mem_iff.1 hk)

theorem assign_assign (m : GoMap V) (k : String) (a b : V) :
    assign (assign m k a) k b = assign m k b := by
  induction m with
  | nil => simp [assign]
  | cons kv rest ih =>
    obtain ⟨k', v'⟩ := kv
    by_cases h1 : k' = k
    · simp [assign, h1]
    · simp [assign, h1, ih]

end GoMap

/-! ## The one-level fold -/

namespace RulerSrv

open GoMap

theorem groupDocument_append_single (g : String) (pre : List AlertRule) (r : AlertRule) :
    groupDocument g (pre ++ [r]) =
      if r.RuleGroup = g then
        match groupDocument g pre with
        | none =>
          some { Name := g, Interval := ruleGroupInterval r, Rules := [toExtendedRuleNode r] }
        | some d => some { d with Rules := d.Rules ++ [toExtendedRuleNode r] }
      else groupDocument g pre := by
  unfold groupDocument
  by_cases h : r.RuleGroup = g
  · cases hf : pre.find? (fun r => decide (r.RuleGroup = g)) with
    | none =>
      have hnil : pre.filter (fun r => decide (r.RuleGroup = g)) = [] := by
        rw [List.filter_eq_nil_iff]
        intro a ha
        exact List.find?_eq_none.1 hf a ha
      simp [List.find?_append, hf, h, hnil, List.filter_append]
    | some first => simp [List.find?_append, hf, h, List.filter_append]
  · cases hf : pre.find? (fun r => decide (r.RuleGroup = g)) with
    | none => simp [List.find?_append, hf, h, List.filter_append]
    | some first => simp [List.find?_append, hf, h, List.filter_append]

theorem namespaceRulesStep_index {m : GoMap RuleGroupConfig} {pre : List AlertRule}
    (hm : ∀ g, index m g = groupDocument g pre) (r : AlertRule) (g : String) :
    index (namespaceRulesStep m r) g = groupDocument g (pre ++ [r]) := by
  rw [groupDocument_append_single]
  unfold namespaceRulesStep
  by_cases h : r.RuleGroup = g
  · subst h
    rw [hm r.RuleGroup]
    cases groupDocument r.RuleGroup pre with
    | none => simp [index_assign_self]
    | some d => simp [index_assign_self]
  · rw [if_neg h]
    cases index m r.RuleGroup with
    | none => simp only []; rw [index_assign_ne _ _ h, hm]
    | some d => simp only []; rw [index_assign_ne _ _ h, hm]

theorem namespaceRulesStep_nodup {m : GoMap RuleGroupConfig} (hnd : (keys m).Nodup)
    (r : AlertRule) : (keys (namespaceRulesStep m r)).Nodup := by
  unfold namespaceRulesStep
  cases index m r.RuleGroup with
  | none => exact nodup_keys_assign _ _ hnd
  | some d => exact nodup_keys_assign _ _ hnd

theorem foldl_namespaceRulesStep (rest : List AlertRule) :
    ∀ (pre : List AlertRule) (m : GoMap RuleGroupConfig), (keys m).Nodup →
      (∀ g, index m g = groupDocument g pre) →
      (keys (rest.foldl namespaceRulesStep m)).Nodup ∧
        ∀ g, index (rest.foldl namespaceRulesStep m) g = groupDocument g (pre ++ rest) := by
  induction rest with
  | nil => intro pre m hnd hm; simpa using ⟨hnd, hm⟩
  | cons r rest ih =>
    intro pre m hnd hm
    have := ih (pre ++ [r]) (namespaceRulesStep m r) (namespaceRulesStep_nodup hnd r)
      (namespaceRulesStep_index hm r)
    simpa using this

theorem namespaceRulesLoop_nodup (rules : List AlertRule) :
    (keys (namespaceRulesLoop rules)).Nodup :=
  (foldl_namespaceRulesStep rules [] [] (by simp [keys]) (fun _ => rfl)).1

theorem namespaceRulesLoop_index (rules : List AlertRule) (g : String) :
    index (namespaceRulesLoop rules) g = groupDocument g rules := by
  have := (foldl_namespaceRulesStep rules [] [] (by simp [keys]) (fun _ => rfl)).2 g
  simpa using this

theorem namespaceRulesLoop_append_single (pre : List AlertRule) (r : AlertRule) :
    namespaceRulesLoop (pre ++ [r]) = namespaceRulesStep (namespaceRulesLoop pre) r := by
  simp [namespaceRulesLoop, List.foldl_append]

theorem flatMap_assign_append {m : GoMap RuleGroupConfig} {k : String} {d : RuleGroupConfig}
    (x : ExtendedRuleNode) (h : index m k = some d) :
    ((assign m k { d with Rules := d.Rules ++ [x] }).flatMap (fun kv => kv.2.Rules)).Perm
      (m.flatMap (fun kv => kv.2.Rules) ++ [x]) := by
  induction m with
  | nil => simp [index] at h
  | cons kv rest ih =>
    obtain ⟨k', v'⟩ := kv
    by_cases h1 : k' = k
    · simp only [index, h1, if_true, Option.some.injEq] at h
      subst h
      simp only [assign, h1, if_true, List.flatMap_cons, List.append_assoc]
      exact List.Perm.append_left _ List.perm_append_comm
    · simp only [index, h1, if_false] at h
      simp only [assign, h1, if_false, List.flatMap_cons, List.append_assoc]
      exact List.Perm.append_left _ (ih h)

theorem namespaceRulesStep_flatMap (m : GoMap RuleGroupConfig) (r : AlertRule) :
    ((namespaceRulesStep m r).flatMap (fun kv => kv.2.Rules)).Perm
      (m.flatMap (fun kv => kv.2.Rules) ++ [toExtendedRuleNode r]) := by
  unfold namespaceRulesStep
  cases h : index m r.RuleGroup with
  | none => simp only []; rw [assign_of_index_none _ h]; simp
  | some d => exact flatMap_assign_append _ h

theorem foldl_namespaceRulesStep_flatMap (rest : List AlertRule) :
    ∀ m : GoMap RuleGroupConfig,
      ((rest.foldl namespaceRulesStep m).flatMap (fun kv => kv.2.Rules)).Perm
        (m.flatMap (fun kv => kv.2.Rules) ++ rest.map toExtendedRuleNode) := by
  induction rest with
  | nil => intro m; simp
  | cons r rest ih =>
    intro m
    refine (ih (namespaceRulesStep m r)).trans ?_
    have := (namespaceRulesStep_flatMap m r).append_right (rest.map toExtendedRuleNode)
    simpa using this

theorem namespaceRulesLoop_flatMap (rules : List AlertRule) :
    ((namespaceRulesLoop rules).flatMap (fun kv => kv.2.Rules)).Perm
      (rules.map toExtendedRuleNode) := by
  simpa using foldl_namespaceRulesStep_flatMap rules []

theorem namespaceRulesLoop_eq_nil_iff (rules : List AlertRule) :
    namespaceRulesLoop rules = [] ↔ rules = [] := by
  constructor
  · intro h
    have hp := namespaceRulesLoop_flatMap rules
    rw [h] at hp
    simpa using hp.symm.eq_nil
  · rintro rfl; rfl

end RulerSrv

/-! ## Group documents and the flattening loops -/

namespace RulerSrv

open GoMap

theorem groupDocument_eq_some {g : String} {rules : List AlertRule} {d : RuleGroupConfig}
    (h : groupDocument g rules = some d) :
    d.Name = g ∧
      d.Rules = (rules.filter (fun r => decide (r.RuleGroup = g))).map toExtendedRuleNode ∧
      ∃ first, rules.find? (fun r => decide (r.RuleGroup = g)) = some first ∧
        d.Interval = ruleGroupInterval first := by
  unfold groupDocument at h
  cases hf : rules.find? (fun r => decide (r.RuleGroup = g)) with
  | none => simp [hf] at h
  | some first =>
    simp only [hf, Option.some.injEq] at h
    subst h
    exact ⟨rfl, rfl, first, rfl, rfl⟩

theorem groupDocument_isSome_iff (g : String) (rules : List AlertRule) :
    (∃ d, groupDocument g rules = some d) ↔ ∃ r ∈ rules, r.RuleGroup = g := by
  unfold groupDocument
  cases hf : rules.find? (fun r => decide (r.RuleGroup = g)) with
  | none =>
    have := List.find?_eq_none.1 hf
    constructor
    · rintro ⟨d, hd⟩; simp at hd
    · rintro ⟨r, hr, hg⟩; exact absurd hg (by simpa using this r hr)
  | some first =>
    constructor
    · intro _
      exact ⟨first, List.mem_of_find?_eq_some hf, by simpa using List.find?_some hf⟩
    · intro _; exact ⟨_, rfl⟩

theorem groupDocument_rules_ne_nil {g : String} {rules : List AlertRule} {d : RuleGroupConfig}
    (h : groupDocument g rules = some d) : d.Rules ≠ [] := by
  obtain ⟨_, hr, first, hf, _⟩ := groupDocument_eq_some h
  have hp := List.find?_some hf
  have hmem : first ∈ rules.filter (fun r => decide (r.RuleGroup = g)) :=
    List.mem_filter.2 ⟨List.mem_of_find?_eq_some hf, hp⟩
  rw [hr]
  intro hnil
  rw [List.map_eq_nil_iff] at hnil
  rw [hnil] at hmem
  simp at hmem

theorem foldl_appendGroup (nspace : String) (ds : List RuleGroupConfig) :
    ∀ result : apimodels.NamespaceConfigResponse,
      ds.foldl (fun res d => appendGroup res nspace d) result =
        if ds = [] then result
        else assign result nspace ((index result nspace).getD [] ++ ds) := by
  induction ds with
  | nil => intro result; simp
  | cons d ds ih =>
    intro result
    rw [List.foldl_cons, ih]
    by_cases h : ds = []
    · simp [h, appendGroup]
    · simp [h, appendGroup, index_assign_self, assign_assign]

theorem appendGroups_eq (order : RangeOrder RuleGroupConfig)
    (result : apimodels.NamespaceConfigResponse) (nspace : String) (m : GoMap RuleGroupConfig) :
    appendGroups order result nspace m =
      if m = [] then result
      else assign result nspace
        ((index result nspace).getD [] ++ (order.visit m).map Prod.snd) := by
  have h := foldl_appendGroup nspace ((order.visit m).map Prod.snd) result
  rw [List.foldl_map] at h
  unfold appendGroups
  rw [h]
  have hiff : (order.visit m).map Prod.snd = [] ↔ m = [] := by
    rw [List.map_eq_nil_iff]
    constructor
    · intro h0
      have := order.visit_perm m
      rw [h0] at this
      exact this.symm.eq_nil
    · intro h0
      subst h0
      exact (order.visit_perm []).eq_nil
  by_cases hm : m = []
  · rw [if_pos hm, if_pos (hiff.2 hm)]
  · rw [if_neg hm, if_neg (fun h0 => hm (hiff.1 h0))]

theorem namespaceResult_eq (order : RangeOrder RuleGroupConfig) (nspace : String)
    (rules : List AlertRule) :
    appendGroups order [] nspace (namespaceRulesLoop rules) =
      if rules = [] then []
      else [(nspace, (order.visit (namespaceRulesLoop rules)).map Prod.snd)] := by
  rw [appendGroups_eq]
  by_cases h : rules = []
  · rw [if_pos h, if_pos ((namespaceRulesLoop_eq_nil_iff rules).2 h)]
  · rw [if_neg h, if_neg (fun h0 => h ((namespaceRulesLoop_eq_nil_iff rules).1 h0))]
    simp [assign, index]

/-- What holds of the groups of a one-level fold, visited in any order. -/
theorem visited_groups {rules : List AlertRule} {es : GoMap RuleGroupConfig}
    (hp : es.Perm (namespaceRulesLoop rules)) :
    (∀ d ∈ es.map Prod.snd, groupDocument d.Name rules = some d) ∧
      ((es.map Prod.snd).map (fun d => d.Name)).Nodup ∧
      (∀ g, g ∈ (es.map Prod.snd).map (fun d => d.Name) ↔ ∃ r ∈ rules, r.RuleGroup = g) ∧
      ((es.map Prod.snd).flatMap (fun d => d.Rules)).Perm (rules.map toExtendedRuleNode) := by
  have hnd := namespaceRulesLoop_nodup rules
  have hentry : ∀ kv ∈ es, groupDocument kv.1 rules = some kv.2 ∧ kv.2.Name = kv.1 := by
    intro kv hkv
    have hmem : (kv.1, kv.2) ∈ namespaceRulesLoop rules := hp.mem_iff.1 hkv
    have hi := index_of_mem hnd hmem
    rw [namespaceRulesLoop_index] at hi
    exact ⟨hi, (groupDocument_eq_some hi).1⟩
  have hnames : (es.map Prod.snd).map (fun d => d.Name) = keys es := by
    rw [List.map_map]
    exact List.map_congr_left (fun kv hkv => (hentry kv hkv).2)
  have hkeys : (keys es).Perm (keys (namespaceRulesLoop rules)) := hp.map Prod.fst
  refine ⟨?_, ?_, ?_, ?_⟩
  · intro d hd
    obtain ⟨kv, hkv, rfl⟩ := List.mem_map.1 hd
    have := hentry kv hkv
    rw [this.2]
    exact this.1
  · rw [hnames]
    exact hkeys.nodup_iff.2 hnd
  · intro g
    rw [hnames, hkeys.mem_iff, ← groupDocument_isSome_iff, ← namespaceRulesLoop_index]
    constructor
    · intro hg
      cases hi : index (namespaceRulesLoop rules) g with
      | none => exact absurd hg ((index_eq_none_iff _ _).1 hi)
      | some d => exact ⟨d, rfl⟩
    · rintro ⟨d, hd⟩
      by_contra hg
      rw [(index_eq_none_iff _ _).2 hg] at hd
      exact Option.noConfusion hd
  · have h1 : ((es.map Prod.snd).flatMap (fun d => d.Rules)) =
        es.flatMap (fun kv => kv.2.Rules) := by
      rw [List.flatMap_map]
    rw [h1]
    exact (hp.flatMap_right _).trans (namespaceRulesLoop_flatMap rules)

end RulerSrv

/-! ## The two-level fold -/

namespace RulerSrv

open GoMap

theorem lookupFails_eq_false {lookup : String → Except GoError String} {r : AlertRule}
    (h : lookupFails lookup r = false) : ∃ n, lookup r.NamespaceUID = .ok n := by
  unfold lookupFails at h
  cases hl : lookup r.NamespaceUID with
  | ok n => exact ⟨n, rfl⟩
  | error e => simp [hl] at h

theorem lookupFails_eq_true {lookup : String → Except GoError String} {r : AlertRule}
    (h : lookupFails lookup r = true) : ∃ e, lookup r.NamespaceUID = .error e := by
  unfold lookupFails at h
  cases hl : lookup r.NamespaceUID with
  | ok n => simp [hl] at h
  | error e => exact ⟨e, rfl⟩

theorem resolvesTo_iff (lookup : String → Except GoError String) (n : String) (r : AlertRule) :
    resolvesTo lookup n r = true ↔ lookup r.NamespaceUID = .ok n := by
  unfold resolvesTo
  cases hl : lookup r.NamespaceUID with
  | ok name => simp
  | error e => simp

theorem rulesConfigLoop_cons_error {lookup : String → Except GoError String} {r : AlertRule}
    {e : GoError} (h : lookup r.NamespaceUID = .error e) (rest : List AlertRule)
    (configs : GoMap (GoMap RuleGroupConfig)) :
    rulesConfigLoop lookup (r :: rest) configs =
      .error (Response.Error http.StatusInternalServerError
        (failedToGetNamespace r.NamespaceUID) e) := by
  rw [rulesConfigLoop, h]

theorem rulesConfigLoop_cons_ok {lookup : String → Except GoError String} {r : AlertRule}
    {n : String} (h : lookup r.NamespaceUID = .ok n) (rest : List AlertRule)
    (configs : GoMap (GoMap RuleGroupConfig)) :
    rulesConfigLoop lookup (r :: rest) configs =
      rulesConfigLoop lookup rest
        (assign configs n (namespaceRulesStep ((index configs n).getD []) r)) := by
  rw [rulesConfigLoop]
  simp only [h]
  cases hc : index configs n with
  | none => rfl
  | some groups =>
    simp only [Option.getD_some]
    unfold namespaceRulesStep
    cases hg : index groups r.RuleGroup with
    | none => rfl
    | some d => rfl

theorem namespaceGroups_append_single (lookup : String → Except GoError String)
    (pre : List AlertRule) {r : AlertRule} {n : String} (h : lookup r.NamespaceUID = .ok n)
    (k : String) :
    namespaceGroups lookup k (pre ++ [r]) =
      if n = k then some (namespaceRulesStep ((namespaceGroups lookup n pre).getD []) r)
      else namespaceGroups lookup k pre := by
  unfold namespaceGroups
  by_cases hk : n = k
  · subst hk
    have hr : resolvesTo lookup n r = true := (resolvesTo_iff lookup n r).2 h
    rw [if_pos rfl, List.filter_append]
    have h1 : List.filter (resolvesTo lookup n) [r] = [r] := by simp [hr]
    rw [h1, if_neg (by simp), namespaceRulesLoop_append_single]
    by_cases hnil : List.filter (resolvesTo lookup n) pre = []
    · rw [if_pos hnil, hnil]; rfl
    · rw [if_neg hnil]; rfl
  · have hr : resolvesTo lookup k r = false := by
      cases hb : resolvesTo lookup k r with
      | false => rfl
      | true =>
        have := (resolvesTo_iff lookup k r).1 hb
        rw [h] at this
        exact absurd (Except.ok.inj this) hk
    rw [if_neg hk, List.filter_append]
    have h1 : List.filter (resolvesTo lookup k) [r] = [] := by simp [hr]
    rw [h1, List.append_nil]

theorem rulesConfigLoop_ok (lookup : String → Except GoError String) (rest : List AlertRule) :
    ∀ (pre : List AlertRule) (configs : GoMap (GoMap RuleGroupConfig)),
      (keys configs).Nodup → (∀ n, index configs n = namespaceGroups lookup n pre) →
      (∀ r ∈ rest, lookupFails lookup r = false) →
      ∃ final, rulesConfigLoop lookup rest configs = .ok final ∧ (keys final).Nodup ∧
        ∀ n, index final n = namespaceGroups lookup n (pre ++ rest) := by
  induction rest with
  | nil =>
    intro pre configs hnd hinv _
    exact ⟨configs, rfl, hnd, by simpa using hinv⟩
  | cons r rest ih =>
    intro pre configs hnd hinv hok
    obtain ⟨n, hn⟩ := lookupFails_eq_false (hok r (List.mem_cons_self _ _))
    rw [rulesConfigLoop_cons_ok hn]
    have hstep : ∀ k, index (assign configs n
        (namespaceRulesStep ((index configs n).getD []) r)) k =
        namespaceGroups lookup k (pre ++ [r]) := by
      intro k
      rw [namespaceGroups_append_single lookup pre hn k]
      by_cases hk : n = k
      · subst hk
        rw [if_pos rfl, index_assign_self, hinv]
      · rw [if_neg hk, index_assign_ne _ _ hk, hinv]
    obtain ⟨final, h1, h2, h3⟩ := ih (pre ++ [r]) _ (nodup_keys_assign _ _ hnd) hstep
      (fun x hx => hok x (List.mem_cons_of_mem _ hx))
    exact ⟨final, h1, h2, by simpa using h3⟩

theorem rulesConfigLoop_error (lookup : String → Except GoError String) (pre : List AlertRule) :
    ∀ (configs : GoMap (GoMap RuleGroupConfig)) (r : AlertRule) (post : List AlertRule)
      (e : GoError), (∀ x ∈ pre, lookupFails lookup x = false) →
      lookup r.NamespaceUID = .error e →
      rulesConfigLoop lookup (pre ++ r :: post) configs =
        .error (Response.Error http.StatusInternalServerError
          (failedToGetNamespace r.NamespaceUID) e) := by
  induction pre with
  | nil => intro configs r post e _ he; exact rulesConfigLoop_cons_error he post configs
  | cons x pre ih =>
    intro configs r post e hok he
    obtain ⟨n, hn⟩ := lookupFails_eq_false (hok x (List.mem_cons_self _ _))
    rw [List.cons_append, rulesConfigLoop_cons_ok hn]
    exact ih _ r post e (fun y hy => hok y (List.mem_cons_of_mem _ hy)) he

theorem foldl_appendGroups_eq (inner : String → RangeOrder RuleGroupConfig)
    (L : GoMap (GoMap RuleGroupConfig)) :
    ∀ result : apimodels.NamespaceConfigResponse, (keys L).Nodup → (∀ nm ∈ L, nm.2 ≠ []) →
      (∀ k ∈ keys L, k ∉ keys result) →
      L.foldl (fun res nm => appendGroups (inner nm.1) res nm.1 nm.2) result =
        result ++ L.map (fun nm => (nm.1, ((inner nm.1).visit nm.2).map Prod.snd)) := by
  induction L with
  | nil => intro result _ _ _; simp
  | cons nm L ih =>
    intro result hnd hne hdis
    obtain ⟨n, m⟩ := nm
    simp only [keys, List.map_cons, List.nodup_cons] at hnd
    have hm : m ≠ [] := hne (n, m) (List.mem_cons_self _ _)
    have hn : index result n = none :=
      (index_eq_none_iff result n).2 (hdis n (by simp [keys]))
    rw [List.foldl_cons, appendGroups_eq, if_neg hm, hn, assign_of_index_none _ hn]
    rw [ih _ hnd.2 (fun x hx => hne x (List.mem_cons_of_mem _ hx))]
    · simp
    · intro k hk
      simp only [keys, List.map_append, List.map_cons, List.map_nil, List.mem_append,
        List.mem_singleton, not_or]
      refine ⟨hdis k (by simp only [keys, List.map_cons]; exact List.mem_cons_of_mem _ hk), ?_⟩
      intro hkn
      exact hnd.1 (hkn ▸ hk)

theorem namespaceGroups_ne_nil {lookup : String → Except GoError String} {n : String}
    {rules : List AlertRule} {m : GoMap RuleGroupConfig}
    (h : namespaceGroups lookup n rules = some m) :
    rules.filter (resolvesTo lookup n) ≠ [] ∧
      m = namespaceRulesLoop (rules.filter (resolvesTo lookup n)) ∧ m ≠ [] := by
  unfold namespaceGroups at h
  by_cases hnil : rules.filter (resolvesTo lookup n) = []
  · rw [if_pos hnil] at h; exact Option.noConfusion h
  · rw [if_neg hnil] at h
    have hm := (Option.some.inj h).symm
    refine ⟨hnil, hm, ?_⟩
    rw [hm]
    exact fun h0 => hnil ((namespaceRulesLoop_eq_nil_iff _).1 h0)

theorem flattenConfigs_eq (lookup : String → Except GoError String) (rules : List AlertRule)
    (outer : RangeOrder (GoMap RuleGroupConfig)) (inner : String → RangeOrder RuleGroupConfig)
    {configs : GoMap (GoMap RuleGroupConfig)} (hnd : (keys configs).Nodup)
    (hinv : ∀ n, index configs n = namespaceGroups lookup n rules) :
    flattenConfigs outer inner configs =
      (outer.visit configs).map
        (fun nm => (nm.1, ((inner nm.1).visit nm.2).map Prod.snd)) := by
  unfold flattenConfigs
  have hp := outer.visit_perm configs
  rw [foldl_appendGroups_eq inner (outer.visit configs) []]
  · simp
  · exact ((hp.map Prod.fst).nodup_iff).2 hnd
  · intro nm hnm
    have hmem : (nm.1, nm.2) ∈ configs := hp.mem_iff.1 hnm
    have hi := index_of_mem hnd hmem
    rw [hinv] at hi
    exact (namespaceGroups_ne_nil hi).2.2
  · intro k _; simp [keys]

end RulerSrv

/-! ## The org-wide route -/

namespace RulerSrv

open GoMap

theorem first_failing_lookup (lookup : String → Except GoError String) (rules : List AlertRule)
    (h : ∃ r ∈ rules, lookupFails lookup r = true) :
    ∃ pre r post e, rules = pre ++ r :: post ∧ (∀ x ∈ pre, lookupFails lookup x = false) ∧
      lookup r.NamespaceUID = .error e := by
  induction rules with
  | nil => obtain ⟨r, hr, _⟩ := h; simp at hr
  | cons x rest ih =>
    cases hx : lookupFails lookup x with
    | true =>
      obtain ⟨e, he⟩ := lookupFails_eq_true hx
      exact ⟨[], x, rest, e, rfl, by simp, he⟩
    | false =>
      obtain ⟨r, hr, hf⟩ := h
      have hrest : ∃ r ∈ rest, lookupFails lookup r = true := by
        rcases List.mem_cons.1 hr with h1 | h1
        · subst h1; rw [hx] at hf; exact Bool.noConfusion hf
        · exact ⟨r, h1, hf⟩
      obtain ⟨pre, r2, post, e, h1, h2, h3⟩ := ih hrest
      refine ⟨x :: pre, r2, post, e, by rw [h1]; rfl, ?_, h3⟩
      intro y hy
      rcases List.mem_cons.1 hy with h4 | h4
      · subst h4; exact hx
      · exact h2 y h4

theorem rulesConfigLoop_ok_lookups {lookup : String → Except GoError String}
    {rules : List AlertRule} {configs final : GoMap (GoMap RuleGroupConfig)}
    (h : rulesConfigLoop lookup rules configs = .ok final) :
    ∀ r ∈ rules, lookupFails lookup r = false := by
  intro r hr
  cases hf : lookupFails lookup r with
  | false => rfl
  | true =>
    obtain ⟨pre, r2, post, e, h1, h2, h3⟩ := first_failing_lookup lookup rules ⟨r, hr, hf⟩
    rw [h1, rulesConfigLoop_error lookup pre configs r2 post e h2 h3] at h
    exact Except.noConfusion h

/-- The org-wide fold and flattening, when every lookup succeeds: the keys of the document
are the display names of the input rules, and the groups under a display name are those of
the one-level fold over the rules of that display name, in some order. -/
theorem orgRules_document (lookup : String → Except GoError String) (rules : List AlertRule)
    (outer : RangeOrder (GoMap RuleGroupConfig)) (inner : String → RangeOrder RuleGroupConfig)
    (hok : ∀ r ∈ rules, lookupFails lookup r = false) :
    ∃ configs, rulesConfigLoop lookup rules [] = .ok configs ∧
      (∀ n, index configs n = namespaceGroups lookup n rules) ∧
      (keys (flattenConfigs outer inner configs)).Nodup ∧
      (∀ k, k ∈ keys (flattenConfigs outer inner configs) ↔
        ∃ r ∈ rules, lookup r.NamespaceUID = .ok k) ∧
      ∀ n docs, (n, docs) ∈ flattenConfigs outer inner configs →
        ∃ es : GoMap RuleGroupConfig,
          es.Perm (namespaceRulesLoop (rules.filter (resolvesTo lookup n))) ∧
          docs = es.map Prod.snd := by
  obtain ⟨configs, h1, hnd, hinv⟩ :=
    rulesConfigLoop_ok lookup rules [] [] (by simp [keys]) (fun n => by simp [index, namespaceGroups])
      hok
  simp only [List.nil_append] at hinv
  have hflat := flattenConfigs_eq lookup rules outer inner hnd hinv
  have hp := outer.visit_perm configs
  have hkeys : keys (flattenConfigs outer inner configs) = keys (outer.visit configs) := by
    rw [hflat]; simp [keys, List.map_map, Function.comp_def]
  have hkp : (keys (outer.visit configs)).Perm (keys configs) := hp.map Prod.fst
  refine ⟨configs, h1, hinv, ?_, ?_, ?_⟩
  · rw [hkeys]; exact hkp.nodup_iff.2 hnd
  · intro k
    rw [hkeys, hkp.mem_iff]
    constructor
    · intro hk
      cases hi : index configs k with
      | none => exact absurd hk ((index_eq_none_iff _ _).1 hi)
      | some m =>
        rw [hinv] at hi
        obtain ⟨hne, _, _⟩ := namespaceGroups_ne_nil hi
        obtain ⟨r, hr⟩ := List.exists_mem_of_ne_nil _ hne
        obtain ⟨hr1, hr2⟩ := List.mem_filter.1 hr
        exact ⟨r, hr1, (resolvesTo_iff lookup k r).1 hr2⟩
    · rintro ⟨r, hr, hk⟩
      by_contra hnot
      have hi := (index_eq_none_iff _ _).2 hnot
      rw [hinv] at hi
      unfold namespaceGroups at hi
      have hmem : r ∈ rules.filter (resolvesTo lookup k) :=
        List.mem_filter.2 ⟨hr, (resolvesTo_iff lookup k r).2 hk⟩
      by_cases hnil : rules.filter (resolvesTo lookup k) = []
      · rw [hnil] at hmem; simp at hmem
      · rw [if_neg hnil] at hi; exact Option.noConfusion hi
  · intro n docs hmem
    rw [hflat] at hmem
    obtain ⟨nm, hnm, heq⟩ := List.mem_map.1 hmem
    simp only [Prod.mk.injEq] at heq
    obtain ⟨hn, hd⟩ := heq
    have hmem2 : (nm.1, nm.2) ∈ configs := hp.mem_iff.1 hnm
    have hi := index_of_mem hnd hmem2
    rw [hinv, hn] at hi
    obtain ⟨_, hm, _⟩ := namespaceGroups_ne_nil hi
    refine ⟨(inner nm.1).visit nm.2, ?_, hd.symm⟩
    rw [← hm]
    exact (inner nm.1).visit_perm nm.2

/-- The group documents of the org-wide document: a document found under the display name
`n` is the first-seen-wins document of its name over the rules that resolve to `n`. -/
theorem orgRules_group {lookup : String → Except GoError String} {rules : List AlertRule}
    {n : String} {docs : List RuleGroupConfig} {es : GoMap RuleGroupConfig}
    (hp : es.Perm (namespaceRulesLoop (rules.filter (resolvesTo lookup n))))
    (hdocs : docs = es.map Prod.snd) {d : RuleGroupConfig} (hd : d ∈ docs) :
    d.Rules = (rules.filter
        (fun r => resolvesTo lookup n r && decide (r.RuleGroup = d.Name))).map
          toExtendedRuleNode ∧
      ∃ first, rules.find? (fun r => resolvesTo lookup n r && decide (r.RuleGroup = d.Name)) =
          some first ∧ d.Interval = ruleGroupInterval first := by
  subst hdocs
  have hg := (visited_groups hp).1 d hd
  obtain ⟨_, hr, first, hf, hi⟩ := groupDocument_eq_some hg
  refine ⟨?_, first, ?_, hi⟩
  · rw [hr, List.filter_filter]
    congr 1
    apply List.filter_congr
    intro x _
    exact Bool.and_comm _ _
  · rw [List.find?_filter] at hf
    rw [← hf]
    congr 1
    funext x
    by_cases hx : resolvesTo lookup n x = true
    · simp [hx]
    · simp [hx]

end RulerSrv

/-! ## Intervals under extension of the input -/

namespace RulerSrv

open GoMap

theorem groupDocument_append_interval {g : String} {rules : List AlertRule}
    {d : RuleGroupConfig} (more : List AlertRule) (h : groupDocument g rules = some d) :
    ∃ d2, groupDocument g (rules ++ more) = some d2 ∧ d2.Interval = d.Interval := by
  obtain ⟨_, _, first, hf, hi⟩ := groupDocument_eq_some h
  refine ⟨⟨g, ruleGroupInterval first,
    ((rules ++ more).filter (fun r => decide (r.RuleGroup = g))).map toExtendedRuleNode⟩,
    ?_, hi.symm⟩
  unfold groupDocument
  rw [List.find?_append, hf]
  rfl

theorem rulesConfigLoop_index {lookup : String → Except GoError String}
    {rules : List AlertRule} {configs : GoMap (GoMap RuleGroupConfig)}
    (h : rulesConfigLoop lookup rules [] = .ok configs) (n : String) :
    index configs n = namespaceGroups lookup n rules := by
  obtain ⟨final, h1, _, h3⟩ :=
    rulesConfigLoop_ok lookup rules [] [] (by simp [keys])
      (fun n => by simp [index, namespaceGroups]) (rulesConfigLoop_ok_lookups h)
  rw [h] at h1
  rw [Except.ok.inj h1]
  simpa using h3 n

theorem rulesConfigLoop_append_interval {lookup : String → Except GoError String}
    {rules more : List AlertRule} {configs configs2 : GoMap (GoMap RuleGroupConfig)}
    (h1 : rulesConfigLoop lookup rules [] = .ok configs)
    (h2 : rulesConfigLoop lookup (rules ++ more) [] = .ok configs2)
    {n g : String} {m : GoMap RuleGroupConfig} {d : RuleGroupConfig}
    (hm : index configs n = some m) (hd : index m g = some d) :
    ∃ m2 d2, index configs2 n = some m2 ∧ index m2 g = some d2 ∧
      d2.Interval = d.Interval := by
  rw [rulesConfigLoop_index h1] at hm
  obtain ⟨hne, hmeq, _⟩ := namespaceGroups_ne_nil hm
  rw [hmeq, namespaceRulesLoop_index] at hd
  obtain ⟨d2, hd2, hi⟩ :=
    groupDocument_append_interval (more.filter (resolvesTo lookup n)) hd
  refine ⟨namespaceRulesLoop ((rules ++ more).filter (resolvesTo lookup n)), d2, ?_, ?_, hi⟩
  · rw [rulesConfigLoop_index h2]
    unfold namespaceGroups
    rw [if_neg]
    rw [List.filter_append]
    intro h0
    exact hne (List.append_eq_nil.1 h0).1
  · rw [namespaceRulesLoop_index, List.filter_append]
    exact hd2

end RulerSrv

/-! ## The document an iteration of the org-wide loop writes -/

namespace RulerSrv

open GoMap

theorem documentAt_configsAfter (lookup : String → Except GoError String)
    (rules : List AlertRule) (hok : ∀ r ∈ rules, lookupFails lookup r = false)
    (n g : String) :
    documentAt (configsAfter lookup rules) n g =
      groupDocument g (rules.filter (resolvesTo lookup n)) := by
  obtain ⟨configs, h1, _, hinv⟩ :=
    rulesConfigLoop_ok lookup rules [] [] (by simp [keys])
      (fun n => by simp [index, namespaceGroups]) hok
  simp only [List.nil_append] at hinv
  simp only [configsAfter, h1, documentAt, hinv n, namespaceGroups]
  by_cases hnil : rules.filter (resolvesTo lookup n) = []
  · rw [if_pos hnil, hnil]; rfl
  · rw [if_neg hnil]
    exact namespaceRulesLoop_index _ g

theorem placedAt_iff (lookup : String → Except GoError String) (pre : List AlertRule)
    (r : AlertRule) (hok : ∀ x ∈ pre ++ [r], lookupFails lookup x = false) (n g : String) :
    placedAt lookup pre r n g = true ↔ lookup r.NamespaceUID = .ok n ∧ r.RuleGroup = g := by
  have hpre : ∀ x ∈ pre, lookupFails lookup x = false :=
    fun x hx => hok x (List.mem_append_left _ hx)
  simp only [placedAt, decide_eq_true_eq]
  rw [documentAt_configsAfter lookup (pre ++ [r]) hok, documentAt_configsAfter lookup pre hpre,
    List.filter_append]
  by_cases hres : resolvesTo lookup n r = true
  · have hl := (resolvesTo_iff lookup n r).1 hres
    have h1 : List.filter (resolvesTo lookup n) [r] = [r] := by simp [hres]
    rw [h1, groupDocument_append_single]
    by_cases hg : r.RuleGroup = g
    · rw [if_pos hg]
      constructor
      · intro _; exact ⟨hl, hg⟩
      · intro _
        cases groupDocument g (List.filter (resolvesTo lookup n) pre) with
        | none => simp
        | some d =>
          intro h
          have := congrArg (fun o : Option RuleGroupConfig => o.map (fun x => x.Rules.length)) h
          simp at this
    · rw [if_neg hg]
      constructor
      · intro h; exact absurd rfl h
      · intro h; exact absurd h.2 hg
  · have h1 : List.filter (resolvesTo lookup n) [r] = [] := by simp [hres]
    rw [h1, List.append_nil]
    constructor
    · intro h; exact absurd rfl h
    · intro h; exact absurd ((resolvesTo_iff lookup n r).2 h.1) hres

theorem placedAt_appends (lookup : String → Except GoError String) (pre : List AlertRule)
    (r : AlertRule) (hok : ∀ x ∈ pre ++ [r], lookupFails lookup x = false) (n : String)
    (hn : lookup r.NamespaceUID = .ok n) :
    (documentAt (configsAfter lookup (pre ++ [r])) n r.RuleGroup).map (fun d => d.Rules) =
      some (((documentAt (configsAfter lookup pre) n r.RuleGroup).map
        (fun d => d.Rules)).getD [] ++ [toExtendedRuleNode r]) := by
  have hpre : ∀ x ∈ pre, lookupFails lookup x = false :=
    fun x hx => hok x (List.mem_append_left _ hx)
  have hres : resolvesTo lookup n r = true := (resolvesTo_iff lookup n r).2 hn
  have h1 : List.filter (resolvesTo lookup n) [r] = [r] := by simp [hres]
  rw [documentAt_configsAfter lookup (pre ++ [r]) hok, documentAt_configsAfter lookup pre hpre,
    List.filter_append, h1, groupDocument_append_single, if_pos rfl]
  cases groupDocument r.RuleGroup (List.filter (resolvesTo lookup n) pre) with
  | none => rfl
  | some d => rfl

theorem documentAt_iff_listed (lookup : String → Except GoError String)
    (rules : List AlertRule) (outer : RangeOrder (GoMap RuleGroupConfig))
    (inner : String → RangeOrder RuleGroupConfig)
    (hok : ∀ r ∈ rules, lookupFails lookup r = false) (n g : String) (d : RuleGroupConfig) :
    documentAt (configsAfter lookup rules) n g = some d ↔
      ∃ docs, (n, docs) ∈ flattenConfigs outer inner (configsAfter lookup rules) ∧
        d ∈ docs ∧ d.Name = g := by
  obtain ⟨configs, h1, _, _, hkeys, hdocs⟩ := orgRules_document lookup rules outer inner hok
  have hca : configsAfter lookup rules = configs := by simp only [configsAfter, h1]
  rw [documentAt_configsAfter lookup rules hok, hca]
  constructor
  · intro hd
    obtain ⟨hname, _, first, hf, _⟩ := groupDocument_eq_some hd
    have hfirst := List.mem_filter.1 (List.mem_of_find?_eq_some hf)
    have hk : n ∈ keys (flattenConfigs outer inner configs) :=
      (hkeys n).2 ⟨first, hfirst.1, (resolvesTo_iff lookup n first).1 hfirst.2⟩
    obtain ⟨nd, hnd, hfst⟩ := List.mem_map.1 hk
    have hmem : (n, nd.2) ∈ flattenConfigs outer inner configs := by
      rw [← hfst]; exact hnd
    obtain ⟨es, hp, he⟩ := hdocs n nd.2 hmem
    refine ⟨nd.2, hmem, ?_, hname⟩
    rw [he]
    have hi : index (namespaceRulesLoop (rules.filter (resolvesTo lookup n))) g = some d := by
      rw [namespaceRulesLoop_index]; exact hd
    exact List.mem_map.2 ⟨(g, d), hp.mem_iff.2 (mem_of_index hi), rfl⟩
  · rintro ⟨docs, hmem, hd, hname⟩
    obtain ⟨es, hp, he⟩ := hdocs n docs hmem
    rw [he] at hd
    have := (visited_groups hp).1 d hd
    rw [hname] at this
    exact this

end RulerSrv

/-! ## The single-group loop -/

namespace RulerSrv

theorem ruleGroupLoop_eq (rules : List AlertRule) :
    ∀ acc : Int × List ExtendedRuleNode,
      ruleGroupLoop rules acc =
        ((rules.getLast?.map ruleGroupInterval).getD acc.1,
          acc.2 ++ rules.map toExtendedRuleNode) := by
  induction rules with
  | nil => intro acc; simp [ruleGroupLoop]
  | cons r rest ih =>
    intro acc
    have h := ih (ruleGroupInterval r, acc.2 ++ [toExtendedRuleNode r])
    unfold ruleGroupLoop at h ⊢
    rw [List.foldl_cons, h, List.getLast?_cons]
    cases rest.getLast? <;> simp

end RulerSrv

/-! ## Properties of the routes -/

open RulerSrv GoMap

/-- C1: the one-level aggregation of `RouteGetNamespaceRulesConfig` partitions the rules
returned by the namespace query. When the slug resolves and the query returns `rules`, the
route answers with a namespace document whose group documents (under whatever key) have
pairwise distinct names, the names being exactly the `RuleGroup` values that occur in
`rules`; no group is empty, the rules of the group named `g` are the translations of the
input rules whose `RuleGroup` is `g`, in input order; all groups together hold exactly the
translated input rules, each as often as it occurs in the input, and every input rule has
exactly one group of its name, which contains its translation. This holds for every order
in which the final `range` visits the groups. -/
theorem namespaceRules_partition {σ : Type} (srv : RulerSrv σ)
    (order : RangeOrder RuleGroupConfig) (s s1 : σ) (c : models.ReqContext)
    (namespaceUID : String) (rules : List AlertRule)
    (hns : srv.store.GetNamespaceUIDBySlug s (c.Params ":Namespace") c.SignedInUser.OrgId
      c.SignedInUser = .ok namespaceUID)
    (hq : srv.store.GetNamespaceAlertRules s
      { OrgID := c.SignedInUser.OrgId, NamespaceUID := namespaceUID } = (.ok rules, s1)) :
    ∃ result : apimodels.NamespaceConfigResponse,
      RouteGetNamespaceRulesConfig srv order s c =
        (Response.JSON http.StatusAccepted (.namespaceConfig result), s1) ∧
      ((result.flatMap Prod.snd).map (fun d => d.Name)).Nodup ∧
      (∀ g, g ∈ (result.flatMap Prod.snd).map (fun d => d.Name) ↔
        ∃ r ∈ rules, r.RuleGroup = g) ∧
      (∀ d ∈ result.flatMap Prod.snd, d.Rules ≠ [] ∧
        d.Rules =
          (rules.filter (fun r => decide (r.RuleGroup = d.Name))).map toExtendedRuleNode) ∧
      ((result.flatMap Prod.snd).flatMap (fun d => d.Rules)).Perm
        (rules.map toExtendedRuleNode) ∧
      (∀ r ∈ rules, ∃ d ∈ result.flatMap Prod.snd, d.Name = r.RuleGroup ∧
        toExtendedRuleNode r ∈ d.Rules ∧
        ∀ d2 ∈ result.flatMap Prod.snd, d2.Name = r.RuleGroup → d2 = d) := by
  refine ⟨appendGroups order [] (c.Params ":Namespace") (namespaceRulesLoop rules), ?_, ?_⟩
  · simp only [RouteGetNamespaceRulesConfig, hns, hq]
  have hdocs : (appendGroups order [] (c.Params ":Namespace")
      (namespaceRulesLoop rules)).flatMap Prod.snd =
      (order.visit (namespaceRulesLoop rules)).map Prod.snd := by
    rw [namespaceResult_eq]
    by_cases h : rules = []
    · subst h
      have : order.visit (namespaceRulesLoop []) = [] :=
        (order.visit_perm (namespaceRulesLoop [])).eq_nil
      simp [this]
    · simp [h]
  rw [hdocs]
  obtain ⟨h1, h2, h3, h4⟩ := visited_groups (order.visit_perm (namespaceRulesLoop rules))
  have hnames : ∀ d1 ∈ (order.visit (namespaceRulesLoop rules)).map Prod.snd,
      ∀ d2 ∈ (order.visit (namespaceRulesLoop rules)).map Prod.snd,
      d1.Name = d2.Name → d1 = d2 := by
    intro d1 hd1 d2 hd2 hn
    have e1 := h1 d1 hd1
    have e2 := h1 d2 hd2
    rw [hn, e2] at e1
    exact (Option.some.inj e1).symm
  refine ⟨h2, h3, ?_, h4, ?_⟩
  · intro d hd
    exact ⟨groupDocument_rules_ne_nil (h1 d hd), (groupDocument_eq_some (h1 d hd)).2.1⟩
  · intro r hr
    obtain ⟨d, hd, hname⟩ := List.mem_map.1 ((h3 r.RuleGroup).2 ⟨r, hr, rfl⟩)
    refine ⟨d, hd, hname, ?_, ?_⟩
    · rw [(groupDocument_eq_some (h1 d hd)).2.1]
      exact List.mem_map.2 ⟨r, List.mem_filter.2 ⟨hr, by simp [hname]⟩, rfl⟩
    · intro d2 hd2 hn2
      exact hnames d2 hd2 d hd (hn2.trans hname.symm)

/-- Witness of C1, on the in-memory store: three rules of group `g1` and one of group `g2`
give exactly two groups, `g1` with three rules and `g2` with one. -/
theorem namespaceRules_partition_witness :
    (∃ result : apimodels.NamespaceConfigResponse,
      RouteGetNamespaceRulesConfig memstore.srv (RangeOrder.reversed RuleGroupConfig)
          memstore.oneNamespace (memstore.request "prod" "") =
        (Response.JSON http.StatusAccepted (.namespaceConfig result),
          { memstore.oneNamespace with
            calls := [.listNamespace { OrgID := 1, NamespaceUID := "ns1" }] }) ∧
      ((result.flatMap Prod.snd).map (fun d => d.Name)).Nodup ∧
      (∀ g, g ∈ (result.flatMap Prod.snd).map (fun d => d.Name) ↔
        ∃ r ∈ memstore.rulesOneNamespace, r.RuleGroup = g) ∧
      (∀ d ∈ result.flatMap Prod.snd, d.Rules ≠ [] ∧
        d.Rules = (memstore.rulesOneNamespace.filter
          (fun r => decide (r.RuleGroup = d.Name))).map toExtendedRuleNode) ∧
      ((result.flatMap Prod.snd).flatMap (fun d => d.Rules)).Perm
        (memstore.rulesOneNamespace.map toExtendedRuleNode) ∧
      (∀ r ∈ memstore.rulesOneNamespace, ∃ d ∈ result.flatMap Prod.snd,
        d.Name = r.RuleGroup ∧ toExtendedRuleNode r ∈ d.Rules ∧
        ∀ d2 ∈ result.flatMap Prod.snd, d2.Name = r.RuleGroup → d2 = d)) ∧
    ∃ docs, (RouteGetNamespaceRulesConfig memstore.srv (RangeOrder.reversed RuleGroupConfig)
          memstore.oneNamespace (memstore.request "prod" "")).1 =
        Response.JSON http.StatusAccepted (.namespaceConfig [("prod", docs)]) ∧
      docs.map (fun d => (d.Name, d.Rules.length)) = [("g2", 1), ("g1", 3)] :=
  ⟨namespaceRules_partition memstore.srv (RangeOrder.reversed RuleGroupConfig)
      memstore.oneNamespace _ (memstore.request "prod" "") "ns1" memstore.rulesOneNamespace
      rfl rfl,
    ⟨_, rfl, by decide⟩⟩

/-- C2: the single-group path keeps the rules in input order. When the slug resolves and the
group query returns `rules`, `RouteGetRulegGroupConfig` answers with a rule group document
whose `Rules` is `rules` mapped through `toExtendedRuleNode`: same length, and the i-th
node is the translation of the i-th rule. -/
theorem ruleGroup_rules_in_input_order {σ : Type} (srv : RulerSrv σ) (s s1 : σ)
    (c : models.ReqContext) (namespaceUID : String) (rules : List AlertRule)
    (hns : srv.store.GetNamespaceUIDBySlug s (c.Params ":Namespace") c.SignedInUser.OrgId
      c.SignedInUser = .ok namespaceUID)
    (hq : srv.store.GetRuleGroupAlertRules s
      { OrgID := c.SignedInUser.OrgId, NamespaceUID := namespaceUID,
        RuleGroup := c.Params ":Groupname" } = (.ok rules, s1)) :
    ∃ doc : RuleGroupConfig,
      RouteGetRulegGroupConfig srv s c =
        (Response.JSON http.StatusAccepted (.ruleGroupConfig ⟨doc⟩), s1) ∧
      doc.Rules = rules.map toExtendedRuleNode ∧
      doc.Rules.length = rules.length ∧
      ∀ i : Nat, doc.Rules[i]? = rules[i]?.map toExtendedRuleNode := by
  refine ⟨⟨c.Params ":Groupname", (ruleGroupLoop rules (0, [])).1,
    (ruleGroupLoop rules (0, [])).2⟩, ?_, ?_⟩
  · simp only [RouteGetRulegGroupConfig, hns, hq]
  · have h : (ruleGroupLoop rules (0, [])).2 = rules.map toExtendedRuleNode := by
      rw [ruleGroupLoop_eq]; simp
    refine ⟨h, ?_, fun i => ?_⟩
    · show (ruleGroupLoop rules (0, [])).2.length = rules.length
      rw [h]; simp
    · show (ruleGroupLoop rules (0, [])).2[i]? = _
      rw [h]; simp

/-- Witness of C2, on the in-memory store: the group `g1` of the namespace `prod`. -/
theorem ruleGroup_rules_in_input_order_witness :
    ∃ doc : RuleGroupConfig,
      RouteGetRulegGroupConfig memstore.srv memstore.oneNamespace (memstore.request "prod" "g1") =
        (Response.JSON http.StatusAccepted (.ruleGroupConfig ⟨doc⟩),
          { memstore.oneNamespace with
            calls := [.listRuleGroup { OrgID := 1, NamespaceUID := "ns1", RuleGroup := "g1" }] }) ∧
      doc.Rules = [memstore.rule "a" "ns1" "g1" 10, memstore.rule "b" "ns1" "g1" 20,
        memstore.rule "d" "ns1" "g1" 40].map toExtendedRuleNode ∧
      doc.Rules.length =
        [memstore.rule "a" "ns1" "g1" 10, memstore.rule "b" "ns1" "g1" 20,
          memstore.rule "d" "ns1" "g1" 40].length ∧
      ∀ i : Nat, doc.Rules[i]? =
        [memstore.rule "a" "ns1" "g1" 10, memstore.rule "b" "ns1" "g1" 20,
          memstore.rule "d" "ns1" "g1" 40][i]?.map toExtendedRuleNode :=
  ruleGroup_rules_in_input_order memstore.srv memstore.oneNamespace _
    (memstore.request "prod" "g1") "ns1" _ rfl rfl

/-- C3: `toExtendedRuleNode` is total and keeps the rule definition. For every alert rule
the node carries a Grafana managed alert whose `UID`, `OrgID`, `Title`, `Condition` and
`Data` are those of the rule, and whose `NoDataState` and `ExecutionErrorState` have the
underlying values of the rule's `NoDataState` and `ExecErrState`. -/
theorem toExtendedRuleNode_keeps_fields (r : AlertRule) :
    ∃ cmd : apimodels.ExtendedUpsertAlertDefinitionCommand,
      (toExtendedRuleNode r).GrafanaManagedAlert = some cmd ∧
      cmd.UpdateAlertDefinitionCommand.UID = r.UID ∧
      cmd.UpdateAlertDefinitionCommand.OrgID = r.OrgID ∧
      cmd.UpdateAlertDefinitionCommand.Title = r.Title ∧
      cmd.UpdateAlertDefinitionCommand.Condition = r.Condition ∧
      cmd.UpdateAlertDefinitionCommand.Data = r.Data ∧
      cmd.NoDataState.val = r.NoDataState.val ∧
      cmd.ExecutionErrorState.val = r.ExecErrState.val :=
  ⟨_, rfl, rfl, rfl, rfl, rfl, rfl, rfl, rfl⟩

/-! ### The org-wide aggregation -/

theorem RulerSrv.lookupFails_of_ok {lookup : String → Except GoError String}
    {rules : List AlertRule} (hok : ∀ r ∈ rules, ∃ n, lookup r.NamespaceUID = .ok n) :
    ∀ r ∈ rules, lookupFails lookup r = false := by
  intro r hr
  obtain ⟨n, hn⟩ := hok r hr
  simp [lookupFails, hn]

theorem RulerSrv.toExtendedRuleNode_uid {a b : AlertRule}
    (h : toExtendedRuleNode a = toExtendedRuleNode b) : a.UID = b.UID := by
  have := congrArg
    (fun n : ExtendedRuleNode =>
      n.GrafanaManagedAlert.map (fun cmd => cmd.UpdateAlertDefinitionCommand.UID)) h
  simpa [toExtendedRuleNode] using this

theorem RulerSrv.sameGroupDocument_iff (result : apimodels.NamespaceConfigResponse)
    (x y : ExtendedRuleNode) :
    sameGroupDocument result x y = true ↔
      ∃ n docs d, (n, docs) ∈ result ∧ d ∈ docs ∧ x ∈ d.Rules ∧ y ∈ d.Rules := by
  simp only [sameGroupDocument, List.any_eq_true, Bool.and_eq_true, decide_eq_true_eq]
  constructor
  · rintro ⟨nd, hnd, d, hd, hx, hy⟩
    exact ⟨nd.1, nd.2, d, hnd, hd, hx, hy⟩
  · rintro ⟨n, docs, d, hnd, hd, hx, hy⟩
    exact ⟨(n, docs), hnd, d, hd, hx, hy⟩

/-- C4, as amended: in the org-wide aggregation of `RouteGetRulesConfig` group membership
is decided by the display name the `NamespaceUID` resolves to, together with `RuleGroup`.
When the org query returns `rules` and every namespace lookup succeeds: the group documents
of the answer are the documents `configs[n][g]` at the end of the loop, listed under the
key `n` with the name `g`, and the rules of such a document are the translations of the
input rules that resolve to `n` and have the group name `g`, in input order; the iteration
for an input rule places the rule in the document `configs[n][g]`, to which it appends the
rule's node, exactly for the display name `n` of the rule and its `RuleGroup` `g`, and the
group document of that name listed under `n` in the answer holds the rule's node; hence
two input rules (two positions of the input) are placed in the same group document if and
only if their `NamespaceUID`s resolve to the same display name and they have the same
`RuleGroup`. When no two different `NamespaceUID`s of the input resolve to the same display
name, this is the case if and only if they have the same `NamespaceUID` and `RuleGroup`. -/
theorem orgRules_membership_by_display_name {σ : Type} (srv : RulerSrv σ)
    (outer : RangeOrder (GoMap RuleGroupConfig)) (inner : String → RangeOrder RuleGroupConfig)
    (s s1 : σ) (c : models.ReqContext) (rules : List AlertRule)
    (hq : srv.store.GetOrgAlertRules s { OrgID := c.SignedInUser.OrgId } = (.ok rules, s1))
    (hok : ∀ r ∈ rules, ∃ n,
      srv.store.GetNamespaceByUID s1 r.NamespaceUID c.SignedInUser.OrgId c.SignedInUser =
        .ok n) :
    ∃ result : apimodels.NamespaceConfigResponse,
      RouteGetRulesConfig srv outer inner s c =
        (Response.JSON http.StatusAccepted (.namespaceConfig result), s1) ∧
      (∀ n docs d, (n, docs) ∈ result → d ∈ docs →
        d.Rules = (rules.filter (fun r =>
          resolvesTo (fun uid => srv.store.GetNamespaceByUID s1 uid c.SignedInUser.OrgId
            c.SignedInUser) n r && decide (r.RuleGroup = d.Name))).map toExtendedRuleNode) ∧
      (∀ n g d,
        documentAt (configsAfter (fun uid => srv.store.GetNamespaceByUID s1 uid
          c.SignedInUser.OrgId c.SignedInUser) rules) n g = some d ↔
        ∃ docs, (n, docs) ∈ result ∧ d ∈ docs ∧ d.Name = g) ∧
      (∀ pre r post, rules = pre ++ r :: post →
        (∀ n g,
          placedAt (fun uid => srv.store.GetNamespaceByUID s1 uid c.SignedInUser.OrgId
            c.SignedInUser) pre r n g = true ↔
          srv.store.GetNamespaceByUID s1 r.NamespaceUID c.SignedInUser.OrgId c.SignedInUser =
            .ok n ∧ r.RuleGroup = g) ∧
        ∀ n,
          srv.store.GetNamespaceByUID s1 r.NamespaceUID c.SignedInUser.OrgId c.SignedInUser =
            .ok n →
          (documentAt (configsAfter (fun uid => srv.store.GetNamespaceByUID s1 uid
            c.SignedInUser.OrgId c.SignedInUser) (pre ++ [r])) n r.RuleGroup).map
              (fun d => d.Rules) =
            some (((documentAt (configsAfter (fun uid => srv.store.GetNamespaceByUID s1 uid
              c.SignedInUser.OrgId c.SignedInUser) pre) n r.RuleGroup).map
                (fun d => d.Rules)).getD [] ++ [toExtendedRuleNode r]) ∧
          ∃ docs d, (n, docs) ∈ result ∧ d ∈ docs ∧ d.Name = r.RuleGroup ∧
            toExtendedRuleNode r ∈ d.Rules) ∧
      (∀ pre1 r1 post1 pre2 r2 post2,
        rules = pre1 ++ r1 :: post1 → rules = pre2 ++ r2 :: post2 →
        ((∃ n g,
            placedAt (fun uid => srv.store.GetNamespaceByUID s1 uid c.SignedInUser.OrgId
              c.SignedInUser) pre1 r1 n g = true ∧
            placedAt (fun uid => srv.store.GetNamespaceByUID s1 uid c.SignedInUser.OrgId
              c.SignedInUser) pre2 r2 n g = true) ↔
          srv.store.GetNamespaceByUID s1 r1.NamespaceUID c.SignedInUser.OrgId c.SignedInUser =
            srv.store.GetNamespaceByUID s1 r2.NamespaceUID c.SignedInUser.OrgId c.SignedInUser ∧
          r1.RuleGroup = r2.RuleGroup)) ∧
      ((∀ r1 ∈ rules, ∀ r2 ∈ rules,
          srv.store.GetNamespaceByUID s1 r1.NamespaceUID c.SignedInUser.OrgId c.SignedInUser =
            srv.store.GetNamespaceByUID s1 r2.NamespaceUID c.SignedInUser.OrgId c.SignedInUser →
          r1.NamespaceUID = r2.NamespaceUID) →
        ∀ pre1 r1 post1 pre2 r2 post2,
          rules = pre1 ++ r1 :: post1 → rules = pre2 ++ r2 :: post2 →
          ((∃ n g,
              placedAt (fun uid => srv.store.GetNamespaceByUID s1 uid c.SignedInUser.OrgId
                c.SignedInUser) pre1 r1 n g = true ∧
              placedAt (fun uid => srv.store.GetNamespaceByUID s1 uid c.SignedInUser.OrgId
                c.SignedInUser) pre2 r2 n g = true) ↔
            r1.NamespaceUID = r2.NamespaceUID ∧ r1.RuleGroup = r2.RuleGroup)) := by
  have hfail : ∀ r ∈ rules, lookupFails (fun uid => srv.store.GetNamespaceByUID s1 uid
      c.SignedInUser.OrgId c.SignedInUser) r = false :=
    lookupFails_of_ok hok
  obtain ⟨configs, h1, _, _, _, hdocs⟩ :=
    orgRules_document
      (fun uid => srv.store.GetNamespaceByUID s1 uid c.SignedInUser.OrgId c.SignedInUser)
      rules outer inner hfail
  have hca : configsAfter (fun uid => srv.store.GetNamespaceByUID s1 uid
      c.SignedInUser.OrgId c.SignedInUser) rules = configs := by
    simp only [configsAfter, h1]
  have hrules : ∀ n docs d, (n, docs) ∈ flattenConfigs outer inner configs → d ∈ docs →
      d.Rules = (rules.filter (fun r =>
        resolvesTo (fun uid => srv.store.GetNamespaceByUID s1 uid c.SignedInUser.OrgId
          c.SignedInUser) n r && decide (r.RuleGroup = d.Name))).map toExtendedRuleNode := by
    intro n docs d hmem hd
    obtain ⟨es, hp, he⟩ := hdocs n docs hmem
    exact (orgRules_group hp he hd).1
  have hmemPre : ∀ pre r post, rules = pre ++ r :: post →
      ∀ x ∈ pre ++ [r], lookupFails (fun uid => srv.store.GetNamespaceByUID s1 uid
        c.SignedInUser.OrgId c.SignedInUser) x = false := by
    intro pre r post hsplit x hx
    apply hfail x
    rw [hsplit]
    rcases List.mem_append.1 hx with h | h
    · exact List.mem_append_left _ h
    · rw [List.mem_singleton.1 h]
      exact List.mem_append_right _ (List.mem_cons_self _ _)
  have hplaced : ∀ pre r post, rules = pre ++ r :: post → ∀ n g,
      placedAt (fun uid => srv.store.GetNamespaceByUID s1 uid c.SignedInUser.OrgId
        c.SignedInUser) pre r n g = true ↔
      srv.store.GetNamespaceByUID s1 r.NamespaceUID c.SignedInUser.OrgId c.SignedInUser =
        .ok n ∧ r.RuleGroup = g :=
    fun pre r post hsplit n g =>
      placedAt_iff
        (fun uid => srv.store.GetNamespaceByUID s1 uid c.SignedInUser.OrgId c.SignedInUser)
        pre r (hmemPre pre r post hsplit) n g
  have hsame : ∀ pre1 r1 post1 pre2 r2 post2,
      rules = pre1 ++ r1 :: post1 → rules = pre2 ++ r2 :: post2 →
      ((∃ n g,
          placedAt (fun uid => srv.store.GetNamespaceByUID s1 uid c.SignedInUser.OrgId
            c.SignedInUser) pre1 r1 n g = true ∧
          placedAt (fun uid => srv.store.GetNamespaceByUID s1 uid c.SignedInUser.OrgId
            c.SignedInUser) pre2 r2 n g = true) ↔
        srv.store.GetNamespaceByUID s1 r1.NamespaceUID c.SignedInUser.OrgId c.SignedInUser =
          srv.store.GetNamespaceByUID s1 r2.NamespaceUID c.SignedInUser.OrgId c.SignedInUser ∧
        r1.RuleGroup = r2.RuleGroup) := by
    intro pre1 r1 post1 pre2 r2 post2 hs1 hs2
    constructor
    · rintro ⟨n, g, hp1, hp2⟩
      obtain ⟨a1, a2⟩ := (hplaced pre1 r1 post1 hs1 n g).1 hp1
      obtain ⟨b1, b2⟩ := (hplaced pre2 r2 post2 hs2 n g).1 hp2
      exact ⟨a1.trans b1.symm, a2.trans b2.symm⟩
    · rintro ⟨hn, hg⟩
      have hr1 : r1 ∈ rules := by
        rw [hs1]; exact List.mem_append_right _ (List.mem_cons_self _ _)
      obtain ⟨n, hn1⟩ := hok r1 hr1
      exact ⟨n, r1.RuleGroup, (hplaced pre1 r1 post1 hs1 n _).2 ⟨hn1, rfl⟩,
        (hplaced pre2 r2 post2 hs2 n _).2 ⟨hn.symm.trans hn1, hg.symm⟩⟩
  refine ⟨flattenConfigs outer inner configs, ?_, hrules, ?_, ?_, hsame, ?_⟩
  · simp only [RouteGetRulesConfig, hq, h1]
  · intro n g d
    have := documentAt_iff_listed
      (fun uid => srv.store.GetNamespaceByUID s1 uid c.SignedInUser.OrgId c.SignedInUser)
      rules outer inner hfail n g d
    rw [hca] at this
    rw [hca]
    exact this
  · intro pre r post hsplit
    refine ⟨hplaced pre r post hsplit, fun n hn => ⟨?_, ?_⟩⟩
    · exact placedAt_appends
        (fun uid => srv.store.GetNamespaceByUID s1 uid c.SignedInUser.OrgId c.SignedInUser)
        pre r (hmemPre pre r post hsplit) n hn
    · have hr : r ∈ rules := by
        rw [hsplit]; exact List.mem_append_right _ (List.mem_cons_self _ _)
      have hres : resolvesTo (fun uid => srv.store.GetNamespaceByUID s1 uid
          c.SignedInUser.OrgId c.SignedInUser) n r = true :=
        (resolvesTo_iff _ n r).2 hn
      obtain ⟨d, hd⟩ := (groupDocument_isSome_iff r.RuleGroup
        (rules.filter (resolvesTo (fun uid => srv.store.GetNamespaceByUID s1 uid
          c.SignedInUser.OrgId c.SignedInUser) n))).2
        ⟨r, List.mem_filter.2 ⟨hr, hres⟩, rfl⟩
      have hat : documentAt configs n r.RuleGroup = some d := by
        rw [← hca, documentAt_configsAfter _ rules hfail]
        exact hd
      have hlist := documentAt_iff_listed
        (fun uid => srv.store.GetNamespaceByUID s1 uid c.SignedInUser.OrgId c.SignedInUser)
        rules outer inner hfail n r.RuleGroup d
      rw [hca] at hlist
      obtain ⟨docs, hmem, hdmem, hname⟩ := hlist.1 hat
      refine ⟨docs, d, hmem, hdmem, hname, ?_⟩
      rw [hrules n docs d hmem hdmem]
      refine List.mem_map.2 ⟨r, List.mem_filter.2 ⟨hr, ?_⟩, rfl⟩
      simp [hres, hname]
  · intro hinj pre1 r1 post1 pre2 r2 post2 hs1 hs2
    rw [hsame pre1 r1 post1 pre2 r2 post2 hs1 hs2]
    have hr1 : r1 ∈ rules := by
      rw [hs1]; exact List.mem_append_right _ (List.mem_cons_self _ _)
    have hr2 : r2 ∈ rules := by
      rw [hs2]; exact List.mem_append_right _ (List.mem_cons_self _ _)
    constructor
    · rintro ⟨hn, hg⟩; exact ⟨hinj r1 hr1 r2 hr2 hn, hg⟩
    · rintro ⟨hn, hg⟩; exact ⟨by rw [hn], hg⟩

/-- Witness of the amended C4, on the in-memory store with the namespaces `Production`
and `Staging`: the third rule `c` is placed in the document `g1` of `Production`, as the
first rule `a` is, and not in the document `g1` of `Staging`, in which `b` is placed; two
rules with equal nodes and different groups are placed in different documents. -/
theorem orgRules_membership_by_display_name_witness :
    (∃ result : apimodels.NamespaceConfigResponse,
      RouteGetRulesConfig memstore.srv (RangeOrder.reversed (GoMap RuleGroupConfig))
          (fun _ => RangeOrder.insertion RuleGroupConfig) memstore.twoNamespaces
          (memstore.request "" "") =
        (Response.JSON http.StatusAccepted (.namespaceConfig result),
          { memstore.twoNamespaces with calls := [.listOrg { OrgID := 1 }] }) ∧
      (∀ n docs d, (n, docs) ∈ result → d ∈ docs →
        d.Rules = (memstore.rulesTwoNamespaces.filter (fun r =>
          resolvesTo (fun uid => memstore.srv.store.GetNamespaceByUID
            { memstore.twoNamespaces with calls := [.listOrg { OrgID := 1 }] } uid 1
            memstore.user) n r && decide (r.RuleGroup = d.Name))).map toExtendedRuleNode) ∧
      (∀ n g d,
        documentAt (configsAfter (fun uid => memstore.srv.store.GetNamespaceByUID
          { memstore.twoNamespaces with calls := [.listOrg { OrgID := 1 }] } uid 1
          memstore.user) memstore.rulesTwoNamespaces) n g = some d ↔
        ∃ docs, (n, docs) ∈ result ∧ d ∈ docs ∧ d.Name = g) ∧
      (∀ pre r post, memstore.rulesTwoNamespaces = pre ++ r :: post →
        (∀ n g,
          placedAt (fun uid => memstore.srv.store.GetNamespaceByUID
            { memstore.twoNamespaces with calls := [.listOrg { OrgID := 1 }] } uid 1
            memstore.user) pre r n g = true ↔
          memstore.srv.store.GetNamespaceByUID
            { memstore.twoNamespaces with calls := [.listOrg { OrgID := 1 }] }
            r.NamespaceUID 1 memstore.user = .ok n ∧ r.RuleGroup = g) ∧
        ∀ n,
          memstore.srv.store.GetNamespaceByUID
            { memstore.twoNamespaces with calls := [.listOrg { OrgID := 1 }] }
            r.NamespaceUID 1 memstore.user = .ok n →
          (documentAt (configsAfter (fun uid => memstore.srv.store.GetNamespaceByUID
            { memstore.twoNamespaces with calls := [.listOrg { OrgID := 1 }] } uid 1
            memstore.user) (pre ++ [r])) n r.RuleGroup).map (fun d => d.Rules) =
            some (((documentAt (configsAfter (fun uid => memstore.srv.store.GetNamespaceByUID
              { memstore.twoNamespaces with calls := [.listOrg { OrgID := 1 }] } uid 1
              memstore.user) pre) n r.RuleGroup).map (fun d => d.Rules)).getD [] ++
                [toExtendedRuleNode r]) ∧
          ∃ docs d, (n, docs) ∈ result ∧ d ∈ docs ∧ d.Name = r.RuleGroup ∧
            toExtendedRuleNode r ∈ d.Rules) ∧
      (∀ pre1 r1 post1 pre2 r2 post2,
        memstore.rulesTwoNamespaces = pre1 ++ r1 :: post1 →
        memstore.rulesTwoNamespaces = pre2 ++ r2 :: post2 →
        ((∃ n g,
            placedAt (fun uid => memstore.srv.store.GetNamespaceByUID
              { memstore.twoNamespaces with calls := [.listOrg { OrgID := 1 }] } uid 1
              memstore.user) pre1 r1 n g = true ∧
            placedAt (fun uid => memstore.srv.store.GetNamespaceByUID
              { memstore.twoNamespaces with calls := [.listOrg { OrgID := 1 }] } uid 1
              memstore.user) pre2 r2 n g = true) ↔
          memstore.srv.store.GetNamespaceByUID
              { memstore.twoNamespaces with calls := [.listOrg { OrgID := 1 }] }
              r1.NamespaceUID 1 memstore.user =
            memstore.srv.store.GetNamespaceByUID
              { memstore.twoNamespaces with calls := [.listOrg { OrgID := 1 }] }
              r2.NamespaceUID 1 memstore.user ∧
          r1.RuleGroup = r2.RuleGroup)) ∧
      ((∀ r1 ∈ memstore.rulesTwoNamespaces, ∀ r2 ∈ memstore.rulesTwoNamespaces,
          memstore.srv.store.GetNamespaceByUID
              { memstore.twoNamespaces with calls := [.listOrg { OrgID := 1 }] }
              r1.NamespaceUID 1 memstore.user =
            memstore.srv.store.GetNamespaceByUID
              { memstore.twoNamespaces with calls := [.listOrg { OrgID := 1 }] }
              r2.NamespaceUID 1 memstore.user →
          r1.NamespaceUID = r2.NamespaceUID) →
        ∀ pre1 r1 post1 pre2 r2 post2,
          memstore.rulesTwoNamespaces = pre1 ++ r1 :: post1 →
          memstore.rulesTwoNamespaces = pre2 ++ r2 :: post2 →
          ((∃ n g,
              placedAt (fun uid => memstore.srv.store.GetNamespaceByUID
                { memstore.twoNamespaces with calls := [.listOrg { OrgID := 1 }] } uid 1
                memstore.user) pre1 r1 n g = true ∧
              placedAt (fun uid => memstore.srv.store.GetNamespaceByUID
                { memstore.twoNamespaces with calls := [.listOrg { OrgID := 1 }] } uid 1
                memstore.user) pre2 r2 n g = true) ↔
            r1.NamespaceUID = r2.NamespaceUID ∧ r1.RuleGroup = r2.RuleGroup))) ∧
    placedAt (fun uid => memstore.srv.store.GetNamespaceByUID memstore.twoNamespaces uid 1
        memstore.user) [] (memstore.rule "a" "ns1" "g1" 10) "Production" "g1" = true ∧
    placedAt (fun uid => memstore.srv.store.GetNamespaceByUID memstore.twoNamespaces uid 1
        memstore.user) [memstore.rule "a" "ns1" "g1" 10, memstore.rule "b" "ns2" "g1" 20]
        (memstore.rule "c" "ns1" "g1" 30) "Production" "g1" = true ∧
    placedAt (fun uid => memstore.srv.store.GetNamespaceByUID memstore.twoNamespaces uid 1
        memstore.user) [memstore.rule "a" "ns1" "g1" 10, memstore.rule "b" "ns2" "g1" 20]
        (memstore.rule "c" "ns1" "g1" 30) "Staging" "g1" = false ∧
    placedAt (fun uid => memstore.srv.store.GetNamespaceByUID memstore.twoNamespaces uid 1
        memstore.user) [memstore.rule "a" "ns1" "g1" 10]
        (memstore.rule "b" "ns2" "g1" 20) "Staging" "g1" = true ∧
    toExtendedRuleNode (memstore.rule "a" "ns1" "g1" 10) =
      toExtendedRuleNode (memstore.rule "a" "ns1" "g2" 10) ∧
    placedAt (fun uid => memstore.srv.store.GetNamespaceByUID memstore.twoNamespaces uid 1
        memstore.user) [memstore.rule "a" "ns1" "g1" 10]
        (memstore.rule "a" "ns1" "g2" 10) "Production" "g2" = true ∧
    placedAt (fun uid => memstore.srv.store.GetNamespaceByUID memstore.twoNamespaces uid 1
        memstore.user) [memstore.rule "a" "ns1" "g1" 10]
        (memstore.rule "a" "ns1" "g2" 10) "Production" "g1" = false :=
  ⟨orgRules_membership_by_display_name memstore.srv _ _ memstore.twoNamespaces _
      (memstore.request "" "") memstore.rulesTwoNamespaces rfl
      (by
        intro r hr
        simp only [memstore.rulesTwoNamespaces, List.mem_cons, List.mem_singleton,
          List.not_mem_nil, or_false] at hr
        rcases hr with rfl | rfl | rfl | rfl
        · exact ⟨"Production", rfl⟩
        · exact ⟨"Staging", rfl⟩
        · exact ⟨"Production", rfl⟩
        · exact ⟨"Staging", rfl⟩),
    by decide, by decide, by decide, by decide, by decide, by decide, by decide⟩

/-- Counterexample to C4 as stated: in the store where the namespaces `ns1` and `ns2` have
the same display name, every lookup succeeds, and the rules `a` (namespace `ns1`) and `b`
(namespace `ns2`) of group `g1` are in the same group document although their
`NamespaceUID`s differ: both iterations write the document of `Production` and `g1`, and
the answer has a group document that holds the nodes of both. -/
theorem orgRules_same_display_name_merges :
    (∀ r ∈ memstore.rulesTwoNamespaces, ∃ n,
      memstore.srv.store.GetNamespaceByUID
        { memstore.sameTitle with calls := [.listOrg { OrgID := 1 }] } r.NamespaceUID 1
        memstore.user = .ok n) ∧
    (∃ result : apimodels.NamespaceConfigResponse,
      RouteGetRulesConfig memstore.srv (RangeOrder.insertion (GoMap RuleGroupConfig))
          (fun _ => RangeOrder.insertion RuleGroupConfig) memstore.sameTitle
          (memstore.request "" "") =
        (Response.JSON http.StatusAccepted (.namespaceConfig result),
          { memstore.sameTitle with calls := [.listOrg { OrgID := 1 }] }) ∧
      ¬ (sameGroupDocument result (toExtendedRuleNode (memstore.rule "a" "ns1" "g1" 10))
            (toExtendedRuleNode (memstore.rule "b" "ns2" "g1" 20)) = true ↔
          (memstore.rule "a" "ns1" "g1" 10).NamespaceUID =
              (memstore.rule "b" "ns2" "g1" 20).NamespaceUID ∧
            (memstore.rule "a" "ns1" "g1" 10).RuleGroup =
              (memstore.rule "b" "ns2" "g1" 20).RuleGroup)) ∧
    memstore.rulesTwoNamespaces =
      [] ++ memstore.rule "a" "ns1" "g1" 10 ::
        [memstore.rule "b" "ns2" "g1" 20, memstore.rule "c" "ns1" "g1" 30,
          memstore.rule "d" "ns2" "g2" 40] ∧
    memstore.rulesTwoNamespaces =
      [memstore.rule "a" "ns1" "g1" 10] ++ memstore.rule "b" "ns2" "g1" 20 ::
        [memstore.rule "c" "ns1" "g1" 30, memstore.rule "d" "ns2" "g2" 40] ∧
    ¬ ((∃ n g,
          placedAt (fun uid => memstore.srv.store.GetNamespaceByUID
            { memstore.sameTitle with calls := [.listOrg { OrgID := 1 }] } uid 1
            memstore.user) [] (memstore.rule "a" "ns1" "g1" 10) n g = true ∧
          placedAt (fun uid => memstore.srv.store.GetNamespaceByUID
            { memstore.sameTitle with calls := [.listOrg { OrgID := 1 }] } uid 1
            memstore.user) [memstore.rule "a" "ns1" "g1" 10]
            (memstore.rule "b" "ns2" "g1" 20) n g = true) ↔
        (memstore.rule "a" "ns1" "g1" 10).NamespaceUID =
            (memstore.rule "b" "ns2" "g1" 20).NamespaceUID ∧
          (memstore.rule "a" "ns1" "g1" 10).RuleGroup =
            (memstore.rule "b" "ns2" "g1" 20).RuleGroup) := by
  refine ⟨?_, ⟨_, rfl, ?_⟩, rfl, rfl, ?_⟩
  · intro r hr
    simp only [memstore.rulesTwoNamespaces, List.mem_cons, List.mem_singleton,
      List.not_mem_nil, or_false] at hr
    rcases hr with rfl | rfl | rfl | rfl <;> exact ⟨"Production", rfl⟩
  · decide
  · intro h
    have hplaced : ∃ n g,
        placedAt (fun uid => memstore.srv.store.GetNamespaceByUID
          { memstore.sameTitle with calls := [.listOrg { OrgID := 1 }] } uid 1
          memstore.user) [] (memstore.rule "a" "ns1" "g1" 10) n g = true ∧
        placedAt (fun uid => memstore.srv.store.GetNamespaceByUID
          { memstore.sameTitle with calls := [.listOrg { OrgID := 1 }] } uid 1
          memstore.user) [memstore.rule "a" "ns1" "g1" 10]
          (memstore.rule "b" "ns2" "g1" 20) n g = true :=
      ⟨"Production", "g1", by decide, by decide⟩
    exact absurd (h.1 hplaced).1 (by decide)

/-- C5: the top-level keys of the org-wide document are the display names of the input
rules. When the org query returns `rules` and every namespace lookup succeeds,
`RouteGetRulesConfig` answers with a namespace document whose keys are pairwise distinct,
and `k` is a key if and only if the `NamespaceUID` of some input rule resolves to `k`. -/
theorem orgRules_keys_are_display_names {σ : Type} (srv : RulerSrv σ)
    (outer : RangeOrder (GoMap RuleGroupConfig)) (inner : String → RangeOrder RuleGroupConfig)
    (s s1 : σ) (c : models.ReqContext) (rules : List AlertRule)
    (hq : srv.store.GetOrgAlertRules s { OrgID := c.SignedInUser.OrgId } = (.ok rules, s1))
    (hok : ∀ r ∈ rules, ∃ n,
      srv.store.GetNamespaceByUID s1 r.NamespaceUID c.SignedInUser.OrgId c.SignedInUser =
        .ok n) :
    ∃ result : apimodels.NamespaceConfigResponse,
      RouteGetRulesConfig srv outer inner s c =
        (Response.JSON http.StatusAccepted (.namespaceConfig result), s1) ∧
      (keys result).Nodup ∧
      ∀ k, k ∈ keys result ↔ ∃ r ∈ rules,
        srv.store.GetNamespaceByUID s1 r.NamespaceUID c.SignedInUser.OrgId c.SignedInUser =
          .ok k := by
  obtain ⟨configs, h1, _, hnd, hkeys, _⟩ :=
    orgRules_document
      (fun uid => srv.store.GetNamespaceByUID s1 uid c.SignedInUser.OrgId c.SignedInUser)
      rules outer inner (lookupFails_of_ok hok)
  refine ⟨flattenConfigs outer inner configs, ?_, hnd, hkeys⟩
  simp only [RouteGetRulesConfig, hq, h1]

/-- Witness of C5, on the in-memory store: rules of the namespaces `ns1` (display name
`Production`) and `ns2` (display name `Staging`) give exactly the two keys `Production`
and `Staging`. -/
theorem orgRules_keys_are_display_names_witness :
    (∃ result : apimodels.NamespaceConfigResponse,
      RouteGetRulesConfig memstore.srv (RangeOrder.reversed (GoMap RuleGroupConfig))
          (fun _ => RangeOrder.reversed RuleGroupConfig) memstore.twoNamespaces
          (memstore.request "" "") =
        (Response.JSON http.StatusAccepted (.namespaceConfig result),
          { memstore.twoNamespaces with calls := [.listOrg { OrgID := 1 }] }) ∧
      (keys result).Nodup ∧
      ∀ k, k ∈ keys result ↔ ∃ r ∈ memstore.rulesTwoNamespaces,
        memstore.srv.store.GetNamespaceByUID
          { memstore.twoNamespaces with calls := [.listOrg { OrgID := 1 }] } r.NamespaceUID 1
          memstore.user = .ok k) ∧
    ∃ result : apimodels.NamespaceConfigResponse,
      (RouteGetRulesConfig memstore.srv (RangeOrder.reversed (GoMap RuleGroupConfig))
          (fun _ => RangeOrder.reversed RuleGroupConfig) memstore.twoNamespaces
          (memstore.request "" "")).1 =
        Response.JSON http.StatusAccepted (.namespaceConfig result) ∧
      keys result = ["Staging", "Production"] :=
  ⟨orgRules_keys_are_display_names memstore.srv _ _ memstore.twoNamespaces _
      (memstore.request "" "") memstore.rulesTwoNamespaces rfl
      (by
        intro r hr
        simp only [memstore.rulesTwoNamespaces, List.mem_cons, List.mem_singleton,
          List.not_mem_nil, or_false] at hr
        rcases hr with rfl | rfl | rfl | rfl
        · exact ⟨"Production", rfl⟩
        · exact ⟨"Staging", rfl⟩
        · exact ⟨"Production", rfl⟩
        · exact ⟨"Staging", rfl⟩),
    ⟨_, rfl, by decide⟩⟩

/-! ### Keys of the namespace document, intervals, failures -/

/-- C6, as amended: a successful answer of `RouteGetNamespaceRulesConfig` has at most one
top-level key. When the slug resolves and the namespace query returns `rules`, the
returned mapping has exactly one key, the namespace named in the request, if `rules` is
not empty, and it is the empty mapping if `rules` is empty. -/
theorem namespaceRules_single_key {σ : Type} (srv : RulerSrv σ)
    (order : RangeOrder RuleGroupConfig) (s s1 : σ) (c : models.ReqContext)
    (namespaceUID : String) (rules : List AlertRule)
    (hns : srv.store.GetNamespaceUIDBySlug s (c.Params ":Namespace") c.SignedInUser.OrgId
      c.SignedInUser = .ok namespaceUID)
    (hq : srv.store.GetNamespaceAlertRules s
      { OrgID := c.SignedInUser.OrgId, NamespaceUID := namespaceUID } = (.ok rules, s1)) :
    ∃ result : apimodels.NamespaceConfigResponse,
      RouteGetNamespaceRulesConfig srv order s c =
        (Response.JSON http.StatusAccepted (.namespaceConfig result), s1) ∧
      (rules ≠ [] → keys result = [c.Params ":Namespace"]) ∧
      (rules = [] → result = []) := by
  refine ⟨appendGroups order [] (c.Params ":Namespace") (namespaceRulesLoop rules), ?_, ?_, ?_⟩
  · simp only [RouteGetNamespaceRulesConfig, hns, hq]
  · intro h
    rw [namespaceResult_eq, if_neg h]
    rfl
  · intro h
    rw [namespaceResult_eq, if_pos h]

/-- Witness of the amended C6, on the in-memory store: the namespace `prod` has rules. -/
theorem namespaceRules_single_key_witness :
    ∃ result : apimodels.NamespaceConfigResponse,
      RouteGetNamespaceRulesConfig memstore.srv (RangeOrder.insertion RuleGroupConfig)
          memstore.oneNamespace (memstore.request "prod" "") =
        (Response.JSON http.StatusAccepted (.namespaceConfig result),
          { memstore.oneNamespace with
            calls := [.listNamespace { OrgID := 1, NamespaceUID := "ns1" }] }) ∧
      (memstore.rulesOneNamespace ≠ [] →
        keys result = [(memstore.request "prod" "").Params ":Namespace"]) ∧
      (memstore.rulesOneNamespace = [] → result = []) :=
  namespaceRules_single_key memstore.srv (RangeOrder.insertion RuleGroupConfig)
    memstore.oneNamespace _ (memstore.request "prod" "") "ns1" memstore.rulesOneNamespace
    rfl rfl

/-- Counterexample to C6 as stated: the slug `idle` resolves, the namespace query succeeds
with no rule, and the answer is the mapping without any key, so the namespace named in the
request is not a key of it. -/
theorem namespaceRules_no_key_without_rules :
    memstore.srv.store.GetNamespaceUIDBySlug memstore.oneNamespace "idle" 1 memstore.user =
      .ok "ns0" ∧
    (memstore.srv.store.GetNamespaceAlertRules memstore.oneNamespace
      { OrgID := 1, NamespaceUID := "ns0" }).1 = .ok [] ∧
    ∃ result : apimodels.NamespaceConfigResponse,
      (RouteGetNamespaceRulesConfig memstore.srv (RangeOrder.insertion RuleGroupConfig)
          memstore.oneNamespace (memstore.request "idle" "")).1 =
        Response.JSON http.StatusAccepted (.namespaceConfig result) ∧
      keys result = [] ∧ "idle" ∉ keys result :=
  ⟨rfl, rfl, [], rfl, rfl, by simp [keys]⟩

/-- C7: in both grouping paths the interval of a group document is that of the first
input rule with the group's key. When the slug resolves and the namespace query returns
`rulesN`, every group document of the answer of `RouteGetNamespaceRulesConfig` has the
interval derived from the first rule of `rulesN` with the document's group name. When the
org query returns `rulesO` and every namespace lookup succeeds, every group document found
under the display name `n` in the answer of `RouteGetRulesConfig` has the interval derived
from the first rule of `rulesO` that resolves to `n` and has the document's group name.
In both folds the interval of a group is the same after any further rules are processed. -/
theorem interval_first_seen_wins {σ : Type} (srv : RulerSrv σ)
    (order : RangeOrder RuleGroupConfig) (outer : RangeOrder (GoMap RuleGroupConfig))
    (inner : String → RangeOrder RuleGroupConfig) (s : σ) (c : models.ReqContext) :
    (∀ (namespaceUID : String) (rulesN : List AlertRule) (sN : σ),
      srv.store.GetNamespaceUIDBySlug s (c.Params ":Namespace") c.SignedInUser.OrgId
        c.SignedInUser = .ok namespaceUID →
      srv.store.GetNamespaceAlertRules s
        { OrgID := c.SignedInUser.OrgId, NamespaceUID := namespaceUID } = (.ok rulesN, sN) →
      ∃ result : apimodels.NamespaceConfigResponse,
        RouteGetNamespaceRulesConfig srv order s c =
          (Response.JSON http.StatusAccepted (.namespaceConfig result), sN) ∧
        ∀ d ∈ result.flatMap Prod.snd, ∃ first,
          rulesN.find? (fun r => decide (r.RuleGroup = d.Name)) = some first ∧
          d.Interval = ruleGroupInterval first) ∧
    (∀ (rulesO : List AlertRule) (sO : σ),
      srv.store.GetOrgAlertRules s { OrgID := c.SignedInUser.OrgId } = (.ok rulesO, sO) →
      (∀ r ∈ rulesO, ∃ n,
        srv.store.GetNamespaceByUID sO r.NamespaceUID c.SignedInUser.OrgId c.SignedInUser =
          .ok n) →
      ∃ result : apimodels.NamespaceConfigResponse,
        RouteGetRulesConfig srv outer inner s c =
          (Response.JSON http.StatusAccepted (.namespaceConfig result), sO) ∧
        ∀ n docs d, (n, docs) ∈ result → d ∈ docs → ∃ first,
          rulesO.find? (fun r =>
            resolvesTo (fun uid => srv.store.GetNamespaceByUID sO uid c.SignedInUser.OrgId
              c.SignedInUser) n r && decide (r.RuleGroup = d.Name)) = some first ∧
          d.Interval = ruleGroupInterval first) ∧
    (∀ (rules more : List AlertRule) (g : String) (d : RuleGroupConfig),
      index (namespaceRulesLoop rules) g = some d →
      ∃ d2, index (namespaceRulesLoop (rules ++ more)) g = some d2 ∧
        d2.Interval = d.Interval) ∧
    (∀ (lookup : String → Except GoError String) (rules more : List AlertRule)
      (configs configs2 : GoMap (GoMap RuleGroupConfig))
      (n g : String) (m : GoMap RuleGroupConfig) (d : RuleGroupConfig),
      rulesConfigLoop lookup rules [] = .ok configs →
      rulesConfigLoop lookup (rules ++ more) [] = .ok configs2 →
      index configs n = some m → index m g = some d →
      ∃ m2 d2, index configs2 n = some m2 ∧ index m2 g = some d2 ∧
        d2.Interval = d.Interval) := by
  refine ⟨?_, ?_, ?_, ?_⟩
  · intro namespaceUID rulesN sN hns hqN
    refine ⟨appendGroups order [] (c.Params ":Namespace") (namespaceRulesLoop rulesN), ?_, ?_⟩
    · simp only [RouteGetNamespaceRulesConfig, hns, hqN]
    · intro d hd
      have hdocs : (appendGroups order [] (c.Params ":Namespace")
          (namespaceRulesLoop rulesN)).flatMap Prod.snd =
          (order.visit (namespaceRulesLoop rulesN)).map Prod.snd := by
        rw [namespaceResult_eq]
        by_cases h : rulesN = []
        · subst h
          have : order.visit (namespaceRulesLoop []) = [] :=
            (order.visit_perm (namespaceRulesLoop [])).eq_nil
          simp [this]
        · simp [h]
      rw [hdocs] at hd
      have hg := (visited_groups (order.visit_perm (namespaceRulesLoop rulesN))).1 d hd
      obtain ⟨_, _, first, hf, hi⟩ := groupDocument_eq_some hg
      exact ⟨first, hf, hi⟩
  · intro rulesO sO hqO hok
    obtain ⟨configs, h1, _, _, _, hdocs⟩ :=
      orgRules_document
        (fun uid => srv.store.GetNamespaceByUID sO uid c.SignedInUser.OrgId c.SignedInUser)
        rulesO outer inner (lookupFails_of_ok hok)
    refine ⟨flattenConfigs outer inner configs, ?_, ?_⟩
    · simp only [RouteGetRulesConfig, hqO, h1]
    · intro n docs d hmem hd
      obtain ⟨es, hp, he⟩ := hdocs n docs hmem
      exact (orgRules_group hp he hd).2
  · intro rules more g d hd
    rw [namespaceRulesLoop_index] at hd ⊢
    exact groupDocument_append_interval more hd
  · intro lookup rules more configs configs2 n g m d h1 h2 hm hd
    exact rulesConfigLoop_append_interval h1 h2 hm hd

/-- Witness of C7, on the in-memory store: the read of the namespace `prod` from a store in
which the namespace of other rules cannot be looked up, the org-wide read of a request
without a slug, and both folds after one further rule. -/
theorem interval_first_seen_wins_witness :
    (∃ result : apimodels.NamespaceConfigResponse,
      RouteGetNamespaceRulesConfig memstore.srv (RangeOrder.reversed RuleGroupConfig)
          memstore.missingNamespace (memstore.request "prod" "") =
        (Response.JSON http.StatusAccepted (.namespaceConfig result),
          { memstore.missingNamespace with
            calls := [.listNamespace { OrgID := 1, NamespaceUID := "ns1" }] }) ∧
      ∀ d ∈ result.flatMap Prod.snd, ∃ first,
        [memstore.rule "a" "ns1" "g1" 10, memstore.rule "c" "ns1" "g1" 30].find?
          (fun r => decide (r.RuleGroup = d.Name)) = some first ∧
        d.Interval = ruleGroupInterval first) ∧
    (∃ result : apimodels.NamespaceConfigResponse,
      RouteGetRulesConfig memstore.srv (RangeOrder.reversed (GoMap RuleGroupConfig))
          (fun _ => RangeOrder.reversed RuleGroupConfig) memstore.twoNamespaces
          (memstore.request "" "") =
        (Response.JSON http.StatusAccepted (.namespaceConfig result),
          { memstore.twoNamespaces with calls := [.listOrg { OrgID := 1 }] }) ∧
      ∀ n docs d, (n, docs) ∈ result → d ∈ docs → ∃ first,
        memstore.rulesTwoNamespaces.find? (fun r =>
          resolvesTo (fun uid => memstore.srv.store.GetNamespaceByUID
            { memstore.twoNamespaces with calls := [.listOrg { OrgID := 1 }] } uid 1
            memstore.user) n r && decide (r.RuleGroup = d.Name)) = some first ∧
        d.Interval = ruleGroupInterval first) ∧
    (∃ d2, index (namespaceRulesLoop
        ([memstore.rule "a" "ns1" "g1" 10, memstore.rule "c" "ns1" "g1" 30] ++
          [memstore.rule "e" "ns1" "g1" 90])) "g1" = some d2 ∧
      d2.Interval = (apimodels.RuleGroupConfig.mk "g1" 10000000000
        [toExtendedRuleNode (memstore.rule "a" "ns1" "g1" 10),
          toExtendedRuleNode (memstore.rule "c" "ns1" "g1" 30)]).Interval) ∧
    (∃ m2 d2,
      index (configsAfter (fun uid => memstore.srv.store.GetNamespaceByUID
        memstore.twoNamespaces uid 1 memstore.user)
        (memstore.rulesTwoNamespaces ++ [memstore.rule "e" "ns2" "g2" 90])) "Staging" =
          some m2 ∧
      index m2 "g2" = some d2 ∧
      d2.Interval = (apimodels.RuleGroupConfig.mk "g2" 40000000000
        [toExtendedRuleNode (memstore.rule "d" "ns2" "g2" 40)]).Interval) ∧
    (RouteGetNamespaceRulesConfig memstore.srv (RangeOrder.reversed RuleGroupConfig)
        memstore.twoNamespaces (memstore.request "prod" "")).1 =
      Response.JSON http.StatusAccepted (.namespaceConfig
        [("prod", [⟨"g1", 10000000000,
          [toExtendedRuleNode (memstore.rule "a" "ns1" "g1" 10),
            toExtendedRuleNode (memstore.rule "c" "ns1" "g1" 30)]⟩])]) :=
  ⟨(interval_first_seen_wins memstore.srv (RangeOrder.reversed RuleGroupConfig)
      (RangeOrder.reversed (GoMap RuleGroupConfig))
      (fun _ => RangeOrder.reversed RuleGroupConfig) memstore.missingNamespace
      (memstore.request "prod" "")).1 "ns1" _ _ rfl rfl,
    (interval_first_seen_wins memstore.srv (RangeOrder.reversed RuleGroupConfig)
      (RangeOrder.reversed (GoMap RuleGroupConfig))
      (fun _ => RangeOrder.reversed RuleGroupConfig) memstore.twoNamespaces
      (memstore.request "" "")).2.1 memstore.rulesTwoNamespaces _ rfl
      (by
        intro r hr
        simp only [memstore.rulesTwoNamespaces, List.mem_cons, List.mem_singleton,
          List.not_mem_nil, or_false] at hr
        rcases hr with rfl | rfl | rfl | rfl
        · exact ⟨"Production", rfl⟩
        · exact ⟨"Staging", rfl⟩
        · exact ⟨"Production", rfl⟩
        · exact ⟨"Staging", rfl⟩),
    (interval_first_seen_wins memstore.srv (RangeOrder.reversed RuleGroupConfig)
      (RangeOrder.reversed (GoMap RuleGroupConfig))
      (fun _ => RangeOrder.reversed RuleGroupConfig) memstore.twoNamespaces
      (memstore.request "" "")).2.2.1
      [memstore.rule "a" "ns1" "g1" 10, memstore.rule "c" "ns1" "g1" 30]
      [memstore.rule "e" "ns1" "g1" 90] "g1" _ rfl,
    (interval_first_seen_wins memstore.srv (RangeOrder.reversed RuleGroupConfig)
      (RangeOrder.reversed (GoMap RuleGroupConfig))
      (fun _ => RangeOrder.reversed RuleGroupConfig) memstore.twoNamespaces
      (memstore.request "" "")).2.2.2
      (fun uid => memstore.srv.store.GetNamespaceByUID memstore.twoNamespaces uid 1
        memstore.user)
      memstore.rulesTwoNamespaces [memstore.rule "e" "ns2" "g2" 90]
      (configsAfter (fun uid => memstore.srv.store.GetNamespaceByUID
        memstore.twoNamespaces uid 1 memstore.user) memstore.rulesTwoNamespaces)
      (configsAfter (fun uid => memstore.srv.store.GetNamespaceByUID
        memstore.twoNamespaces uid 1 memstore.user)
        (memstore.rulesTwoNamespaces ++ [memstore.rule "e" "ns2" "g2" 90]))
      "Staging" "g2" _ _ rfl rfl rfl rfl,
    by decide⟩

/-- C8: in the single-group path the interval is that of the last rule. When the slug
resolves and the group query returns `rules`, `RouteGetRulegGroupConfig` answers with a
rule group document whose name is the requested group name; if `rules` is not empty its
interval is derived from the last rule of `rules` (from the only rule, for a one-element
sequence); if `rules` is empty its interval is zero and it has no rules. -/
theorem ruleGroup_interval_last_seen_wins {σ : Type} (srv : RulerSrv σ) (s s1 : σ)
    (c : models.ReqContext) (namespaceUID : String) (rules : List AlertRule)
    (hns : srv.store.GetNamespaceUIDBySlug s (c.Params ":Namespace") c.SignedInUser.OrgId
      c.SignedInUser = .ok namespaceUID)
    (hq : srv.store.GetRuleGroupAlertRules s
      { OrgID := c.SignedInUser.OrgId, NamespaceUID := namespaceUID,
        RuleGroup := c.Params ":Groupname" } = (.ok rules, s1)) :
    ∃ doc : RuleGroupConfig,
      RouteGetRulegGroupConfig srv s c =
        (Response.JSON http.StatusAccepted (.ruleGroupConfig ⟨doc⟩), s1) ∧
      doc.Name = c.Params ":Groupname" ∧
      (∀ h : rules ≠ [], doc.Interval = ruleGroupInterval (rules.getLast h)) ∧
      (∀ r, rules = [r] → doc.Interval = ruleGroupInterval r) ∧
      (rules = [] → doc.Interval = 0 ∧ doc.Rules = []) := by
  refine ⟨⟨c.Params ":Groupname", (ruleGroupLoop rules (0, [])).1,
    (ruleGroupLoop rules (0, [])).2⟩, ?_, rfl, ?_, ?_, ?_⟩
  · simp only [RouteGetRulegGroupConfig, hns, hq]
  · intro h
    show (ruleGroupLoop rules (0, [])).1 = _
    rw [ruleGroupLoop_eq, List.getLast?_eq_getLast _ h]
    rfl
  · intro r h
    subst h
    rfl
  · intro h
    subst h
    exact ⟨rfl, rfl⟩

/-- Witness of C8, on the in-memory store: the group `g1` of the namespace `prod`, whose
last rule has an interval of 40 seconds. -/
theorem ruleGroup_interval_last_seen_wins_witness :
    (∃ doc : RuleGroupConfig,
      RouteGetRulegGroupConfig memstore.srv memstore.oneNamespace (memstore.request "prod" "g1") =
        (Response.JSON http.StatusAccepted (.ruleGroupConfig ⟨doc⟩),
          { memstore.oneNamespace with
            calls := [.listRuleGroup { OrgID := 1, NamespaceUID := "ns1", RuleGroup := "g1" }] }) ∧
      doc.Name = (memstore.request "prod" "g1").Params ":Groupname" ∧
      (∀ h : [memstore.rule "a" "ns1" "g1" 10, memstore.rule "b" "ns1" "g1" 20,
          memstore.rule "d" "ns1" "g1" 40] ≠ [],
        doc.Interval = ruleGroupInterval
          ([memstore.rule "a" "ns1" "g1" 10, memstore.rule "b" "ns1" "g1" 20,
            memstore.rule "d" "ns1" "g1" 40].getLast h)) ∧
      (∀ r, [memstore.rule "a" "ns1" "g1" 10, memstore.rule "b" "ns1" "g1" 20,
          memstore.rule "d" "ns1" "g1" 40] = [r] → doc.Interval = ruleGroupInterval r) ∧
      ([memstore.rule "a" "ns1" "g1" 10, memstore.rule "b" "ns1" "g1" 20,
          memstore.rule "d" "ns1" "g1" 40] = [] → doc.Interval = 0 ∧ doc.Rules = [])) ∧
    ∃ doc : RuleGroupConfig,
      (RouteGetRulegGroupConfig memstore.srv memstore.oneNamespace
          (memstore.request "prod" "g1")).1 =
        Response.JSON http.StatusAccepted (.ruleGroupConfig ⟨doc⟩) ∧
      doc.Interval = 40000000000 :=
  ⟨ruleGroup_interval_last_seen_wins memstore.srv memstore.oneNamespace _
      (memstore.request "prod" "g1") "ns1" _ rfl rfl,
    ⟨_, rfl, by decide⟩⟩

/-- C9: the org-wide read is all-or-nothing. When the org query returns `rules`: if every
namespace lookup succeeds, `RouteGetRulesConfig` answers with a namespace document; if
the lookup fails with `e` for a rule `r` and succeeds for all rules before it, the answer
is the error response with status 500, the message `failed to get namespace:` followed by
the `NamespaceUID` of `r`, and the error `e`; hence the answer is an error response if and
only if the lookup fails for some rule of `rules`. -/
theorem orgRules_all_or_nothing {σ : Type} (srv : RulerSrv σ)
    (outer : RangeOrder (GoMap RuleGroupConfig)) (inner : String → RangeOrder RuleGroupConfig)
    (s s1 : σ) (c : models.ReqContext) (rules : List AlertRule)
    (hq : srv.store.GetOrgAlertRules s { OrgID := c.SignedInUser.OrgId } = (.ok rules, s1)) :
    ((∀ r ∈ rules, ∃ n,
        srv.store.GetNamespaceByUID s1 r.NamespaceUID c.SignedInUser.OrgId c.SignedInUser =
          .ok n) →
      ∃ result : apimodels.NamespaceConfigResponse,
        RouteGetRulesConfig srv outer inner s c =
          (Response.JSON http.StatusAccepted (.namespaceConfig result), s1)) ∧
    (∀ (pre : List AlertRule) (r : AlertRule) (post : List AlertRule) (e : GoError),
      rules = pre ++ r :: post →
      (∀ x ∈ pre, ∃ n,
        srv.store.GetNamespaceByUID s1 x.NamespaceUID c.SignedInUser.OrgId c.SignedInUser =
          .ok n) →
      srv.store.GetNamespaceByUID s1 r.NamespaceUID c.SignedInUser.OrgId c.SignedInUser =
        .error e →
      RouteGetRulesConfig srv outer inner s c =
        (Response.Error http.StatusInternalServerError
          ("failed to get namespace: " ++ r.NamespaceUID) e, s1)) ∧
    ((∃ status message err,
        (RouteGetRulesConfig srv outer inner s c).1 = Response.Error status message err) ↔
      ∃ r ∈ rules, ∃ e,
        srv.store.GetNamespaceByUID s1 r.NamespaceUID c.SignedInUser.OrgId c.SignedInUser =
          .error e) := by
  have hsucc : (∀ r ∈ rules, ∃ n,
        srv.store.GetNamespaceByUID s1 r.NamespaceUID c.SignedInUser.OrgId c.SignedInUser =
          .ok n) →
      ∃ result : apimodels.NamespaceConfigResponse,
        RouteGetRulesConfig srv outer inner s c =
          (Response.JSON http.StatusAccepted (.namespaceConfig result), s1) := by
    intro hok
    obtain ⟨configs, h1, _⟩ :=
      orgRules_document
        (fun uid => srv.store.GetNamespaceByUID s1 uid c.SignedInUser.OrgId c.SignedInUser)
        rules outer inner (lookupFails_of_ok hok)
    exact ⟨flattenConfigs outer inner configs, by simp only [RouteGetRulesConfig, hq, h1]⟩
  have hfail : ∀ (pre : List AlertRule) (r : AlertRule) (post : List AlertRule) (e : GoError),
      rules = pre ++ r :: post →
      (∀ x ∈ pre, lookupFails (fun uid => srv.store.GetNamespaceByUID s1 uid
        c.SignedInUser.OrgId c.SignedInUser) x = false) →
      srv.store.GetNamespaceByUID s1 r.NamespaceUID c.SignedInUser.OrgId c.SignedInUser =
        .error e →
      RouteGetRulesConfig srv outer inner s c =
        (Response.Error http.StatusInternalServerError
          ("failed to get namespace: " ++ r.NamespaceUID) e, s1) := by
    intro pre r post e hrules hpre he
    have h1 := rulesConfigLoop_error
      (fun uid => srv.store.GetNamespaceByUID s1 uid c.SignedInUser.OrgId c.SignedInUser)
      pre [] r post e hpre he
    rw [← hrules] at h1
    simp only [RouteGetRulesConfig, hq, h1]
    rfl
  refine ⟨hsucc, ?_, ?_⟩
  · intro pre r post e hrules hpre he
    exact hfail pre r post e hrules (lookupFails_of_ok hpre) he
  · constructor
    · rintro ⟨status, message, err, hresp⟩
      by_contra hnone
      have hok : ∀ r ∈ rules, ∃ n,
          srv.store.GetNamespaceByUID s1 r.NamespaceUID c.SignedInUser.OrgId c.SignedInUser =
            .ok n := by
        intro r hr
        cases hl : srv.store.GetNamespaceByUID s1 r.NamespaceUID c.SignedInUser.OrgId
            c.SignedInUser with
        | ok n => exact ⟨n, rfl⟩
        | error e => exact absurd ⟨r, hr, e, hl⟩ hnone
      obtain ⟨result, hres⟩ := hsucc hok
      rw [hres] at hresp
      exact Response.noConfusion hresp
    · rintro ⟨r, hr, e, he⟩
      have hf : lookupFails (fun uid => srv.store.GetNamespaceByUID s1 uid
          c.SignedInUser.OrgId c.SignedInUser) r = true := by
        simp [lookupFails, he]
      obtain ⟨pre, r2, post, e2, h1, h2, h3⟩ := first_failing_lookup _ rules ⟨r, hr, hf⟩
      exact ⟨_, _, _, by rw [hfail pre r2 post e2 h1 h2 h3]⟩

/-- Witness of C9, on the in-memory store in which the namespace `ns2` cannot be looked
up: the answer is the error that names `ns2`, the namespace of the second rule. -/
theorem orgRules_all_or_nothing_witness :
    (((∀ r ∈ memstore.rulesTwoNamespaces, ∃ n,
        memstore.srv.store.GetNamespaceByUID
          { memstore.missingNamespace with calls := [.listOrg { OrgID := 1 }] }
          r.NamespaceUID 1 memstore.user = .ok n) →
      ∃ result : apimodels.NamespaceConfigResponse,
        RouteGetRulesConfig memstore.srv (RangeOrder.insertion (GoMap RuleGroupConfig))
            (fun _ => RangeOrder.insertion RuleGroupConfig) memstore.missingNamespace
            (memstore.request "" "") =
          (Response.JSON http.StatusAccepted (.namespaceConfig result),
            { memstore.missingNamespace with calls := [.listOrg { OrgID := 1 }] })) ∧
    (∀ (pre : List AlertRule) (r : AlertRule) (post : List AlertRule) (e : GoError),
      memstore.rulesTwoNamespaces = pre ++ r :: post →
      (∀ x ∈ pre, ∃ n,
        memstore.srv.store.GetNamespaceByUID
          { memstore.missingNamespace with calls := [.listOrg { OrgID := 1 }] }
          x.NamespaceUID 1 memstore.user = .ok n) →
      memstore.srv.store.GetNamespaceByUID
        { memstore.missingNamespace with calls := [.listOrg { OrgID := 1 }] }
        r.NamespaceUID 1 memstore.user = .error e →
      RouteGetRulesConfig memstore.srv (RangeOrder.insertion (GoMap RuleGroupConfig))
          (fun _ => RangeOrder.insertion RuleGroupConfig) memstore.missingNamespace
          (memstore.request "" "") =
        (Response.Error http.StatusInternalServerError
          ("failed to get namespace: " ++ r.NamespaceUID) e,
          { memstore.missingNamespace with calls := [.listOrg { OrgID := 1 }] })) ∧
    ((∃ status message err,
        (RouteGetRulesConfig memstore.srv (RangeOrder.insertion (GoMap RuleGroupConfig))
          (fun _ => RangeOrder.insertion RuleGroupConfig) memstore.missingNamespace
          (memstore.request "" "")).1 = Response.Error status message err) ↔
      ∃ r ∈ memstore.rulesTwoNamespaces, ∃ e,
        memstore.srv.store.GetNamespaceByUID
          { memstore.missingNamespace with calls := [.listOrg { OrgID := 1 }] }
          r.NamespaceUID 1 memstore.user = .error e)) ∧
    (RouteGetRulesConfig memstore.srv (RangeOrder.insertion (GoMap RuleGroupConfig))
        (fun _ => RangeOrder.insertion RuleGroupConfig) memstore.missingNamespace
        (memstore.request "" "")).1 =
      Response.Error 500 "failed to get namespace: ns2" memstore.notFound :=
  ⟨orgRules_all_or_nothing memstore.srv (RangeOrder.insertion (GoMap RuleGroupConfig))
      (fun _ => RangeOrder.insertion RuleGroupConfig) memstore.missingNamespace _
      (memstore.request "" "") memstore.rulesTwoNamespaces rfl,
    by decide⟩

/-- C10: a failure to resolve the namespace slug is answered as such, and the store is not
touched. For each of the five routes that take a slug (delete namespace, delete group, get
namespace, get group, upsert group): if `GetNamespaceUIDBySlug` fails with `err`, the
answer is the error response with status 500, the message `failed to get namespace:`
followed by the slug, and the error `err`, and the store state after the route is the
state before it, whatever the store's delete, query and update methods would do. -/
theorem slug_resolution_failure {σ : Type} (srv : RulerSrv σ)
    (order : RangeOrder RuleGroupConfig) (s : σ) (c : models.ReqContext)
    (ruleGroupConfig : RuleGroupConfig) (err : GoError)
    (hns : srv.store.GetNamespaceUIDBySlug s (c.Params ":Namespace") c.SignedInUser.OrgId
      c.SignedInUser = .error err) :
    RouteDeleteNamespaceRulesConfig srv s c =
      (Response.Error http.StatusInternalServerError
        ("failed to get namespace: " ++ c.Params ":Namespace") err, s) ∧
    RouteDeleteRuleGroupConfig srv s c =
      (Response.Error http.StatusInternalServerError
        ("failed to get namespace: " ++ c.Params ":Namespace") err, s) ∧
    RouteGetNamespaceRulesConfig srv order s c =
      (Response.Error http.StatusInternalServerError
        ("failed to get namespace: " ++ c.Params ":Namespace") err, s) ∧
    RouteGetRulegGroupConfig srv s c =
      (Response.Error http.StatusInternalServerError
        ("failed to get namespace: " ++ c.Params ":Namespace") err, s) ∧
    RoutePostNameRulesConfig srv s c ruleGroupConfig =
      (Response.Error http.StatusInternalServerError
        ("failed to get namespace: " ++ c.Params ":Namespace") err, s) := by
  refine ⟨?_, ?_, ?_, ?_, ?_⟩
  · simp only [RouteDeleteNamespaceRulesConfig, hns]; rfl
  · simp only [RouteDeleteRuleGroupConfig, hns]; rfl
  · simp only [RouteGetNamespaceRulesConfig, hns]; rfl
  · simp only [RouteGetRulegGroupConfig, hns]; rfl
  · simp only [RoutePostNameRulesConfig, hns]; rfl

/-- Witness of C10, on the in-memory store, which records every delete, query and update
call it receives: for the slug `nope`, which no namespace has, the five routes answer with
the resolution failure and the store, its record of calls included, is as before. -/
theorem slug_resolution_failure_witness :
    (RouteDeleteNamespaceRulesConfig memstore.srv memstore.oneNamespace
        (memstore.request "nope" "g1") =
      (Response.Error http.StatusInternalServerError
        ("failed to get namespace: " ++ (memstore.request "nope" "g1").Params ":Namespace")
        memstore.notFound, memstore.oneNamespace) ∧
    RouteDeleteRuleGroupConfig memstore.srv memstore.oneNamespace
        (memstore.request "nope" "g1") =
      (Response.Error http.StatusInternalServerError
        ("failed to get namespace: " ++ (memstore.request "nope" "g1").Params ":Namespace")
        memstore.notFound, memstore.oneNamespace) ∧
    RouteGetNamespaceRulesConfig memstore.srv (RangeOrder.insertion RuleGroupConfig)
        memstore.oneNamespace (memstore.request "nope" "g1") =
      (Response.Error http.StatusInternalServerError
        ("failed to get namespace: " ++ (memstore.request "nope" "g1").Params ":Namespace")
        memstore.notFound, memstore.oneNamespace) ∧
    RouteGetRulegGroupConfig memstore.srv memstore.oneNamespace
        (memstore.request "nope" "g1") =
      (Response.Error http.StatusInternalServerError
        ("failed to get namespace: " ++ (memstore.request "nope" "g1").Params ":Namespace")
        memstore.notFound, memstore.oneNamespace) ∧
    RoutePostNameRulesConfig memstore.srv memstore.oneNamespace
        (memstore.request "nope" "g1") ⟨"g1", 60000000000, []⟩ =
      (Response.Error http.StatusInternalServerError
        ("failed to get namespace: " ++ (memstore.request "nope" "g1").Params ":Namespace")
        memstore.notFound, memstore.oneNamespace)) ∧
    (RouteDeleteRuleGroupConfig memstore.srv memstore.oneNamespace
        (memstore.request "nope" "g1")).2.calls = [] ∧
    (RouteDeleteRuleGroupConfig memstore.srv memstore.oneNamespace
        (memstore.request "prod" "g1")).2.calls =
      [.deleteRuleGroup { OrgID := 1, NamespaceUID := "ns1", RuleGroup := "g1" }] :=
  ⟨slug_resolution_failure memstore.srv (RangeOrder.insertion RuleGroupConfig)
      memstore.oneNamespace (memstore.request "nope" "g1") ⟨"g1", 60000000000, []⟩
      memstore.notFound rfl,
    by decide, by decide⟩

/-! ## Outcomes of the org-wide loop -/

namespace RulerSrv

open GoMap

theorem rulesConfigLoop_cases (lookup : String → Except GoError String)
    (rules : List AlertRule) :
    (∃ configs, rulesConfigLoop lookup rules [] = .ok configs ∧
        ∀ r ∈ rules, lookupFails lookup r = false) ∨
      ∃ r e, r ∈ rules ∧ lookup r.NamespaceUID = .error e ∧
        rulesConfigLoop lookup rules [] =
          .error (Response.Error http.StatusInternalServerError
            (failedToGetNamespace r.NamespaceUID) e) := by
  by_cases h : ∃ r ∈ rules, lookupFails lookup r = true
  · right
    obtain ⟨pre, r, post, e, h1, h2, h3⟩ := first_failing_lookup lookup rules h
    refine ⟨r, e, by rw [h1]; simp, h3, ?_⟩
    rw [h1]
    exact rulesConfigLoop_error lookup pre [] r post e h2 h3
  · left
    have hok : ∀ r ∈ rules, lookupFails lookup r = false := by
      intro r hr
      cases hf : lookupFails lookup r with
      | false => rfl
      | true => exact absurd ⟨r, hr, hf⟩ h
    obtain ⟨configs, h1, _⟩ :=
      rulesConfigLoop_ok lookup rules [] [] (by simp [keys])
        (fun n => by simp [index, namespaceGroups]) hok
    exact ⟨configs, h1, hok⟩

end RulerSrv

/-! ## The rule nodes of the documents -/

namespace GoMap

theorem flatMap_assign_perm {V β : Type} (f : String × V → List β) {m : GoMap V}
    {k : String} {v v2 : V} {extra : List β} (h : index m k = some v)
    (hf : ∀ k2, (f (k2, v2)).Perm (f (k2, v) ++ extra)) :
    ((assign m k v2).flatMap f).Perm (m.flatMap f ++ extra) := by
  induction m with
  | nil => simp [index] at h
  | cons kv rest ih =>
    obtain ⟨k', v'⟩ := kv
    by_cases h1 : k' = k
    · simp only [index, h1, if_true, Option.some.injEq] at h
      subst h
      simp only [assign, h1, if_true, List.flatMap_cons]
      refine ((hf k).append_right _).trans ?_
      rw [List.append_assoc, List.append_assoc]
      exact List.Perm.append_left _ List.perm_append_comm
    · simp only [index, h1, if_false] at h
      simp only [assign, h1, if_false, List.flatMap_cons, List.append_assoc]
      exact List.Perm.append_left _ (ih h)

end GoMap

namespace RulerSrv

open GoMap

theorem namespaceResult_docs (order : RangeOrder RuleGroupConfig) (nspace : String)
    (rules : List AlertRule) :
    (appendGroups order [] nspace (namespaceRulesLoop rules)).flatMap Prod.snd =
      (order.visit (namespaceRulesLoop rules)).map Prod.snd := by
  rw [namespaceResult_eq]
  by_cases h : rules = []
  · subst h
    have : order.visit (namespaceRulesLoop []) = [] :=
      (order.visit_perm (namespaceRulesLoop [])).eq_nil
    simp [this]
  · simp [h]

theorem namespaceResult_nodes (order : RangeOrder RuleGroupConfig) (nspace : String)
    (rules : List AlertRule) :
    (((appendGroups order [] nspace (namespaceRulesLoop rules)).flatMap Prod.snd).flatMap
      (fun d => d.Rules)).Perm (rules.map toExtendedRuleNode) := by
  rw [namespaceResult_docs]
  exact (visited_groups (order.visit_perm (namespaceRulesLoop rules))).2.2.2

theorem rulesConfigLoop_flatMap (lookup : String → Except GoError String)
    (rest : List AlertRule) :
    ∀ configs final : GoMap (GoMap RuleGroupConfig),
      rulesConfigLoop lookup rest configs = .ok final →
      (final.flatMap (fun nm => nm.2.flatMap (fun kv => kv.2.Rules))).Perm
        (configs.flatMap (fun nm => nm.2.flatMap (fun kv => kv.2.Rules)) ++
          rest.map toExtendedRuleNode) := by
  induction rest with
  | nil =>
    intro configs final h
    have : configs = final := Except.ok.inj h
    subst this
    simp
  | cons r rest ih =>
    intro configs final h
    cases hl : lookup r.NamespaceUID with
    | error e =>
      rw [rulesConfigLoop_cons_error hl] at h
      exact Except.noConfusion h
    | ok n =>
      rw [rulesConfigLoop_cons_ok hl] at h
      refine (ih _ final h).trans ?_
      have hstep : ((assign configs n
          (namespaceRulesStep ((index configs n).getD []) r)).flatMap
            (fun nm => nm.2.flatMap (fun kv => kv.2.Rules))).Perm
          (configs.flatMap (fun nm => nm.2.flatMap (fun kv => kv.2.Rules)) ++
            [toExtendedRuleNode r]) := by
        cases hc : index configs n with
        | none =>
          rw [assign_of_index_none _ hc]
          have := namespaceRulesStep_flatMap [] r
          simp only [List.flatMap_nil, List.nil_append] at this
          simp only [List.flatMap_append, List.flatMap_cons, List.flatMap_nil,
            List.append_nil, Option.getD_none]
          exact List.Perm.append_left _ this
        | some groups =>
          exact flatMap_assign_perm _ hc (fun _ => namespaceRulesStep_flatMap groups r)
      have := hstep.append_right (rest.map toExtendedRuleNode)
      simpa using this

theorem rulesConfigLoop_nodup {lookup : String → Except GoError String}
    {rules : List AlertRule} {configs : GoMap (GoMap RuleGroupConfig)}
    (h : rulesConfigLoop lookup rules [] = .ok configs) : (keys configs).Nodup := by
  obtain ⟨final, h1, h2, _⟩ :=
    rulesConfigLoop_ok lookup rules [] [] (by simp [keys])
      (fun n => by simp [index, namespaceGroups]) (rulesConfigLoop_ok_lookups h)
  rw [h] at h1
  rw [Except.ok.inj h1]
  exact h2

theorem orgResult_nodes {lookup : String → Except GoError String} {rules : List AlertRule}
    (outer : RangeOrder (GoMap RuleGroupConfig)) (inner : String → RangeOrder RuleGroupConfig)
    {configs : GoMap (GoMap RuleGroupConfig)}
    (h : rulesConfigLoop lookup rules [] = .ok configs) :
    ((flattenConfigs outer inner configs).flatMap
      (fun nd => nd.2.flatMap (fun d => d.Rules))).Perm (rules.map toExtendedRuleNode) := by
  rw [flattenConfigs_eq lookup rules outer inner (rulesConfigLoop_nodup h)
    (rulesConfigLoop_index h), List.flatMap_map]
  have h1 : ((outer.visit configs).flatMap
      (fun nm => (((inner nm.1).visit nm.2).map Prod.snd).flatMap (fun d => d.Rules))).Perm
      ((outer.visit configs).flatMap (fun nm => nm.2.flatMap (fun kv => kv.2.Rules))) := by
    apply List.Perm.flatMap_left
    intro nm _
    rw [List.flatMap_map]
    exact ((inner nm.1).visit_perm nm.2).flatMap_right _
  refine h1.trans (((outer.visit_perm configs).flatMap_right _).trans ?_)
  simpa using rulesConfigLoop_flatMap lookup rules [] configs h

theorem mem_nodes_of_mem {result : apimodels.NamespaceConfigResponse} {n : String}
    {docs : List RuleGroupConfig} {d : RuleGroupConfig} {node : ExtendedRuleNode}
    (h1 : (n, docs) ∈ result) (h2 : d ∈ docs) (h3 : node ∈ d.Rules) :
    node ∈ result.flatMap (fun nd => nd.2.flatMap (fun d => d.Rules)) :=
  List.mem_flatMap.2 ⟨(n, docs), h1, List.mem_flatMap.2 ⟨d, h2, h3⟩⟩

end RulerSrv

/-! ### Failures and successes of the six routes -/

/-- C11: each of the six routes answers with a structured error of status 500 if and only
if one of the collaborator calls it makes fails, and with a success payload of status 202
otherwise. The calls are: the resolution of the namespace slug, then the delete, query or
update of the store; for `RouteGetRulesConfig` the org query, then the namespace lookup of
each returned rule. Aggregation and translation add no failure: the two answers exhaust
the cases for every input. -/
theorem error_iff_collaborator_fails {σ : Type} (srv : RulerSrv σ)
    (order : RangeOrder RuleGroupConfig) (outer : RangeOrder (GoMap RuleGroupConfig))
    (inner : String → RangeOrder RuleGroupConfig) (s : σ) (c : models.ReqContext)
    (ruleGroupConfig : RuleGroupConfig) :
    (((RouteDeleteNamespaceRulesConfig srv s c).1.isInternalError = true ↔
        (∃ e, srv.store.GetNamespaceUIDBySlug s (c.Params ":Namespace") c.SignedInUser.OrgId
          c.SignedInUser = .error e) ∨
        ∃ uid e, srv.store.GetNamespaceUIDBySlug s (c.Params ":Namespace")
            c.SignedInUser.OrgId c.SignedInUser = .ok uid ∧
          (srv.store.DeleteNamespaceAlertRules s ⟨c.SignedInUser.OrgId, uid⟩).1 = some e) ∧
      (RouteDeleteNamespaceRulesConfig srv s c).1.isAccepted =
        !(RouteDeleteNamespaceRulesConfig srv s c).1.isInternalError) ∧
    (((RouteDeleteRuleGroupConfig srv s c).1.isInternalError = true ↔
        (∃ e, srv.store.GetNamespaceUIDBySlug s (c.Params ":Namespace") c.SignedInUser.OrgId
          c.SignedInUser = .error e) ∨
        ∃ uid e, srv.store.GetNamespaceUIDBySlug s (c.Params ":Namespace")
            c.SignedInUser.OrgId c.SignedInUser = .ok uid ∧
          (srv.store.DeleteRuleGroupAlertRules s
            ⟨c.SignedInUser.OrgId, uid, c.Params ":Groupname"⟩).1 = some e) ∧
      (RouteDeleteRuleGroupConfig srv s c).1.isAccepted =
        !(RouteDeleteRuleGroupConfig srv s c).1.isInternalError) ∧
    (((RouteGetNamespaceRulesConfig srv order s c).1.isInternalError = true ↔
        (∃ e, srv.store.GetNamespaceUIDBySlug s (c.Params ":Namespace") c.SignedInUser.OrgId
          c.SignedInUser = .error e) ∨
        ∃ uid e, srv.store.GetNamespaceUIDBySlug s (c.Params ":Namespace")
            c.SignedInUser.OrgId c.SignedInUser = .ok uid ∧
          (srv.store.GetNamespaceAlertRules s ⟨c.SignedInUser.OrgId, uid⟩).1 = .error e) ∧
      (RouteGetNamespaceRulesConfig srv order s c).1.isAccepted =
        !(RouteGetNamespaceRulesConfig srv order s c).1.isInternalError) ∧
    (((RouteGetRulegGroupConfig srv s c).1.isInternalError = true ↔
        (∃ e, srv.store.GetNamespaceUIDBySlug s (c.Params ":Namespace") c.SignedInUser.OrgId
          c.SignedInUser = .error e) ∨
        ∃ uid e, srv.store.GetNamespaceUIDBySlug s (c.Params ":Namespace")
            c.SignedInUser.OrgId c.SignedInUser = .ok uid ∧
          (srv.store.GetRuleGroupAlertRules s
            ⟨c.SignedInUser.OrgId, uid, c.Params ":Groupname"⟩).1 = .error e) ∧
      (RouteGetRulegGroupConfig srv s c).1.isAccepted =
        !(RouteGetRulegGroupConfig srv s c).1.isInternalError) ∧
    (((RouteGetRulesConfig srv outer inner s c).1.isInternalError = true ↔
        (∃ e, (srv.store.GetOrgAlertRules s ⟨c.SignedInUser.OrgId⟩).1 = .error e) ∨
        ∃ rules, (srv.store.GetOrgAlertRules s ⟨c.SignedInUser.OrgId⟩).1 = .ok rules ∧
          ∃ r ∈ rules, ∃ e,
            srv.store.GetNamespaceByUID (srv.store.GetOrgAlertRules s ⟨c.SignedInUser.OrgId⟩).2
              r.NamespaceUID c.SignedInUser.OrgId c.SignedInUser = .error e) ∧
      (RouteGetRulesConfig srv outer inner s c).1.isAccepted =
        !(RouteGetRulesConfig srv outer inner s c).1.isInternalError) ∧
    (((RoutePostNameRulesConfig srv s c ruleGroupConfig).1.isInternalError = true ↔
        (∃ e, srv.store.GetNamespaceUIDBySlug s (c.Params ":Namespace") c.SignedInUser.OrgId
          c.SignedInUser = .error e) ∨
        ∃ uid e, srv.store.GetNamespaceUIDBySlug s (c.Params ":Namespace")
            c.SignedInUser.OrgId c.SignedInUser = .ok uid ∧
          (srv.store.UpdateRuleGroup s
            ⟨c.SignedInUser.OrgId, uid, ruleGroupConfig.Name, ruleGroupConfig⟩).1 = some e) ∧
      (RoutePostNameRulesConfig srv s c ruleGroupConfig).1.isAccepted =
        !(RoutePostNameRulesConfig srv s c ruleGroupConfig).1.isInternalError) := by
  refine ⟨?_, ?_, ?_, ?_, ?_, ?_⟩
  · cases hres : srv.store.GetNamespaceUIDBySlug s (c.Params ":Namespace")
        c.SignedInUser.OrgId c.SignedInUser with
    | error e =>
      simp [RouteDeleteNamespaceRulesConfig, hres, Response.isInternalError,
        Response.isAccepted]
    | ok uid =>
      cases hd : srv.store.DeleteNamespaceAlertRules s ⟨c.SignedInUser.OrgId, uid⟩ with
      | mk o s1 =>
        cases o <;>
          simp [RouteDeleteNamespaceRulesConfig, hres, hd, Response.isInternalError,
            Response.isAccepted]
  · cases hres : srv.store.GetNamespaceUIDBySlug s (c.Params ":Namespace")
        c.SignedInUser.OrgId c.SignedInUser with
    | error e =>
      simp [RouteDeleteRuleGroupConfig, hres, Response.isInternalError, Response.isAccepted]
    | ok uid =>
      cases hd : srv.store.DeleteRuleGroupAlertRules s
          ⟨c.SignedInUser.OrgId, uid, c.Params ":Groupname"⟩ with
      | mk o s1 =>
        cases o <;>
          simp [RouteDeleteRuleGroupConfig, hres, hd, Response.isInternalError,
            Response.isAccepted]
  · cases hres : srv.store.GetNamespaceUIDBySlug s (c.Params ":Namespace")
        c.SignedInUser.OrgId c.SignedInUser with
    | error e =>
      simp [RouteGetNamespaceRulesConfig, hres, Response.isInternalError, Response.isAccepted]
    | ok uid =>
      cases hd : srv.store.GetNamespaceAlertRules s ⟨c.SignedInUser.OrgId, uid⟩ with
      | mk o s1 =>
        cases o <;>
          simp [RouteGetNamespaceRulesConfig, hres, hd, Response.isInternalError,
            Response.isAccepted]
  · cases hres : srv.store.GetNamespaceUIDBySlug s (c.Params ":Namespace")
        c.SignedInUser.OrgId c.SignedInUser with
    | error e =>
      simp [RouteGetRulegGroupConfig, hres, Response.isInternalError, Response.isAccepted]
    | ok uid =>
      cases hd : srv.store.GetRuleGroupAlertRules s
          ⟨c.SignedInUser.OrgId, uid, c.Params ":Groupname"⟩ with
      | mk o s1 =>
        cases o <;>
          simp [RouteGetRulegGroupConfig, hres, hd, Response.isInternalError,
            Response.isAccepted]
  · cases hd : srv.store.GetOrgAlertRules s ⟨c.SignedInUser.OrgId⟩ with
    | mk o s1 =>
      cases o with
      | error e =>
        simp [RouteGetRulesConfig, hd, Response.isInternalError, Response.isAccepted]
      | ok rules =>
        rcases rulesConfigLoop_cases
          (fun uid => srv.store.GetNamespaceByUID s1 uid c.SignedInUser.OrgId c.SignedInUser)
          rules with ⟨configs, h1, hok⟩ | ⟨r, e, hr, he, h1⟩
        · have hnone : ¬ ∃ r ∈ rules, ∃ e,
              srv.store.GetNamespaceByUID s1 r.NamespaceUID c.SignedInUser.OrgId
                c.SignedInUser = .error e := by
            rintro ⟨r, hr, e, he⟩
            have := hok r hr
            simp [lookupFails, he] at this
          simp only [RouteGetRulesConfig, hd, h1]
          simpa [Response.isInternalError, Response.isAccepted] using hnone
        · have hsome : ∃ r ∈ rules, ∃ e,
              srv.store.GetNamespaceByUID s1 r.NamespaceUID c.SignedInUser.OrgId
                c.SignedInUser = .error e := ⟨r, hr, e, he⟩
          simp only [RouteGetRulesConfig, hd, h1]
          simpa [Response.isInternalError, Response.isAccepted] using hsome
  · cases hres : srv.store.GetNamespaceUIDBySlug s (c.Params ":Namespace")
        c.SignedInUser.OrgId c.SignedInUser with
    | error e =>
      simp [RoutePostNameRulesConfig, hres, Response.isInternalError, Response.isAccepted]
    | ok uid =>
      cases hd : srv.store.UpdateRuleGroup s
          ⟨c.SignedInUser.OrgId, uid, ruleGroupConfig.Name, ruleGroupConfig⟩ with
      | mk o s1 =>
        cases o <;>
          simp [RoutePostNameRulesConfig, hres, hd, Response.isInternalError,
            Response.isAccepted]

/-! ### Organization scope of the reads -/

theorem RulerSrv.orgID_toExtendedRuleNode (r : AlertRule) :
    (toExtendedRuleNode r).orgID = some r.OrgID := rfl

theorem memstore.namespace_query_in_org (s s1 : memstore.State)
    (q : ngmodels.ListNamespaceAlertRulesQuery) (rules : List AlertRule)
    (h : memstore.srv.store.GetNamespaceAlertRules s q = (.ok rules, s1)) :
    ∀ r ∈ rules, r.OrgID = q.OrgID := by
  simp only [memstore.srv, memstore.ruleStore, Prod.mk.injEq, Except.ok.injEq] at h
  intro r hr
  rw [← h.1] at hr
  have := (List.mem_filter.1 hr).2
  simp only [decide_eq_true_eq] at this
  exact this.1

theorem memstore.group_query_in_org (s s1 : memstore.State)
    (q : ngmodels.ListRuleGroupAlertRulesQuery) (rules : List AlertRule)
    (h : memstore.srv.store.GetRuleGroupAlertRules s q = (.ok rules, s1)) :
    ∀ r ∈ rules, r.OrgID = q.OrgID := by
  simp only [memstore.srv, memstore.ruleStore, Prod.mk.injEq, Except.ok.injEq] at h
  intro r hr
  rw [← h.1] at hr
  have := (List.mem_filter.1 hr).2
  simp only [decide_eq_true_eq] at this
  exact this.1

theorem memstore.org_query_in_org (s s1 : memstore.State)
    (q : ngmodels.ListAlertRulesQuery) (rules : List AlertRule)
    (h : memstore.srv.store.GetOrgAlertRules s q = (.ok rules, s1)) :
    ∀ r ∈ rules, r.OrgID = q.OrgID := by
  simp only [memstore.srv, memstore.ruleStore, Prod.mk.injEq, Except.ok.injEq] at h
  intro r hr
  rw [← h.1] at hr
  simpa using (List.mem_filter.1 hr).2

/-- C12: the reads do not leak rules of another organization. Over a store whose three
queries return only rules of the organization named in the query, every rule node of a
document answered by `RouteGetNamespaceRulesConfig`, `RouteGetRulegGroupConfig` or
`RouteGetRulesConfig` was translated from a rule of the caller's organization. Every query
the three routes issue names the caller's organization: on the in-memory store, which
records the calls it receives, each call added by one of these routes is a query for the
organization of the signed-in user. -/
theorem reads_stay_in_organization {σ : Type} (srv : RulerSrv σ)
    (order : RangeOrder RuleGroupConfig) (outer : RangeOrder (GoMap RuleGroupConfig))
    (inner : String → RangeOrder RuleGroupConfig) (s : σ) (c : models.ReqContext)
    (hN : ∀ (s0 s1 : σ) (q : ngmodels.ListNamespaceAlertRulesQuery) (rules : List AlertRule),
      srv.store.GetNamespaceAlertRules s0 q = (.ok rules, s1) → ∀ r ∈ rules, r.OrgID = q.OrgID)
    (hG : ∀ (s0 s1 : σ) (q : ngmodels.ListRuleGroupAlertRulesQuery) (rules : List AlertRule),
      srv.store.GetRuleGroupAlertRules s0 q = (.ok rules, s1) → ∀ r ∈ rules, r.OrgID = q.OrgID)
    (hO : ∀ (s0 s1 : σ) (q : ngmodels.ListAlertRulesQuery) (rules : List AlertRule),
      srv.store.GetOrgAlertRules s0 q = (.ok rules, s1) → ∀ r ∈ rules, r.OrgID = q.OrgID) :
    (∀ status result, (RouteGetNamespaceRulesConfig srv order s c).1 =
        Response.JSON status (.namespaceConfig result) →
      ∀ n docs d node, (n, docs) ∈ result → d ∈ docs → node ∈ d.Rules →
        node.orgID = some c.SignedInUser.OrgId) ∧
    (∀ status doc, (RouteGetRulegGroupConfig srv s c).1 =
        Response.JSON status (.ruleGroupConfig ⟨doc⟩) →
      ∀ node ∈ doc.Rules, node.orgID = some c.SignedInUser.OrgId) ∧
    (∀ status result, (RouteGetRulesConfig srv outer inner s c).1 =
        Response.JSON status (.namespaceConfig result) →
      ∀ n docs d node, (n, docs) ∈ result → d ∈ docs → node ∈ d.Rules →
        node.orgID = some c.SignedInUser.OrgId) ∧
    (∀ (st : memstore.State) (call : memstore.StoreCall),
      (call ∈ (RouteGetNamespaceRulesConfig memstore.srv order st c).2.calls ∨
        call ∈ (RouteGetRulegGroupConfig memstore.srv st c).2.calls ∨
        call ∈ (RouteGetRulesConfig memstore.srv outer inner st c).2.calls) →
      call ∈ st.calls ∨ (call.isQuery = true ∧ call.orgID = c.SignedInUser.OrgId)) := by
  have hnodes : ∀ (rules : List AlertRule) (org : Int), (∀ r ∈ rules, r.OrgID = org) →
      ∀ node ∈ rules.map toExtendedRuleNode, node.orgID = some org := by
    intro rules org h node hnode
    obtain ⟨r, hr, rfl⟩ := List.mem_map.1 hnode
    rw [orgID_toExtendedRuleNode, h r hr]
  refine ⟨?_, ?_, ?_, ?_⟩
  · intro status result hresp n docs d node h1 h2 h3
    cases hres : srv.store.GetNamespaceUIDBySlug s (c.Params ":Namespace")
        c.SignedInUser.OrgId c.SignedInUser with
    | error e => simp [RouteGetNamespaceRulesConfig, hres] at hresp
    | ok uid =>
      cases hq : srv.store.GetNamespaceAlertRules s ⟨c.SignedInUser.OrgId, uid⟩ with
      | mk o s1 =>
        cases o with
        | error e => simp [RouteGetNamespaceRulesConfig, hres, hq] at hresp
        | ok rules =>
          simp only [RouteGetNamespaceRulesConfig, hres, hq, Response.JSON.injEq,
            response.Body.namespaceConfig.injEq] at hresp
          have hmem : node ∈ (result.flatMap Prod.snd).flatMap (fun d => d.Rules) :=
            List.mem_flatMap.2 ⟨d, List.mem_flatMap.2 ⟨(n, docs), h1, h2⟩, h3⟩
          rw [← hresp.2] at hmem
          exact hnodes rules _ (hN s s1 _ rules hq) node
            ((namespaceResult_nodes order _ rules).mem_iff.1 hmem)
  · intro status doc hresp node hnode
    cases hres : srv.store.GetNamespaceUIDBySlug s (c.Params ":Namespace")
        c.SignedInUser.OrgId c.SignedInUser with
    | error e => simp [RouteGetRulegGroupConfig, hres] at hresp
    | ok uid =>
      cases hq : srv.store.GetRuleGroupAlertRules s
          ⟨c.SignedInUser.OrgId, uid, c.Params ":Groupname"⟩ with
      | mk o s1 =>
        cases o with
        | error e => simp [RouteGetRulegGroupConfig, hres, hq] at hresp
        | ok rules =>
          simp only [RouteGetRulegGroupConfig, hres, hq, Response.JSON.injEq,
            response.Body.ruleGroupConfig.injEq,
            apimodels.RuleGroupConfigResponse.mk.injEq] at hresp
          rw [← hresp.2] at hnode
          have hrules : (ruleGroupLoop rules (0, [])).2 = rules.map toExtendedRuleNode := by
            rw [ruleGroupLoop_eq]; simp
          rw [show (apimodels.RuleGroupConfig.mk (c.Params ":Groupname")
            (ruleGroupLoop rules (0, [])).1 (ruleGroupLoop rules (0, [])).2).Rules =
              (ruleGroupLoop rules (0, [])).2 from rfl, hrules] at hnode
          exact hnodes rules _ (hG s s1 _ rules hq) node hnode
  · intro status result hresp n docs d node h1 h2 h3
    cases hq : srv.store.GetOrgAlertRules s ⟨c.SignedInUser.OrgId⟩ with
    | mk o s1 =>
      cases o with
      | error e => simp [RouteGetRulesConfig, hq] at hresp
      | ok rules =>
        rcases rulesConfigLoop_cases
          (fun uid => srv.store.GetNamespaceByUID s1 uid c.SignedInUser.OrgId c.SignedInUser)
          rules with ⟨configs, hc, _⟩ | ⟨r, e, _, _, hc⟩
        · simp only [RouteGetRulesConfig, hq, hc, Response.JSON.injEq,
            response.Body.namespaceConfig.injEq] at hresp
          have hmem := mem_nodes_of_mem h1 h2 h3
          rw [← hresp.2] at hmem
          exact hnodes rules _ (hO s s1 _ rules hq) node
            ((orgResult_nodes outer inner hc).mem_iff.1 hmem)
        · simp [RouteGetRulesConfig, hq, hc] at hresp
  · intro st call hcall
    rcases hcall with h | h | h
    · cases hres : memstore.ruleStore.GetNamespaceUIDBySlug st (c.Params ":Namespace")
          c.SignedInUser.OrgId c.SignedInUser with
      | error e =>
        left
        simpa [RouteGetNamespaceRulesConfig, memstore.srv, hres] using h
      | ok uid =>
        simp only [RouteGetNamespaceRulesConfig, memstore.srv, hres] at h
        simp only [memstore.ruleStore, List.mem_append, List.mem_singleton] at h
        rcases h with h | h
        · exact Or.inl h
        · right; subst h; exact ⟨rfl, rfl⟩
    · cases hres : memstore.ruleStore.GetNamespaceUIDBySlug st (c.Params ":Namespace")
          c.SignedInUser.OrgId c.SignedInUser with
      | error e =>
        left
        simpa [RouteGetRulegGroupConfig, memstore.srv, hres] using h
      | ok uid =>
        simp only [RouteGetRulegGroupConfig, memstore.srv, hres] at h
        simp only [memstore.ruleStore, List.mem_append, List.mem_singleton] at h
        rcases h with h | h
        · exact Or.inl h
        · right; subst h; exact ⟨rfl, rfl⟩
    · have hstate : (RouteGetRulesConfig memstore.srv outer inner st c).2.calls =
          st.calls ++ [.listOrg ⟨c.SignedInUser.OrgId⟩] := by
        simp only [RouteGetRulesConfig, memstore.srv, memstore.ruleStore]
        split <;> rfl
      rw [hstate, List.mem_append, List.mem_singleton] at h
      rcases h with h | h
      · exact Or.inl h
      · right; subst h; exact ⟨rfl, rfl⟩

/-- Witness of C12, on the in-memory store, whose queries select the rows of the
organization named in the query: the reads of organization 1 over a table that also holds
a rule of organization 2. -/
theorem reads_stay_in_organization_witness :
    ((∀ status result,
        (RouteGetNamespaceRulesConfig memstore.srv (RangeOrder.insertion RuleGroupConfig)
          { memstore.twoNamespaces with
            rows := { memstore.rule "x" "ns1" "g1" 5 with OrgID := 2 } ::
              memstore.rulesTwoNamespaces }
          (memstore.request "prod" "g1")).1 =
          Response.JSON status (.namespaceConfig result) →
        ∀ n docs d node, (n, docs) ∈ result → d ∈ docs → node ∈ d.Rules →
          node.orgID = some (memstore.request "prod" "g1").SignedInUser.OrgId) ∧
      (∀ status doc,
        (RouteGetRulegGroupConfig memstore.srv
          { memstore.twoNamespaces with
            rows := { memstore.rule "x" "ns1" "g1" 5 with OrgID := 2 } ::
              memstore.rulesTwoNamespaces }
          (memstore.request "prod" "g1")).1 =
          Response.JSON status (.ruleGroupConfig ⟨doc⟩) →
        ∀ node ∈ doc.Rules,
          node.orgID = some (memstore.request "prod" "g1").SignedInUser.OrgId) ∧
      (∀ status result,
        (RouteGetRulesConfig memstore.srv (RangeOrder.insertion (GoMap RuleGroupConfig))
          (fun _ => RangeOrder.insertion RuleGroupConfig)
          { memstore.twoNamespaces with
            rows := { memstore.rule "x" "ns1" "g1" 5 with OrgID := 2 } ::
              memstore.rulesTwoNamespaces }
          (memstore.request "prod" "g1")).1 =
          Response.JSON status (.namespaceConfig result) →
        ∀ n docs d node, (n, docs) ∈ result → d ∈ docs → node ∈ d.Rules →
          node.orgID = some (memstore.request "prod" "g1").SignedInUser.OrgId) ∧
      (∀ (st : memstore.State) (call : memstore.StoreCall),
        (call ∈ (RouteGetNamespaceRulesConfig memstore.srv
            (RangeOrder.insertion RuleGroupConfig) st (memstore.request "prod" "g1")).2.calls ∨
          call ∈ (RouteGetRulegGroupConfig memstore.srv st
            (memstore.request "prod" "g1")).2.calls ∨
          call ∈ (RouteGetRulesConfig memstore.srv
            (RangeOrder.insertion (GoMap RuleGroupConfig))
            (fun _ => RangeOrder.insertion RuleGroupConfig) st
            (memstore.request "prod" "g1")).2.calls) →
        call ∈ st.calls ∨
          (call.isQuery = true ∧
            call.orgID = (memstore.request "prod" "g1").SignedInUser.OrgId))) ∧
    ∃ doc : RuleGroupConfig,
      (RouteGetRulegGroupConfig memstore.srv
        { memstore.twoNamespaces with
          rows := { memstore.rule "x" "ns1" "g1" 5 with OrgID := 2 } ::
            memstore.rulesTwoNamespaces }
        (memstore.request "prod" "g1")).1 =
        Response.JSON http.StatusAccepted (.ruleGroupConfig ⟨doc⟩) ∧
      doc.Rules.map (fun node => node.orgID) = [some 1, some 1] :=
  ⟨reads_stay_in_organization memstore.srv (RangeOrder.insertion RuleGroupConfig)
      (RangeOrder.insertion (GoMap RuleGroupConfig))
      (fun _ => RangeOrder.insertion RuleGroupConfig)
      { memstore.twoNamespaces with
        rows := { memstore.rule "x" "ns1" "g1" 5 with OrgID := 2 } ::
          memstore.rulesTwoNamespaces }
      (memstore.request "prod" "g1") memstore.namespace_query_in_org
      memstore.group_query_in_org memstore.org_query_in_org,
    ⟨_, rfl, by decide⟩⟩

/-! ### Deletes, intervals, reads and upserts -/

/-- C13: deleting a rule group touches only the rows of its triple. When the slug resolves
to `namespaceUID`, `RouteDeleteRuleGroupConfig` passes the store exactly the delete command
with the caller's organization, `namespaceUID` and the group name of the request path: the
state after the route is the state after that one command, and the answer is the
acknowledgement or the error of that command. Over a store whose delete removes exactly the
rows matching the command's triple, the rows after the route are the rows before it without
those of the triple, so every rule with another group name, namespace or organization is
present afterwards exactly as often as before. -/
theorem deleteRuleGroup_frame {σ : Type} (srv : RulerSrv σ) (rows : σ → List AlertRule)
    (s : σ) (c : models.ReqContext) (namespaceUID : String)
    (hns : srv.store.GetNamespaceUIDBySlug s (c.Params ":Namespace") c.SignedInUser.OrgId
      c.SignedInUser = .ok namespaceUID)
    (hdel : ∀ (s0 : σ) (cmd : ngmodels.DeleteRuleGroupAlertRulesCommand),
      rows (srv.store.DeleteRuleGroupAlertRules s0 cmd).2 =
        (rows s0).filter (fun r => !cmd.selects r)) :
    (RouteDeleteRuleGroupConfig srv s c).2 =
      (srv.store.DeleteRuleGroupAlertRules s
        ⟨c.SignedInUser.OrgId, namespaceUID, c.Params ":Groupname"⟩).2 ∧
    ((srv.store.DeleteRuleGroupAlertRules s
        ⟨c.SignedInUser.OrgId, namespaceUID, c.Params ":Groupname"⟩).1 = none →
      (RouteDeleteRuleGroupConfig srv s c).1 =
        Response.JSON http.StatusAccepted (.dynMap [("message", "rule group deleted")])) ∧
    (∀ e, (srv.store.DeleteRuleGroupAlertRules s
        ⟨c.SignedInUser.OrgId, namespaceUID, c.Params ":Groupname"⟩).1 = some e →
      (RouteDeleteRuleGroupConfig srv s c).1 =
        Response.Error http.StatusInternalServerError "failed to delete group alert rules" e) ∧
    rows (RouteDeleteRuleGroupConfig srv s c).2 =
      (rows s).filter (fun r => !decide (r.OrgID = c.SignedInUser.OrgId ∧
        r.NamespaceUID = namespaceUID ∧ r.RuleGroup = c.Params ":Groupname")) ∧
    (∀ r : AlertRule,
      (r.RuleGroup ≠ c.Params ":Groupname" ∨ r.NamespaceUID ≠ namespaceUID ∨
        r.OrgID ≠ c.SignedInUser.OrgId) →
      (rows (RouteDeleteRuleGroupConfig srv s c).2).count r = (rows s).count r ∧
        (r ∈ rows (RouteDeleteRuleGroupConfig srv s c).2 ↔ r ∈ rows s)) := by
  have hstate : (RouteDeleteRuleGroupConfig srv s c).2 =
      (srv.store.DeleteRuleGroupAlertRules s
        ⟨c.SignedInUser.OrgId, namespaceUID, c.Params ":Groupname"⟩).2 := by
    simp only [RouteDeleteRuleGroupConfig, hns]
    split <;> simp_all
  have hrows : rows (RouteDeleteRuleGroupConfig srv s c).2 =
      (rows s).filter (fun r => !decide (r.OrgID = c.SignedInUser.OrgId ∧
        r.NamespaceUID = namespaceUID ∧ r.RuleGroup = c.Params ":Groupname")) := by
    rw [hstate, hdel]
    rfl
  refine ⟨hstate, ?_, ?_, hrows, ?_⟩
  · intro h
    simp only [RouteDeleteRuleGroupConfig, hns]
    split <;> simp_all
  · intro e h
    simp only [RouteDeleteRuleGroupConfig, hns]
    split <;> simp_all
  · intro r hr
    have hkeep : (!decide (r.OrgID = c.SignedInUser.OrgId ∧
        r.NamespaceUID = namespaceUID ∧ r.RuleGroup = c.Params ":Groupname")) = true := by
      simp only [Bool.not_eq_true', decide_eq_false_iff_not, not_and]
      intro h1 h2 h3
      rcases hr with h | h | h
      · exact h h3
      · exact h h2
      · exact h h1
    rw [hrows]
    refine ⟨?_, ?_⟩
    · exact List.count_filter hkeep
    · rw [List.mem_filter]
      exact ⟨fun h => h.1, fun h => ⟨h, hkeep⟩⟩

/-- Witness of C13, on the in-memory store: deleting the group `g1` of the namespace `prod`
leaves the rule of group `g2`, and the store received the one delete command. -/
theorem deleteRuleGroup_frame_witness :
    ((RouteDeleteRuleGroupConfig memstore.srv memstore.oneNamespace
        (memstore.request "prod" "g1")).2 =
      (memstore.srv.store.DeleteRuleGroupAlertRules memstore.oneNamespace
        ⟨(memstore.request "prod" "g1").SignedInUser.OrgId, "ns1",
          (memstore.request "prod" "g1").Params ":Groupname"⟩).2 ∧
    ((memstore.srv.store.DeleteRuleGroupAlertRules memstore.oneNamespace
        ⟨(memstore.request "prod" "g1").SignedInUser.OrgId, "ns1",
          (memstore.request "prod" "g1").Params ":Groupname"⟩).1 = none →
      (RouteDeleteRuleGroupConfig memstore.srv memstore.oneNamespace
        (memstore.request "prod" "g1")).1 =
        Response.JSON http.StatusAccepted (.dynMap [("message", "rule group deleted")])) ∧
    (∀ e, (memstore.srv.store.DeleteRuleGroupAlertRules memstore.oneNamespace
        ⟨(memstore.request "prod" "g1").SignedInUser.OrgId, "ns1",
          (memstore.request "prod" "g1").Params ":Groupname"⟩).1 = some e →
      (RouteDeleteRuleGroupConfig memstore.srv memstore.oneNamespace
        (memstore.request "prod" "g1")).1 =
        Response.Error http.StatusInternalServerError "failed to delete group alert rules" e) ∧
    memstore.State.rows (RouteDeleteRuleGroupConfig memstore.srv memstore.oneNamespace
        (memstore.request "prod" "g1")).2 =
      (memstore.State.rows memstore.oneNamespace).filter
        (fun r => !decide (r.OrgID = (memstore.request "prod" "g1").SignedInUser.OrgId ∧
          r.NamespaceUID = "ns1" ∧
          r.RuleGroup = (memstore.request "prod" "g1").Params ":Groupname")) ∧
    (∀ r : AlertRule,
      (r.RuleGroup ≠ (memstore.request "prod" "g1").Params ":Groupname" ∨
        r.NamespaceUID ≠ "ns1" ∨
        r.OrgID ≠ (memstore.request "prod" "g1").SignedInUser.OrgId) →
      (memstore.State.rows (RouteDeleteRuleGroupConfig memstore.srv memstore.oneNamespace
          (memstore.request "prod" "g1")).2).count r =
        (memstore.State.rows memstore.oneNamespace).count r ∧
        (r ∈ memstore.State.rows (RouteDeleteRuleGroupConfig memstore.srv
            memstore.oneNamespace (memstore.request "prod" "g1")).2 ↔
          r ∈ memstore.State.rows memstore.oneNamespace))) ∧
    RouteDeleteRuleGroupConfig memstore.srv memstore.oneNamespace
        (memstore.request "prod" "g1") =
      (Response.JSON http.StatusAccepted (.dynMap [("message", "rule group deleted")]),
        { memstore.oneNamespace with
          rows := [memstore.rule "c" "ns1" "g2" 30]
          calls := [.deleteRuleGroup ⟨1, "ns1", "g1"⟩] }) :=
  ⟨deleteRuleGroup_frame memstore.srv memstore.State.rows memstore.oneNamespace
      (memstore.request "prod" "g1") "ns1" rfl (fun _ _ => rfl),
    by decide⟩

/-- C14, as amended: the interval derivation is exact as long as the product fits 64 bits.
For every rule whose `IntervalSeconds` is between 0 and 9223372036, the derived interval is
`IntervalSeconds * 10^9` nanoseconds, and converting it back to whole seconds gives
`IntervalSeconds`. -/
theorem ruleGroupInterval_exact (r : AlertRule) (h0 : 0 ≤ r.IntervalSeconds)
    (h1 : r.IntervalSeconds ≤ 9223372036) :
    ruleGroupInterval r = r.IntervalSeconds * 1000000000 ∧
      ruleGroupInterval r / time.Second = r.IntervalSeconds := by
  have hw : ruleGroupInterval r = r.IntervalSeconds * 1000000000 := by
    simp only [ruleGroupInterval, wrapInt64, time.Second]
    norm_num
    omega
  refine ⟨hw, ?_⟩
  rw [hw, time.Second]
  omega

/-- Witness of the amended C14: the largest interval that converts exactly. -/
theorem ruleGroupInterval_exact_witness :
    ruleGroupInterval (memstore.rule "a" "ns1" "g1" 9223372036) =
        (memstore.rule "a" "ns1" "g1" 9223372036).IntervalSeconds * 1000000000 ∧
      ruleGroupInterval (memstore.rule "a" "ns1" "g1" 9223372036) / time.Second =
        (memstore.rule "a" "ns1" "g1" 9223372036).IntervalSeconds :=
  ruleGroupInterval_exact (memstore.rule "a" "ns1" "g1" 9223372036) (by decide) (by decide)

/-- Counterexample to C14 as stated: 9223372037 is a non-negative `int64`, and the interval
derived from it is the negative value the multiplication wraps around to, which is neither
`9223372037 * 10^9` nanoseconds nor 9223372037 seconds. -/
theorem ruleGroupInterval_overflows :
    0 ≤ (memstore.rule "a" "ns1" "g1" 9223372037).IntervalSeconds ∧
    (memstore.rule "a" "ns1" "g1" 9223372037).IntervalSeconds < 2 ^ 63 ∧
    ruleGroupInterval (memstore.rule "a" "ns1" "g1" 9223372037) = -9223372036709551616 ∧
    ruleGroupInterval (memstore.rule "a" "ns1" "g1" 9223372037) ≠
      (memstore.rule "a" "ns1" "g1" 9223372037).IntervalSeconds * 1000000000 ∧
    ruleGroupInterval (memstore.rule "a" "ns1" "g1" 9223372037) / time.Second ≠
      (memstore.rule "a" "ns1" "g1" 9223372037).IntervalSeconds := by
  decide

/-- C15: getting a rule group is a read, and repeating it gives the same document. The
answer and the state after `RouteGetRulegGroupConfig` depend on the store only through its
slug resolution and its group query, and on the request only through the signed-in user
(organization and principal), the slug and the group name. Over a store whose group query
leaves the state as it is, the state after the route is the state before it, so a second
call answers exactly as the first. -/
theorem getRuleGroup_read_only {σ : Type} (srv : RulerSrv σ) (s : σ) (c : models.ReqContext)
    (hread : ∀ (s0 : σ) (q : ngmodels.ListRuleGroupAlertRulesQuery),
      (srv.store.GetRuleGroupAlertRules s0 q).2 = s0) :
    (RouteGetRulegGroupConfig srv s c).2 = s ∧
    (RouteGetRulegGroupConfig srv (RouteGetRulegGroupConfig srv s c).2 c).1 =
      (RouteGetRulegGroupConfig srv s c).1 ∧
    (∀ c2 : models.ReqContext, c2.SignedInUser = c.SignedInUser →
      c2.Params ":Namespace" = c.Params ":Namespace" →
      c2.Params ":Groupname" = c.Params ":Groupname" →
      RouteGetRulegGroupConfig srv s c2 = RouteGetRulegGroupConfig srv s c) ∧
    (∀ srv2 : RulerSrv σ,
      srv2.store.GetNamespaceUIDBySlug = srv.store.GetNamespaceUIDBySlug →
      srv2.store.GetRuleGroupAlertRules = srv.store.GetRuleGroupAlertRules →
      RouteGetRulegGroupConfig srv2 s c = RouteGetRulegGroupConfig srv s c) := by
  have hstate : (RouteGetRulegGroupConfig srv s c).2 = s := by
    simp only [RouteGetRulegGroupConfig]
    split
    · rfl
    · rename_i uid _
      have := hread s ⟨c.SignedInUser.OrgId, uid, c.Params ":Groupname"⟩
      split <;> simp_all
  refine ⟨hstate, by rw [hstate], ?_, ?_⟩
  · intro c2 h1 h2 h3
    simp only [RouteGetRulegGroupConfig, h1, h2, h3]
  · intro srv2 h1 h2
    simp only [RouteGetRulegGroupConfig, h1, h2]

/-- Witness of C15, on the in-memory store whose queries leave the state as it is. -/
theorem getRuleGroup_read_only_witness :
    ((RouteGetRulegGroupConfig memstore.quietSrv memstore.oneNamespace
        (memstore.request "prod" "g1")).2 = memstore.oneNamespace ∧
    (RouteGetRulegGroupConfig memstore.quietSrv
        (RouteGetRulegGroupConfig memstore.quietSrv memstore.oneNamespace
          (memstore.request "prod" "g1")).2 (memstore.request "prod" "g1")).1 =
      (RouteGetRulegGroupConfig memstore.quietSrv memstore.oneNamespace
        (memstore.request "prod" "g1")).1 ∧
    (∀ c2 : models.ReqContext, c2.SignedInUser = (memstore.request "prod" "g1").SignedInUser →
      c2.Params ":Namespace" = (memstore.request "prod" "g1").Params ":Namespace" →
      c2.Params ":Groupname" = (memstore.request "prod" "g1").Params ":Groupname" →
      RouteGetRulegGroupConfig memstore.quietSrv memstore.oneNamespace c2 =
        RouteGetRulegGroupConfig memstore.quietSrv memstore.oneNamespace
          (memstore.request "prod" "g1")) ∧
    (∀ srv2 : RulerSrv memstore.State,
      srv2.store.GetNamespaceUIDBySlug = memstore.quietSrv.store.GetNamespaceUIDBySlug →
      srv2.store.GetRuleGroupAlertRules = memstore.quietSrv.store.GetRuleGroupAlertRules →
      RouteGetRulegGroupConfig srv2 memstore.oneNamespace (memstore.request "prod" "g1") =
        RouteGetRulegGroupConfig memstore.quietSrv memstore.oneNamespace
          (memstore.request "prod" "g1"))) ∧
    ∃ doc : RuleGroupConfig,
      RouteGetRulegGroupConfig memstore.quietSrv memstore.oneNamespace
          (memstore.request "prod" "g1") =
        (Response.JSON http.StatusAccepted (.ruleGroupConfig ⟨doc⟩), memstore.oneNamespace) ∧
      doc.Rules.length = 3 :=
  ⟨getRuleGroup_read_only memstore.quietSrv memstore.oneNamespace
      (memstore.request "prod" "g1") (fun _ _ => rfl),
    ⟨_, rfl, by decide⟩⟩

/-- C16: the upsert passes the request on to the store. When the slug resolves to
`namespaceUID`, `RoutePostNameRulesConfig` issues the one update command made of the
caller's organization, `namespaceUID`, the `Name` of the body as group name and the body
itself as group configuration: the state after the route is the state after that command,
the answer is the acknowledgement if and only if the store accepts the command, and
otherwise it is the store's error under the message `failed to update rule group`. On the
in-memory store, which records the calls it receives, that command is the only call the
route adds. -/
theorem upsert_pass_through {σ : Type} (srv : RulerSrv σ) (s : σ) (c : models.ReqContext)
    (ruleGroupConfig : RuleGroupConfig) (namespaceUID : String)
    (hns : srv.store.GetNamespaceUIDBySlug s (c.Params ":Namespace") c.SignedInUser.OrgId
      c.SignedInUser = .ok namespaceUID) :
    (RoutePostNameRulesConfig srv s c ruleGroupConfig).2 =
      (srv.store.UpdateRuleGroup s
        ⟨c.SignedInUser.OrgId, namespaceUID, ruleGroupConfig.Name, ruleGroupConfig⟩).2 ∧
    ((RoutePostNameRulesConfig srv s c ruleGroupConfig).1 =
        Response.JSON http.StatusAccepted
          (.dynMap [("message", "rule group updated successfully")]) ↔
      (srv.store.UpdateRuleGroup s
        ⟨c.SignedInUser.OrgId, namespaceUID, ruleGroupConfig.Name, ruleGroupConfig⟩).1 =
          none) ∧
    (∀ e, (srv.store.UpdateRuleGroup s
        ⟨c.SignedInUser.OrgId, namespaceUID, ruleGroupConfig.Name, ruleGroupConfig⟩).1 =
          some e →
      (RoutePostNameRulesConfig srv s c ruleGroupConfig).1 =
        Response.Error http.StatusInternalServerError "failed to update rule group" e) ∧
    (∀ (st : memstore.State) (uid : String),
      memstore.srv.store.GetNamespaceUIDBySlug st (c.Params ":Namespace") c.SignedInUser.OrgId
        c.SignedInUser = .ok uid →
      (RoutePostNameRulesConfig memstore.srv st c ruleGroupConfig).2.calls =
        st.calls ++
          [.updateRuleGroup ⟨c.SignedInUser.OrgId, uid, ruleGroupConfig.Name, ruleGroupConfig⟩]) := by
  refine ⟨?_, ?_, ?_, ?_⟩
  · simp only [RoutePostNameRulesConfig, hns]
    split <;> simp_all
  · simp only [RoutePostNameRulesConfig, hns]
    split <;> simp_all
  · intro e h
    simp only [RoutePostNameRulesConfig, hns]
    split <;> simp_all
  · intro st uid h
    simp only [RoutePostNameRulesConfig, h]
    rfl

/-- Witness of C16, on the in-memory store: the upsert of group `g9` into the namespace
`prod`. -/
theorem upsert_pass_through_witness :
    ((RoutePostNameRulesConfig memstore.srv memstore.oneNamespace
        (memstore.request "prod" "") ⟨"g9", 60000000000, []⟩).2 =
      (memstore.srv.store.UpdateRuleGroup memstore.oneNamespace
        ⟨(memstore.request "prod" "").SignedInUser.OrgId, "ns1",
          (apimodels.RuleGroupConfig.mk "g9" 60000000000 []).Name,
          ⟨"g9", 60000000000, []⟩⟩).2 ∧
    ((RoutePostNameRulesConfig memstore.srv memstore.oneNamespace
        (memstore.request "prod" "") ⟨"g9", 60000000000, []⟩).1 =
        Response.JSON http.StatusAccepted
          (.dynMap [("message", "rule group updated successfully")]) ↔
      (memstore.srv.store.UpdateRuleGroup memstore.oneNamespace
        ⟨(memstore.request "prod" "").SignedInUser.OrgId, "ns1",
          (apimodels.RuleGroupConfig.mk "g9" 60000000000 []).Name,
          ⟨"g9", 60000000000, []⟩⟩).1 = none) ∧
    (∀ e, (memstore.srv.store.UpdateRuleGroup memstore.oneNamespace
        ⟨(memstore.request "prod" "").SignedInUser.OrgId, "ns1",
          (apimodels.RuleGroupConfig.mk "g9" 60000000000 []).Name,
          ⟨"g9", 60000000000, []⟩⟩).1 = some e →
      (RoutePostNameRulesConfig memstore.srv memstore.oneNamespace
        (memstore.request "prod" "") ⟨"g9", 60000000000, []⟩).1 =
        Response.Error http.StatusInternalServerError "failed to update rule group" e) ∧
    (∀ (st : memstore.State) (uid : String),
      memstore.srv.store.GetNamespaceUIDBySlug st ((memstore.request "prod" "").Params
        ":Namespace") (memstore.request "prod" "").SignedInUser.OrgId
        (memstore.request "prod" "").SignedInUser = .ok uid →
      (RoutePostNameRulesConfig memstore.srv st (memstore.request "prod" "")
        ⟨"g9", 60000000000, []⟩).2.calls =
        st.calls ++
          [.updateRuleGroup ⟨(memstore.request "prod" "").SignedInUser.OrgId, uid,
            (apimodels.RuleGroupConfig.mk "g9" 60000000000 []).Name,
            ⟨"g9", 60000000000, []⟩⟩])) ∧
    RoutePostNameRulesConfig memstore.srv memstore.oneNamespace
        (memstore.request "prod" "") ⟨"g9", 60000000000, []⟩ =
      (Response.JSON http.StatusAccepted
          (.dynMap [("message", "rule group updated successfully")]),
        { memstore.oneNamespace with
          calls := [.updateRuleGroup ⟨1, "ns1", "g9", ⟨"g9", 60000000000, []⟩⟩] }) :=
  ⟨upsert_pass_through memstore.srv memstore.oneNamespace (memstore.request "prod" "")
      ⟨"g9", 60000000000, []⟩ "ns1" rfl,
    by decide⟩

/-! ### Store failures, and agreement of the aggregation paths -/

/-- C17: the descriptions under which the six routes report a store failure, evaluated on
the store whose deletes, queries and updates all fail. Each route returns the store's
error unchanged under a fixed description; `RouteGetNamespaceRulesConfig` reports its
failed query as `failed to update rule group`, the description under which
`RoutePostNameRulesConfig` reports a failed update, so these two routes do not have
descriptions of their own. -/
theorem store_failure_descriptions :
    RouteDeleteNamespaceRulesConfig memstore.failingSrv memstore.oneNamespace
        (memstore.request "prod" "g1") =
      (Response.Error 500 "failed to delete namespace alert rules" memstore.unavailable,
        memstore.oneNamespace) ∧
    RouteDeleteRuleGroupConfig memstore.failingSrv memstore.oneNamespace
        (memstore.request "prod" "g1") =
      (Response.Error 500 "failed to delete group alert rules" memstore.unavailable,
        memstore.oneNamespace) ∧
    RouteGetNamespaceRulesConfig memstore.failingSrv (RangeOrder.insertion RuleGroupConfig)
        memstore.oneNamespace (memstore.request "prod" "g1") =
      (Response.Error 500 "failed to update rule group" memstore.unavailable,
        memstore.oneNamespace) ∧
    RouteGetRulegGroupConfig memstore.failingSrv memstore.oneNamespace
        (memstore.request "prod" "g1") =
      (Response.Error 500 "failed to get group alert rules" memstore.unavailable,
        memstore.oneNamespace) ∧
    RouteGetRulesConfig memstore.failingSrv (RangeOrder.insertion (GoMap RuleGroupConfig))
        (fun _ => RangeOrder.insertion RuleGroupConfig) memstore.oneNamespace
        (memstore.request "prod" "g1") =
      (Response.Error 500 "failed to get alert rules" memstore.unavailable,
        memstore.oneNamespace) ∧
    RoutePostNameRulesConfig memstore.failingSrv memstore.oneNamespace
        (memstore.request "prod" "g1") ⟨"g1", 60000000000, []⟩ =
      (Response.Error 500 "failed to update rule group" memstore.unavailable,
        memstore.oneNamespace) := by
  decide

/-- C18: the namespace read and the group read agree on a group when its rules share one
cadence. Let the slug resolve, the namespace query return `rules`, in which rules of the
same `RuleGroup` have the same `IntervalSeconds`, and the group query for the group name
of the request return the rules of `rules` with that group name, which occurs in `rules`.
Then the rule group document answered by `RouteGetRulegGroupConfig` is one of the group
documents answered by `RouteGetNamespaceRulesConfig`, and it is the only one of that
name: the two documents have the same `Name`, `Interval` and `Rules`. -/
theorem namespace_and_group_reads_agree {σ : Type} (srv : RulerSrv σ)
    (order : RangeOrder RuleGroupConfig) (s sN sG : σ) (c : models.ReqContext)
    (namespaceUID : String) (rules : List AlertRule)
    (hns : srv.store.GetNamespaceUIDBySlug s (c.Params ":Namespace") c.SignedInUser.OrgId
      c.SignedInUser = .ok namespaceUID)
    (hqN : srv.store.GetNamespaceAlertRules s
      { OrgID := c.SignedInUser.OrgId, NamespaceUID := namespaceUID } = (.ok rules, sN))
    (hqG : srv.store.GetRuleGroupAlertRules s
      { OrgID := c.SignedInUser.OrgId, NamespaceUID := namespaceUID,
        RuleGroup := c.Params ":Groupname" } =
      (.ok (rules.filter (fun r => decide (r.RuleGroup = c.Params ":Groupname"))), sG))
    (hhom : ∀ r1 ∈ rules, ∀ r2 ∈ rules, r1.RuleGroup = r2.RuleGroup →
      r1.IntervalSeconds = r2.IntervalSeconds)
    (hocc : ∃ r ∈ rules, r.RuleGroup = c.Params ":Groupname") :
    ∃ (result : apimodels.NamespaceConfigResponse) (doc : RuleGroupConfig),
      RouteGetNamespaceRulesConfig srv order s c =
        (Response.JSON http.StatusAccepted (.namespaceConfig result), sN) ∧
      RouteGetRulegGroupConfig srv s c =
        (Response.JSON http.StatusAccepted (.ruleGroupConfig ⟨doc⟩), sG) ∧
      doc ∈ result.flatMap Prod.snd ∧
      ∀ d ∈ result.flatMap Prod.snd, d.Name = c.Params ":Groupname" → d = doc := by
  obtain ⟨h1, _, h3, _⟩ := visited_groups (order.visit_perm (namespaceRulesLoop rules))
  obtain ⟨d0, hd0, hname⟩ := List.mem_map.1 ((h3 (c.Params ":Groupname")).2 hocc)
  have hdoc := h1 d0 hd0
  rw [hname] at hdoc
  obtain ⟨_, hrules, first, hfirst, hint⟩ := groupDocument_eq_some hdoc
  have hp := List.find?_some hfirst
  have hfirstmem : first ∈ rules.filter (fun r => decide (r.RuleGroup = c.Params ":Groupname")) :=
    List.mem_filter.2 ⟨List.mem_of_find?_eq_some hfirst, hp⟩
  have hne : rules.filter (fun r => decide (r.RuleGroup = c.Params ":Groupname")) ≠ [] :=
    List.ne_nil_of_mem hfirstmem
  have hlastmem := List.getLast_mem hne
  have hsame : ruleGroupInterval
      ((rules.filter (fun r => decide (r.RuleGroup = c.Params ":Groupname"))).getLast hne) =
      ruleGroupInterval first := by
    obtain ⟨ha, hb⟩ := List.mem_filter.1 hlastmem
    obtain ⟨hc, hd⟩ := List.mem_filter.1 hfirstmem
    simp only [decide_eq_true_eq] at hb hd
    unfold ruleGroupInterval
    rw [hhom _ ha _ hc (hb.trans hd.symm)]
  have hloop : ruleGroupLoop
      (rules.filter (fun r => decide (r.RuleGroup = c.Params ":Groupname"))) (0, []) =
      (d0.Interval, d0.Rules) := by
    rw [ruleGroupLoop_eq, List.getLast?_eq_getLast _ hne, hint, hrules, ← hsame]
    rfl
  have hd0eq : (⟨c.Params ":Groupname", d0.Interval, d0.Rules⟩ : RuleGroupConfig) = d0 := by
    rw [← hname]
  refine ⟨appendGroups order [] (c.Params ":Namespace") (namespaceRulesLoop rules), d0,
    ?_, ?_, ?_, ?_⟩
  · simp only [RouteGetNamespaceRulesConfig, hns, hqN]
  · simp only [RouteGetRulegGroupConfig, hns, hqG, hloop, hd0eq]
  · rw [namespaceResult_docs]; exact hd0
  · intro d hd hdn
    rw [namespaceResult_docs] at hd
    have := h1 d hd
    rw [hdn, hdoc] at this
    exact (Option.some.inj this).symm

/-- Witness of C18, on the in-memory store in which the rules of group `g1` share an
interval of 60 seconds. -/
theorem namespace_and_group_reads_agree_witness :
    (∃ (result : apimodels.NamespaceConfigResponse) (doc : RuleGroupConfig),
      RouteGetNamespaceRulesConfig memstore.srv (RangeOrder.reversed RuleGroupConfig)
          memstore.sameCadence (memstore.request "prod" "g1") =
        (Response.JSON http.StatusAccepted (.namespaceConfig result),
          { memstore.sameCadence with
            calls := [.listNamespace { OrgID := 1, NamespaceUID := "ns1" }] }) ∧
      RouteGetRulegGroupConfig memstore.srv memstore.sameCadence
          (memstore.request "prod" "g1") =
        (Response.JSON http.StatusAccepted (.ruleGroupConfig ⟨doc⟩),
          { memstore.sameCadence with
            calls := [.listRuleGroup { OrgID := 1, NamespaceUID := "ns1", RuleGroup := "g1" }] }) ∧
      doc ∈ result.flatMap Prod.snd ∧
      ∀ d ∈ result.flatMap Prod.snd,
        d.Name = (memstore.request "prod" "g1").Params ":Groupname" → d = doc) ∧
    ∃ doc : RuleGroupConfig,
      (RouteGetRulegGroupConfig memstore.srv memstore.sameCadence
          (memstore.request "prod" "g1")).1 =
        Response.JSON http.StatusAccepted (.ruleGroupConfig ⟨doc⟩) ∧
      (doc.Name, doc.Interval, doc.Rules.length) = ("g1", 60000000000, 3) :=
  ⟨namespace_and_group_reads_agree memstore.srv (RangeOrder.reversed RuleGroupConfig)
      memstore.sameCadence _ _ (memstore.request "prod" "g1") "ns1"
      (memstore.State.rows memstore.sameCadence) rfl rfl rfl (by decide)
      ⟨memstore.rule "a" "ns1" "g1" 60, by decide, rfl⟩,
    ⟨_, rfl, by decide⟩⟩

/-- C19: the two-level fold refines the one-level fold. When the org query returns `rules`
and every namespace lookup succeeds, then for every display name `n` the group documents
listed under the key `n` by `RouteGetRulesConfig` (none if `n` is not a key) are, up to
their order, the group documents that the one-level aggregation of
`RouteGetNamespaceRulesConfig` builds from the rules of `rules` whose `NamespaceUID`
resolves to `n`; their names are pairwise distinct, so the two are the same mapping from
group name to group document. Consequently the rule nodes of the org-wide document are,
up to order, the translations of the input rules: none is dropped, none duplicated. -/
theorem org_fold_refines_namespace_fold {σ : Type} (srv : RulerSrv σ)
    (outer : RangeOrder (GoMap RuleGroupConfig)) (inner : String → RangeOrder RuleGroupConfig)
    (order : RangeOrder RuleGroupConfig) (s s1 : σ) (c : models.ReqContext)
    (rules : List AlertRule)
    (hq : srv.store.GetOrgAlertRules s { OrgID := c.SignedInUser.OrgId } = (.ok rules, s1))
    (hok : ∀ r ∈ rules, ∃ n,
      srv.store.GetNamespaceByUID s1 r.NamespaceUID c.SignedInUser.OrgId c.SignedInUser =
        .ok n) :
    ∃ result : apimodels.NamespaceConfigResponse,
      RouteGetRulesConfig srv outer inner s c =
        (Response.JSON http.StatusAccepted (.namespaceConfig result), s1) ∧
      (∀ n slug : String,
        ((index result n).getD []).Perm
            ((appendGroups order [] slug (namespaceRulesLoop (rules.filter
              (resolvesTo (fun uid => srv.store.GetNamespaceByUID s1 uid c.SignedInUser.OrgId
                c.SignedInUser) n)))).flatMap Prod.snd) ∧
          (((index result n).getD []).map (fun d => d.Name)).Nodup ∧
          ∀ d : RuleGroupConfig, d ∈ (index result n).getD [] ↔
            d ∈ (appendGroups order [] slug (namespaceRulesLoop (rules.filter
              (resolvesTo (fun uid => srv.store.GetNamespaceByUID s1 uid c.SignedInUser.OrgId
                c.SignedInUser) n)))).flatMap Prod.snd) ∧
      (result.flatMap (fun nd => nd.2.flatMap (fun d => d.Rules))).Perm
        (rules.map toExtendedRuleNode) := by
  obtain ⟨configs, h1, _, hnd, hkeys, hdocs⟩ :=
    orgRules_document
      (fun uid => srv.store.GetNamespaceByUID s1 uid c.SignedInUser.OrgId c.SignedInUser)
      rules outer inner (lookupFails_of_ok hok)
  refine ⟨flattenConfigs outer inner configs, ?_, ?_, orgResult_nodes outer inner h1⟩
  · simp only [RouteGetRulesConfig, hq, h1]
  · intro n slug
    have hperm : ((index (flattenConfigs outer inner configs) n).getD []).Perm
        ((order.visit (namespaceRulesLoop (rules.filter
          (resolvesTo (fun uid => srv.store.GetNamespaceByUID s1 uid c.SignedInUser.OrgId
            c.SignedInUser) n)))).map Prod.snd) := by
      cases hi : index (flattenConfigs outer inner configs) n with
      | none =>
        have hnot := (index_eq_none_iff _ _).1 hi
        have hnil : rules.filter
            (resolvesTo (fun uid => srv.store.GetNamespaceByUID s1 uid c.SignedInUser.OrgId
              c.SignedInUser) n) = [] := by
          rw [List.filter_eq_nil_iff]
          intro r hr hres
          exact hnot ((hkeys n).2 ⟨r, hr, (resolvesTo_iff _ n r).1 hres⟩)
        rw [hnil]
        have : order.visit (namespaceRulesLoop []) = [] :=
          (order.visit_perm (namespaceRulesLoop [])).eq_nil
        simp [this]
      | some docs =>
        obtain ⟨es, hp, he⟩ := hdocs n docs (mem_of_index hi)
        simp only [Option.getD_some]
        rw [he]
        exact (hp.trans (order.visit_perm _).symm).map Prod.snd
    rw [namespaceResult_docs]
    refine ⟨hperm, ?_, fun d => hperm.mem_iff⟩
    exact (hperm.map (fun d => d.Name)).nodup_iff.2
      (visited_groups (order.visit_perm _)).2.1

/-- Witness of C19, on the in-memory store with the namespaces `Production` and `Staging`:
the groups under `Production` are those of the one-level aggregation of the two rules of
the namespace `ns1`. -/
theorem org_fold_refines_namespace_fold_witness :
    (∃ result : apimodels.NamespaceConfigResponse,
      RouteGetRulesConfig memstore.srv (RangeOrder.reversed (GoMap RuleGroupConfig))
          (fun _ => RangeOrder.reversed RuleGroupConfig) memstore.twoNamespaces
          (memstore.request "" "") =
        (Response.JSON http.StatusAccepted (.namespaceConfig result),
          { memstore.twoNamespaces with calls := [.listOrg { OrgID := 1 }] }) ∧
      (∀ n slug : String,
        ((index result n).getD []).Perm
            ((appendGroups (RangeOrder.insertion RuleGroupConfig) [] slug
              (namespaceRulesLoop (memstore.rulesTwoNamespaces.filter
                (resolvesTo (fun uid => memstore.srv.store.GetNamespaceByUID
                  { memstore.twoNamespaces with calls := [.listOrg { OrgID := 1 }] } uid
                  (memstore.request "" "").SignedInUser.OrgId
                  (memstore.request "" "").SignedInUser) n)))).flatMap Prod.snd) ∧
          (((index result n).getD []).map (fun d => d.Name)).Nodup ∧
          ∀ d : RuleGroupConfig, d ∈ (index result n).getD [] ↔
            d ∈ (appendGroups (RangeOrder.insertion RuleGroupConfig) [] slug
              (namespaceRulesLoop (memstore.rulesTwoNamespaces.filter
                (resolvesTo (fun uid => memstore.srv.store.GetNamespaceByUID
                  { memstore.twoNamespaces with calls := [.listOrg { OrgID := 1 }] } uid
                  (memstore.request "" "").SignedInUser.OrgId
                  (memstore.request "" "").SignedInUser) n)))).flatMap Prod.snd) ∧
      (result.flatMap (fun nd => nd.2.flatMap (fun d => d.Rules))).Perm
        (memstore.rulesTwoNamespaces.map toExtendedRuleNode)) ∧
    ∃ result : apimodels.NamespaceConfigResponse,
      (RouteGetRulesConfig memstore.srv (RangeOrder.reversed (GoMap RuleGroupConfig))
          (fun _ => RangeOrder.reversed RuleGroupConfig) memstore.twoNamespaces
          (memstore.request "" "")).1 =
        Response.JSON http.StatusAccepted (.namespaceConfig result) ∧
      index result "Production" =
        some ((namespaceRulesLoop
          [memstore.rule "a" "ns1" "g1" 10, memstore.rule "c" "ns1" "g1" 30]).map Prod.snd) ∧
      (result.map (fun nd => (nd.1, nd.2.map (fun d => (d.Name, d.Rules.length))))) =
        [("Staging", [("g2", 1), ("g1", 1)]), ("Production", [("g1", 2)])] :=
  ⟨org_fold_refines_namespace_fold memstore.srv (RangeOrder.reversed (GoMap RuleGroupConfig))
      (fun _ => RangeOrder.reversed RuleGroupConfig) (RangeOrder.insertion RuleGroupConfig)
      memstore.twoNamespaces _ (memstore.request "" "") memstore.rulesTwoNamespaces rfl
      (by
        intro r hr
        simp only [memstore.rulesTwoNamespaces, List.mem_cons, List.mem_singleton,
          List.not_mem_nil, or_false] at hr
        rcases hr with rfl | rfl | rfl | rfl
        · exact ⟨"Production", rfl⟩
        · exact ⟨"Staging", rfl⟩
        · exact ⟨"Production", rfl⟩
        · exact ⟨"Staging", rfl⟩),
    ⟨_, rfl, by decide, by decide⟩⟩
